import Mathlib

/-!
# RFID-RC522 driver (`Sources/RFID_rc522.c`): shallow embedding and properties

The driver talks to the MFRC522 reader IC through three board primitives
(`SS0_LO`, `SS0_HI`, `send_SPI0`) and waits with `ms_delay`.  Those primitives
are assembly routines outside the C sources, so they are the parameters of the
embedding: a `Board σ` gives their effect on an arbitrary hardware state `σ`.

Machine integers are natural numbers; `uint8` results are reduced `% 256` and
`uint16` results `% 65536` where the C code can leave the range.  Buffers
(`uint8*`) are lists of bytes, read with `List.getD _ _ 0` and written with
`List.set`.  Every register access and every delay is also appended to a ghost
log, which is what the properties about "how many polls" talk about.

The PIN phase of `authenticate` (`Sources/main.c`) is embedded as well, on
the local variables it works with.
-/

namespace RC522

/-! ## Constants of `RFID_rc522.h` and `RFID_rc522_regs.h` -/

def RC522_IDLE_CMD : Nat := 0x00
def RC522_CALC_CRC_CMD : Nat := 0x03
def RC522_TRANSCEIVE_CMD : Nat := 0x0C
def RC522_AUTHENT_CMD : Nat := 0x0E
def RC522_RESET_CMD : Nat := 0x0F

def PICC_REQIDL : Nat := 0x26
def PICC_ANTICOLL : Nat := 0x93
def PICC_SElECTTAG : Nat := 0x93
def PICC_HALT : Nat := 0x50

def MI_OK : Nat := 0
def MI_NOTAGERR : Nat := 1
def MI_ERR : Nat := 2

def RC522_MAX_LEN : Nat := 16

def PICC_TYPE_NOT_COMPLETE : Nat := 0
def PICC_TYPE_MIFARE_MINI : Nat := 1
def PICC_TYPE_MIFARE_1K : Nat := 2
def PICC_TYPE_MIFARE_4K : Nat := 3
def PICC_TYPE_MIFARE_UL : Nat := 4
def PICC_TYPE_MIFARE_PLUS : Nat := 5
def PICC_TYPE_TNP3XXX : Nat := 6
def PICC_TYPE_ISO_14443_4 : Nat := 7
def PICC_TYPE_ISO_18092 : Nat := 8
def PICC_TYPE_UNKNOWN : Nat := 9

def COMMAND_REG : Nat := 0x01
def COM_IEN_REG : Nat := 0x02
def COM_IRQ_REG : Nat := 0x04
def DIV_IRQ_REG : Nat := 0x05
def ERROR_REG : Nat := 0x06
def STATUS2_REG : Nat := 0x08
def FIFO_DATA_REG : Nat := 0x09
def FIFO_LEVEL_REG : Nat := 0x0A
def CONTROL_REG : Nat := 0x0C
def BIT_FRAMING_REG : Nat := 0x0D
def MODE_REG : Nat := 0x11
def TX_CONTROL_REG : Nat := 0x14
def TX_ASK_REG : Nat := 0x15
def RX_SEL_REG : Nat := 0x17
def CRC_RESULT_REG_M : Nat := 0x21
def CRC_RESULT_REG_L : Nat := 0x22
def RF_CFG_REG : Nat := 0x26
def T_MODE_REG : Nat := 0x2A
def T_PRESCALER_REG : Nat := 0x2B
def T_RELOAD_REG_H : Nat := 0x2C
def T_RELOAD_REG_L : Nat := 0x2D
def VERSION_REG : Nat := 0x37

/-! ## The board and the run state -/

/-- The primitives the driver calls but does not define (`main_asm.h`,
`csc202_lab_support.h`), as functions on a hardware state `σ`. -/
structure Board (σ : Type) where
  SS0_LO : σ → σ
  SS0_HI : σ → σ
  send_SPI0 : σ → Nat → Nat × σ
  ms_delay : σ → Nat → σ
  set_lcd_addr : σ → Nat → σ
  write_int_lcd : σ → Nat → σ

/-- One entry of the ghost log: a register read with the byte obtained, a
register write with the byte sent, or a delay in milliseconds. -/
inductive Access where
  | rd (reg val : Nat)
  | wr (reg val : Nat)
  | delay (ms : Nat)
  deriving DecidableEq, Repr

/-- Hardware state together with the ghost log of the accesses made so far. -/
structure Run (σ : Type) where
  hw : σ
  log : List Access

/-- True on a logged read of register `reg`. -/
def Access.isRead (reg : Nat) : Access → Bool
  | .rd r _ => r == reg
  | _ => false

/-- True on a logged write of register `reg`. -/
def Access.isWrite (reg : Nat) : Access → Bool
  | .wr r _ => r == reg
  | _ => false

/-- True on a logged delay of `ms` milliseconds. -/
def Access.isDelay (ms : Nat) : Access → Bool
  | .delay m => m == ms
  | _ => false

/-! ## Register access layer -/

/-- `ms_delay(ms)`, logged. -/
def ms_delay {σ : Type} (E : Board σ) (st : Run σ) (ms : Nat) : Run σ :=
  ⟨E.ms_delay st.hw ms, st.log ++ [Access.delay ms]⟩

/-- `rc522_read_reg` (RFID_rc522.c:234). -/
def rc522_read_reg {σ : Type} (E : Board σ) (st : Run σ) (reg : Nat) : Nat × Run σ :=
  let h := E.SS0_LO st.hw
  let h := (E.send_SPI0 h ((((reg <<< 1) &&& 0xFE) ||| 0x80) % 256)).2
  let r := E.send_SPI0 h 0x00
  let data := r.1 % 256
  let h := E.SS0_HI r.2
  (data, ⟨h, st.log ++ [Access.rd reg data]⟩)

/-- `rc522_write_reg` (RFID_rc522.c:267). -/
def rc522_write_reg {σ : Type} (E : Board σ) (st : Run σ) (reg value : Nat) : Run σ :=
  let h := E.SS0_LO st.hw
  let h := (E.send_SPI0 h (((reg <<< 1) &&& 0x7E) % 256)).2
  let h := (E.send_SPI0 h (value % 256)).2
  let h := E.SS0_HI h
  ⟨h, st.log ++ [Access.wr reg (value % 256)]⟩

/-- `rc522_set_bitmask` (RFID_rc522.c:298). -/
def rc522_set_bitmask {σ : Type} (E : Board σ) (st : Run σ) (reg mask : Nat) : Run σ :=
  let r := rc522_read_reg E st reg
  let reg_value := (r.1 ||| mask) % 256
  rc522_write_reg E r.2 reg reg_value

/-- `rc522_clear_bitmask` (RFID_rc522.c:330); `~mask` is the complement of the
promoted 16-bit `int`, and the result is stored back into a `uint8`. -/
def rc522_clear_bitmask {σ : Type} (E : Board σ) (st : Run σ) (reg mask : Nat) : Run σ :=
  let r := rc522_read_reg E st reg
  let reg_value := (r.1 &&& (0xFFFF ^^^ mask)) % 256
  rc522_write_reg E r.2 reg reg_value

/-! ## Command executor -/

/-- The `irqEn` chosen by the `switch (command)` of `rc522_to_card`. -/
def irqEn_of (command : Nat) : Nat :=
  if command = RC522_AUTHENT_CMD then 0x12
  else if command = RC522_TRANSCEIVE_CMD then 0x77
  else 0x00

/-- The `waitIRq` chosen by the `switch (command)` of `rc522_to_card`. -/
def waitIRq_of (command : Nat) : Nat :=
  if command = RC522_AUTHENT_CMD then 0x10
  else if command = RC522_TRANSCEIVE_CMD then 0x30
  else 0x00

/-- Lines 401-421 of `rc522_to_card`: program the interrupt mask, clear the
pending flags, flush the FIFO, go idle, load the outgoing bytes, start the
command (and the transmission for Transceive). -/
def to_card_start {σ : Type} (E : Board σ) (st : Run σ) (command : Nat)
    (data_to_send : List Nat) (data_length : Nat) : Run σ :=
  let st := rc522_write_reg E st COM_IEN_REG (irqEn_of command ||| 0x80)
  let st := rc522_clear_bitmask E st COM_IRQ_REG 0x80
  let st := rc522_set_bitmask E st FIFO_LEVEL_REG 0x80
  let st := rc522_write_reg E st COMMAND_REG RC522_IDLE_CMD
  let st := (List.range data_length).foldl
    (fun st idx => rc522_write_reg E st FIFO_DATA_REG (data_to_send.getD idx 0)) st
  let st := rc522_write_reg E st COMMAND_REG command
  if command = RC522_TRANSCEIVE_CMD then rc522_set_bitmask E st BIT_FRAMING_REG 0x80 else st

/-- The `do ... while` loop of `rc522_to_card` (lines 428-433).  The numeric
argument is the value `timeout_cntr` has after the decrement of the current
iteration; the result is `(timeout_cntr, ird_status_reg, state)` on exit. -/
def to_card_wait {σ : Type} (E : Board σ) (waitIRq : Nat) : Nat → Run σ → Nat × Nat × Run σ
  | 0, st =>
    let r := rc522_read_reg E (ms_delay E st 10) COM_IRQ_REG
    (0, r.1, r.2)
  | k + 1, st =>
    let r := rc522_read_reg E (ms_delay E st 10) COM_IRQ_REG
    if r.1 &&& 0x01 = 0 ∧ r.1 &&& waitIRq = 0 then to_card_wait E waitIRq k r.2
    else (k + 1, r.1, r.2)

/-- The receive loop of `rc522_to_card` (lines 476-479). -/
def to_card_drain {σ : Type} (E : Board σ) (st : Run σ) (receive_data : List Nat)
    (data_in_fifo : Nat) : List Nat × Run σ :=
  (List.range data_in_fifo).foldl
    (fun acc idx =>
      let r := rc522_read_reg E acc.2 FIFO_DATA_REG
      (acc.1.set idx r.1, r.2))
    (receive_data, st)

/-- The value stored in `*bytes_received` (lines 456-463): the operands are
promoted to a signed `int`, the result is converted to `uint16`. -/
def to_card_bits (data_in_fifo lastBits : Nat) : Nat :=
  if lastBits ≠ 0 then
    ((((data_in_fifo : Int) - 1) * 8 + (lastBits : Int)) % 65536).toNat
  else
    (data_in_fifo * 8) % 65536

/-- `rc522_to_card` (RFID_rc522.c:368).  `bytes_received` is the value the
caller's `uint16` holds before the call; the result is
`(status, receive_data, *bytes_received, state)`. -/
def rc522_to_card {σ : Type} (E : Board σ) (st : Run σ) (command : Nat)
    (data_to_send : List Nat) (data_length : Nat) (receive_data : List Nat)
    (bytes_received : Nat) : Nat × List Nat × Nat × Run σ :=
  let irqEn := irqEn_of command
  let waitIRq := waitIRq_of command
  let st := to_card_start E st command data_to_send data_length
  -- timeout_cntr = 2000, decremented (as a uint16) before it is first tested
  let w := to_card_wait E waitIRq ((2000 + 65535) % 65536) st
  let timeout_cntr := w.1
  let ird_status_reg := w.2.1
  let st := rc522_clear_bitmask E w.2.2 BIT_FRAMING_REG 0x80
  if timeout_cntr ≠ 0 then
    let e := rc522_read_reg E st ERROR_REG
    if e.1 &&& 0x1B = 0 then
      let status := if ird_status_reg &&& irqEn &&& 0x01 ≠ 0 then MI_NOTAGERR else MI_OK
      if command = RC522_TRANSCEIVE_CMD then
        let f := rc522_read_reg E e.2 FIFO_LEVEL_REG
        let c := rc522_read_reg E f.2 CONTROL_REG
        let lastBits := c.1 &&& 0x07
        let bits := to_card_bits f.1 lastBits
        let data_in_fifo := if f.1 = 0 then 1 else f.1
        let data_in_fifo := if data_in_fifo > RC522_MAX_LEN then RC522_MAX_LEN else data_in_fifo
        let d := to_card_drain E c.2 receive_data data_in_fifo
        (status, d.1, bits, d.2)
      else
        (status, receive_data, bytes_received, e.2)
    else
      (MI_ERR, receive_data, bytes_received, e.2)
  else
    (MI_ERR, receive_data, bytes_received, st)

/-! ## Presence, anticollision, CRC, select, classification -/

/-- `rc522_is_card_present` (RFID_rc522.c:510).  `backBits` is the
indeterminate initial value of the local of that name; the result is
`(status, tag_type, state)`. -/
def rc522_is_card_present {σ : Type} (E : Board σ) (st : Run σ) (req_mode : Nat)
    (tag_type : List Nat) (backBits : Nat) : Nat × List Nat × Run σ :=
  let st := rc522_write_reg E st BIT_FRAMING_REG 0x07
  let tag_type := tag_type.set 0 req_mode
  let r := rc522_to_card E st RC522_TRANSCEIVE_CMD tag_type 1 tag_type backBits
  if r.1 ≠ MI_OK then (r.1, r.2.1, r.2.2.2)
  else if r.2.2.1 ≠ 0x10 then (MI_ERR, r.2.1, r.2.2.2)
  else (r.1, r.2.1, r.2.2.2)

/-- `MFRC522_Anticoll` (RFID_rc522.c:704).  `unLen` is the indeterminate
initial value of the local of that name; the result is
`(status, serial_num, state)`. -/
def MFRC522_Anticoll {σ : Type} (E : Board σ) (st : Run σ) (serial_num : List Nat)
    (unLen : Nat) : Nat × List Nat × Run σ :=
  let st := rc522_write_reg E st BIT_FRAMING_REG 0x00
  let serial_num := serial_num.set 0 PICC_ANTICOLL
  let serial_num := serial_num.set 1 0x20
  let r := rc522_to_card E st RC522_TRANSCEIVE_CMD serial_num 2 serial_num unLen
  let serial_num := r.2.1
  if r.1 = MI_OK then
    let serial_numCheck := (List.range 4).foldl (fun chk idx => chk ^^^ serial_num.getD idx 0) 0
    if serial_numCheck ≠ serial_num.getD 4 0 then (MI_ERR, serial_num, r.2.2.2)
    else (r.1, serial_num, r.2.2.2)
  else (r.1, serial_num, r.2.2.2)

/-- The `do ... while` loop of `rc522_calculate_CRC` (lines 770-774).  The
numeric argument is the value of `i` after the decrement of the current
iteration; the result is `(n, state)` on exit. -/
def crc_wait {σ : Type} (E : Board σ) : Nat → Run σ → Nat × Run σ
  | 0, st => rc522_read_reg E st DIV_IRQ_REG
  | k + 1, st =>
    let r := rc522_read_reg E st DIV_IRQ_REG
    if r.1 &&& 0x04 = 0 then crc_wait E k r.2 else r

/-- `rc522_calculate_CRC` (RFID_rc522.c:753); the result is
`((pOutData[0], pOutData[1]), state)`. -/
def rc522_calculate_CRC {σ : Type} (E : Board σ) (st : Run σ) (pIndata : List Nat)
    (len : Nat) : (Nat × Nat) × Run σ :=
  let st := rc522_clear_bitmask E st DIV_IRQ_REG 0x04
  let st := rc522_set_bitmask E st FIFO_LEVEL_REG 0x80
  let st := (List.range len).foldl
    (fun st i => rc522_write_reg E st FIFO_DATA_REG (pIndata.getD i 0)) st
  let st := rc522_write_reg E st COMMAND_REG RC522_CALC_CRC_CMD
  -- i = 0xFF, decremented (as a uint8) before it is first tested
  let w := crc_wait E ((0xFF + 255) % 256) st
  let lo := rc522_read_reg E w.2 CRC_RESULT_REG_L
  let mid := rc522_read_reg E lo.2 CRC_RESULT_REG_M
  ((lo.1, mid.1), mid.2)

/-- The frame `rc522_select_tag` builds in `buffer[32]` before the CRC is
appended (lines 804-812). -/
def select_frame (serial_num : List Nat) : List Nat :=
  let buffer := List.replicate 32 0
  let buffer := buffer.set 0 PICC_SElECTTAG
  let buffer := buffer.set 1 0x70
  (List.range 5).foldl (fun b i => b.set (i + 2) (serial_num.getD i 0)) buffer

/-- `rc522_select_tag` (RFID_rc522.c:798).  `data_received` is the
indeterminate initial value of the local of that name; the result is
`(size, state)`. -/
def rc522_select_tag {σ : Type} (E : Board σ) (st : Run σ) (serial_num : List Nat)
    (data_received : Nat) : Nat × Run σ :=
  let buffer := select_frame serial_num
  let c := rc522_calculate_CRC E st buffer 7
  let buffer := (buffer.set 7 c.1.1).set 8 c.1.2
  let r := rc522_to_card E c.2 RC522_TRANSCEIVE_CMD buffer 9 buffer data_received
  if r.1 = MI_OK ∧ r.2.2.1 = 0x18 then (r.2.1.getD 0 0, r.2.2.2)
  else (0, r.2.2.2)

/-- `MFRC522_ParseType` (RFID_rc522.c:867). -/
def MFRC522_ParseType (TagSelectRet : Nat) : Nat :=
  let return_type := PICC_TYPE_UNKNOWN
  let return_type := if TagSelectRet &&& 0x04 ≠ 0 then PICC_TYPE_NOT_COMPLETE else return_type
  let return_type :=
    match TagSelectRet with
    | 0x09 => PICC_TYPE_MIFARE_MINI
    | 0x08 => PICC_TYPE_MIFARE_1K
    | 0x18 => PICC_TYPE_MIFARE_4K
    | 0x00 => PICC_TYPE_MIFARE_UL
    | 0x10 => PICC_TYPE_MIFARE_PLUS
    | 0x11 => PICC_TYPE_MIFARE_PLUS
    | 0x01 => PICC_TYPE_TNP3XXX
    | _ => return_type
  let return_type := if TagSelectRet &&& 0x20 ≠ 0 then PICC_TYPE_ISO_14443_4 else return_type
  let return_type := if TagSelectRet &&& 0x40 ≠ 0 then PICC_TYPE_ISO_18092 else return_type
  return_type

/-! ## Intermediate values of one run of `rc522_to_card` -/

/-- The exit of the polling loop of `rc522_to_card`: `(timeout_cntr,
ird_status_reg, state)` at line 433, for the counter started at 2000. -/
def to_card_polled {σ : Type} (E : Board σ) (st : Run σ) (command : Nat)
    (data_to_send : List Nat) (data_length : Nat) : Nat × Nat × Run σ :=
  to_card_wait E (waitIRq_of command) ((2000 + 65535) % 65536)
    (to_card_start E st command data_to_send data_length)

/-- The read of the error register at line 440 (made when the counter is not
zero), after the StartSend bit has been cleared at line 436. -/
def to_card_error {σ : Type} (E : Board σ) (st : Run σ) (command : Nat)
    (data_to_send : List Nat) (data_length : Nat) : Nat × Run σ :=
  rc522_read_reg E
    (rc522_clear_bitmask E (to_card_polled E st command data_to_send data_length).2.2
      BIT_FRAMING_REG 0x80)
    ERROR_REG

/-- The read of the FIFO level register at line 453. -/
def to_card_level {σ : Type} (E : Board σ) (st : Run σ) (command : Nat)
    (data_to_send : List Nat) (data_length : Nat) : Nat × Run σ :=
  rc522_read_reg E (to_card_error E st command data_to_send data_length).2 FIFO_LEVEL_REG

/-- The read of the control register at line 454. -/
def to_card_control {σ : Type} (E : Board σ) (st : Run σ) (command : Nat)
    (data_to_send : List Nat) (data_length : Nat) : Nat × Run σ :=
  rc522_read_reg E (to_card_level E st command data_to_send data_length).2 CONTROL_REG

/-- The state after `n` iterations of the polling loop body (delay, read of
the interrupt register) started in state `s`. -/
def poll_state {σ : Type} (E : Board σ) : Nat → Run σ → Run σ
  | 0, s => s
  | n + 1, s => poll_state E n (rc522_read_reg E (ms_delay E s 10) COM_IRQ_REG).2

/-- The value of the interrupt register the device shows to poll number `n`
(counted from 0) of a polling loop started in state `s`. -/
def poll_value {σ : Type} (E : Board σ) (s : Run σ) (n : Nat) : Nat :=
  (rc522_read_reg E (ms_delay E (poll_state E n s) 10) COM_IRQ_REG).1

/-- The log entries of a run of polls that read the values `vs` in turn: each
poll is `ms_delay(10)` followed by a read of the interrupt register. -/
def poll_log : List Nat → List Access
  | [] => []
  | v :: vs => Access.delay 10 :: Access.rd COM_IRQ_REG v :: poll_log vs

/-- The log entries of lines 401-421 of `rc522_to_card`, given the values `a`,
`b`, `c` read from the interrupt, FIFO level and bit-framing registers. -/
def start_log (command : Nat) (data_to_send : List Nat) (data_length a b c : Nat) :
    List Access :=
  [Access.wr COM_IEN_REG ((irqEn_of command ||| 0x80) % 256),
   Access.rd COM_IRQ_REG a,
   Access.wr COM_IRQ_REG ((a &&& (0xFFFF ^^^ 0x80)) % 256 % 256),
   Access.rd FIFO_LEVEL_REG b,
   Access.wr FIFO_LEVEL_REG ((b ||| 0x80) % 256 % 256),
   Access.wr COMMAND_REG (RC522_IDLE_CMD % 256)] ++
  (List.range data_length).map
    (fun idx => Access.wr FIFO_DATA_REG (data_to_send.getD idx 0 % 256)) ++
  [Access.wr COMMAND_REG (command % 256)] ++
  (if command = RC522_TRANSCEIVE_CMD then
    [Access.rd BIT_FRAMING_REG c, Access.wr BIT_FRAMING_REG ((c ||| 0x80) % 256 % 256)]
   else [])

/-- A bus with nothing attached: every byte read back is 0. -/
def deadBoard : Board Unit where
  SS0_LO _ := ()
  SS0_HI _ := ()
  send_SPI0 _ _ := (0, ())
  ms_delay _ _ := ()
  set_lcd_addr _ _ := ()
  write_int_lcd _ _ := ()

/-! ## The executor calls made by the protocol functions -/

/-- The call `rc522_to_card(RC522_TRANSCEIVE_CMD, tag_type, 1, tag_type, &backBits)`
made by `rc522_is_card_present` (line 519). -/
def present_exchange {σ : Type} (E : Board σ) (st : Run σ) (req_mode : Nat)
    (tag_type : List Nat) (backBits : Nat) : Nat × List Nat × Nat × Run σ :=
  rc522_to_card E (rc522_write_reg E st BIT_FRAMING_REG 0x07) RC522_TRANSCEIVE_CMD
    (tag_type.set 0 req_mode) 1 (tag_type.set 0 req_mode) backBits

/-- The call `rc522_to_card(RC522_TRANSCEIVE_CMD, serial_num, 2, serial_num, &unLen)`
made by `MFRC522_Anticoll` (line 716). -/
def anticoll_exchange {σ : Type} (E : Board σ) (st : Run σ) (serial_num : List Nat)
    (unLen : Nat) : Nat × List Nat × Nat × Run σ :=
  rc522_to_card E (rc522_write_reg E st BIT_FRAMING_REG 0x00) RC522_TRANSCEIVE_CMD
    ((serial_num.set 0 PICC_ANTICOLL).set 1 0x20) 2
    ((serial_num.set 0 PICC_ANTICOLL).set 1 0x20) unLen

/-- The call `rc522_to_card(RC522_TRANSCEIVE_CMD, buffer, 9, buffer, &data_received)`
made by `rc522_select_tag` (line 814). -/
def select_exchange {σ : Type} (E : Board σ) (st : Run σ) (serial_num : List Nat)
    (data_received : Nat) : Nat × List Nat × Nat × Run σ :=
  let c := rc522_calculate_CRC E st (select_frame serial_num) 7
  let buffer := ((select_frame serial_num).set 7 c.1.1).set 8 c.1.2
  rc522_to_card E c.2 RC522_TRANSCEIVE_CMD buffer 9 buffer data_received

/-- The byte `rc522_select_tag` gets from the first read of the FIFO data
register (line 478 with `idx` 0) when its Transceive completes. -/
def select_first_byte {σ : Type} (E : Board σ) (st : Run σ) (serial_num : List Nat) : Nat :=
  let c := rc522_calculate_CRC E st (select_frame serial_num) 7
  let buffer := ((select_frame serial_num).set 7 c.1.1).set 8 c.1.2
  (rc522_read_reg E (to_card_control E c.2 RC522_TRANSCEIVE_CMD buffer 9).2 FIFO_DATA_REG).1

/-! ## A simulated reader IC -/

/-- What the simulated IC shows after a Transceive of a given outgoing frame:
the bytes left in its FIFO, the `RxLastBits` field, the interrupt flags it
raises, the error register, and how many reads of the interrupt register
still show nothing before the flags appear. -/
structure Reply where
  bytes : List Nat
  lastBits : Nat
  irq : Nat
  err : Nat
  latency : Nat

/-- State of the simulated IC behind the SPI bus. -/
structure Chip where
  card : List Nat → Reply
  addr : Option Nat
  regs : Nat → Nat
  fifo : List Nat
  irq : Nat
  pending : Nat
  divIrq : Nat
  err : Nat
  lastBits : Nat
  crc : Nat

/-- CRC_A of ISO/IEC 14443-3 (initial value 0x6363), as the coprocessor of the
simulated IC computes it. -/
def crc_a (bytes : List Nat) : Nat :=
  bytes.foldl
    (fun crc b =>
      let b := (b ^^^ crc) &&& 0xFF
      let b := (b ^^^ (b <<< 4)) &&& 0xFF
      ((crc >>> 8) ^^^ (b <<< 8) ^^^ (b <<< 3) ^^^ (b >>> 4)) &&& 0xFFFF)
    0x6363

/-- Register read inside the simulated IC. -/
def Chip.read (c : Chip) (reg : Nat) : Nat × Chip :=
  if reg = COM_IRQ_REG then
    if c.pending = 0 then (c.irq, c) else (0, { c with pending := c.pending - 1 })
  else if reg = DIV_IRQ_REG then (c.divIrq, c)
  else if reg = ERROR_REG then (c.err, c)
  else if reg = FIFO_DATA_REG then (c.fifo.headD 0, { c with fifo := c.fifo.tail })
  else if reg = FIFO_LEVEL_REG then (c.fifo.length, c)
  else if reg = CONTROL_REG then (c.lastBits, c)
  else if reg = CRC_RESULT_REG_M then (c.crc >>> 8, c)
  else if reg = CRC_RESULT_REG_L then (c.crc &&& 0xFF, c)
  else (c.regs reg, c)

/-- Register write inside the simulated IC. -/
def Chip.write (c : Chip) (reg v : Nat) : Chip :=
  if reg = COMMAND_REG then
    if v = RC522_TRANSCEIVE_CMD then
      let r := c.card c.fifo
      { c with fifo := r.bytes, lastBits := r.lastBits, irq := r.irq, err := r.err,
               pending := r.latency }
    else if v = RC522_CALC_CRC_CMD then
      { c with crc := crc_a c.fifo, divIrq := c.divIrq ||| 0x04, fifo := [] }
    else c
  else if reg = COM_IRQ_REG then
    if v &&& 0x80 = 0 then { c with irq := c.irq &&& (0xFF ^^^ v) }
    else { c with irq := c.irq ||| (v &&& 0x7F) }
  else if reg = DIV_IRQ_REG then
    if v &&& 0x80 = 0 then { c with divIrq := c.divIrq &&& (0xFF ^^^ v) }
    else { c with divIrq := c.divIrq ||| (v &&& 0x7F) }
  else if reg = FIFO_DATA_REG then { c with fifo := c.fifo ++ [v] }
  else if reg = FIFO_LEVEL_REG then
    if v &&& 0x80 ≠ 0 then { c with fifo := [] } else c
  else { c with regs := fun r => if r = reg then v else c.regs r }

/-- The simulated IC on the SPI bus: the first byte of a frame is the address
byte (bit 7 read/write, bits 6..1 the register), the second the data. -/
def simBoard : Board Chip where
  SS0_LO c := { c with addr := none }
  SS0_HI c := { c with addr := none }
  send_SPI0 c b :=
    match c.addr with
    | none => (0, { c with addr := some b })
    | some a =>
      if a &&& 0x80 ≠ 0 then c.read ((a >>> 1) &&& 0x3F)
      else (0, c.write ((a >>> 1) &&& 0x3F) b)
  ms_delay c _ := c
  set_lcd_addr c _ := c
  write_int_lcd c _ := c

/-- A powered-up simulated IC in front of the given card. -/
def Chip.init (card : List Nat → Reply) : Chip :=
  { card := card, addr := none, regs := fun _ => 0, fifo := [], irq := 0, pending := 0,
    divIrq := 0, err := 0, lastBits := 0, crc := 0 }

/-- The card of the end-to-end scenario: ATQA on REQA, UID 01 02 03 04 with
checksum 04 on anticollision, SAK 08 with its CRC_A on select, silence (timer
interrupt) on anything else. -/
def scenarioCard (frame : List Nat) : Reply :=
  match frame with
  | [0x26] => ⟨[0x04, 0x00], 0, 0x30, 0, 0⟩
  | [0x93, 0x20] => ⟨[0x01, 0x02, 0x03, 0x04, 0x04], 0, 0x30, 0, 0⟩
  | 0x93 :: 0x70 :: _ => ⟨[0x08, crc_a [0x08] &&& 0xFF, crc_a [0x08] >>> 8], 0, 0x30, 0, 0⟩
  | _ => ⟨[], 0, 0x01, 0, 0⟩

/-! ## UID responses -/

/-- The five bytes a card sends in answer to anticollision: the UID and the
XOR of its four bytes. -/
def uid_response (b0 b1 b2 b3 : Nat) : List Nat :=
  [b0, b1, b2, b3, b0 ^^^ b1 ^^^ b2 ^^^ b3]

/-- The response `resp` with bit `k` of byte `i` inverted. -/
def flip_bit (resp : List Nat) (i k : Nat) : List Nat :=
  resp.set i (resp.getD i 0 ^^^ (1 <<< k))

/-! ## A card that answers every Transceive with a fixed reply -/

/-- A card that answers every frame with `bytes` (and `lastBits` valid bits in
the last byte), raising the receive and idle interrupts at once. -/
def fixedCard (bytes : List Nat) (lastBits : Nat) (_frame : List Nat) : Reply :=
  ⟨bytes, lastBits, 0x30, 0, 0⟩

/-! ## Initialisation, card detection loops and halt -/

def FALSE : Nat := 0
def TRUE : Nat := 1
def LCD_LINE_2_ADDR : Nat := 0x40

/-- `rc522_soft_reset` (RFID_rc522.c:143). -/
def rc522_soft_reset {σ : Type} (E : Board σ) (st : Run σ) : Run σ :=
  rc522_write_reg E st COMMAND_REG RC522_RESET_CMD

/-- `rc522_antenna_on` (RFID_rc522.c:652). -/
def rc522_antenna_on {σ : Type} (E : Board σ) (st : Run σ) : Run σ :=
  let r := rc522_read_reg E st TX_CONTROL_REG
  if r.1 &&& 0x03 = 0 then rc522_set_bitmask E r.2 TX_CONTROL_REG 0x03 else r.2

/-- The value `rc522_init` reads back from the timer prescaler register at
line 181, right after writing 0x3E to it. -/
def init_readback {σ : Type} (E : Board σ) (st : Run σ) : Nat × Run σ :=
  rc522_read_reg E
    (rc522_write_reg E (ms_delay E (rc522_soft_reset E st) 200) T_PRESCALER_REG 0x3E)
    T_PRESCALER_REG

/-- `rc522_init` (RFID_rc522.c:170); the result is `(status, state)`.  The
character constant `'A'` is 0x41. -/
def rc522_init {σ : Type} (E : Board σ) (st : Run σ) (card_type : Nat) : Nat × Run σ :=
  let status := MI_OK
  let st := rc522_soft_reset E st
  let st := ms_delay E st 200
  let st := rc522_write_reg E st T_PRESCALER_REG 0x3E
  let r := rc522_read_reg E st T_PRESCALER_REG
  let status := if r.1 ≠ 0x3E then MI_ERR else status
  let st := rc522_write_reg E r.2 T_MODE_REG 0x8D
  let st := rc522_write_reg E st T_PRESCALER_REG 0x3E
  let st := rc522_write_reg E st T_RELOAD_REG_L 30
  let st := rc522_write_reg E st T_RELOAD_REG_H 0
  let st := rc522_write_reg E st TX_ASK_REG 0x40
  let st := rc522_write_reg E st MODE_REG 0x3D
  let st :=
    if card_type = 0x41 then
      let st := rc522_clear_bitmask E st STATUS2_REG 0x08
      let st := rc522_write_reg E st MODE_REG 0x3D
      let st := rc522_write_reg E st RX_SEL_REG 0x86
      let st := rc522_write_reg E st RF_CFG_REG 0x7F
      let st := rc522_write_reg E st T_RELOAD_REG_L 30
      let st := rc522_write_reg E st T_RELOAD_REG_H 0
      let st := rc522_write_reg E st T_MODE_REG 0x8D
      rc522_write_reg E st T_PRESCALER_REG 0x3E
    else st
  let st := rc522_antenna_on E st
  (status, st)

/-- The two LCD calls of `rc522_wait_for_card_present` (lines 569-570); they
are not register accesses and leave the log as it is. -/
def show_on_lcd {σ : Type} (E : Board σ) (st : Run σ) (data : Nat) : Run σ :=
  ⟨E.write_int_lcd (E.set_lcd_addr st.hw LCD_LINE_2_ADDR) data, st.log⟩

/-- The `while (timeout > 0)` loop of `rc522_wait_for_card_present` (lines
560-583), by recursion on `timeout`; `status` is FALSE whenever the loop test
is reached with `timeout` positive, and a match sets `timeout` to 0, which
ends the loop.  The result is `(status, state)`. -/
def wait_present_loop {σ : Type} (E : Board σ) : Nat → Run σ → Nat × Run σ
  | 0, st => (FALSE, st)
  | timeout + 1, st =>
    let st := rc522_write_reg E st BIT_FRAMING_REG 0x87
    let r := rc522_read_reg E st COM_IRQ_REG
    let st := show_on_lcd E r.2 r.1
    if r.1 &&& 0x10 = 0x10 then
      (TRUE, rc522_write_reg E st COM_IRQ_REG 0x7F)
    else
      wait_present_loop E timeout (ms_delay E st 5)

/-- `rc522_wait_for_card_present` (RFID_rc522.c:555). -/
def rc522_wait_for_card_present {σ : Type} (E : Board σ) (st : Run σ) (timeout : Nat) :
    Nat × Run σ :=
  wait_present_loop E timeout st

/-- The `while (timeout > 0 && !removed)` loop of
`rc522_wait_for_card_removed` (lines 616-631), by recursion on `timeout`;
`removed` is FALSE whenever the body is entered.  The result is
`(removed, state)`. -/
def wait_removed_loop {σ : Type} (E : Board σ) : Nat → Run σ → Nat × Run σ
  | 0, st => (FALSE, st)
  | timeout + 1, st =>
    let r := rc522_read_reg E st COM_IRQ_REG
    if r.1 &&& 0x10 ≠ 0 ∧ r.1 &&& 0x02 ≠ 0 then (TRUE, r.2)
    else wait_removed_loop E timeout (ms_delay E r.2 1)

/-- `rc522_wait_for_card_removed` (RFID_rc522.c:608). -/
def rc522_wait_for_card_removed {σ : Type} (E : Board σ) (st : Run σ) (timeout : Nat) :
    Nat × Run σ :=
  wait_removed_loop E timeout (rc522_write_reg E st BIT_FRAMING_REG 0x00)

/-- `rc522_send_halt` (RFID_rc522.c:939).  `b2`, `b3` are the indeterminate
initial contents of `buff[2]` and `buff[3]`, `unLen` that of the local of that
name; the function returns nothing, so the result is the state alone.  In the
source `unLen` is a `uint8` whose address is passed where a `uint16*` is
expected; the two-byte store into it is a matter of memory layout and is not
part of this model. -/
def rc522_send_halt {σ : Type} (E : Board σ) (st : Run σ) (b2 b3 unLen : Nat) : Run σ :=
  let buff := [PICC_HALT, 0, b2, b3]
  let c := rc522_calculate_CRC E st buff 2
  let buff := (buff.set 2 c.1.1).set 3 c.1.2
  let r := rc522_to_card E c.2 RC522_TRANSCEIVE_CMD buff 4 buff unLen
  r.2.2.2

/-! ## Definitions used to state the later properties -/

/-- The log entries of one run of `rc522_calculate_CRC`, given the values `x`
and `y` read from the divider-interrupt and FIFO level registers at the
start, the values `vs` read by the polls of the divider-interrupt register,
and the two result bytes read at the end. -/
def crc_log (pIndata : List Nat) (len x y : Nat) (vs : List Nat) (lo mid : Nat) :
    List Access :=
  [Access.rd DIV_IRQ_REG x,
   Access.wr DIV_IRQ_REG ((x &&& (0xFFFF ^^^ 0x04)) % 256 % 256),
   Access.rd FIFO_LEVEL_REG y,
   Access.wr FIFO_LEVEL_REG ((y ||| 0x80) % 256 % 256)] ++
  (List.range len).map (fun i => Access.wr FIFO_DATA_REG (pIndata.getD i 0 % 256)) ++
  [Access.wr COMMAND_REG (RC522_CALC_CRC_CMD % 256)] ++
  vs.map (Access.rd DIV_IRQ_REG) ++
  [Access.rd CRC_RESULT_REG_L lo, Access.rd CRC_RESULT_REG_M mid]

/-- A reader IC whose CRC coprocessor never runs: the CRC-done flag stays
clear, writes are ignored, and the two CRC result registers keep showing the
16-bit value they held.  The state is the address byte of the SPI frame in
progress and that value. -/
def staleBoard : Board (Option Nat × Nat) where
  SS0_LO s := (none, s.2)
  SS0_HI s := (none, s.2)
  send_SPI0 s b :=
    match s.1 with
    | none => (0, (some b, s.2))
    | some a =>
      if a &&& 0x80 ≠ 0 then
        if (a >>> 1) &&& 0x3F = CRC_RESULT_REG_L then (s.2 &&& 0xFF, s)
        else if (a >>> 1) &&& 0x3F = CRC_RESULT_REG_M then (s.2 >>> 8, s)
        else (0, s)
      else (0, s)
  ms_delay s _ := s
  set_lcd_addr s _ := s
  write_int_lcd s _ := s

/-- A bus that records every byte sent on it and answers 0; the state is the
list of bytes sent so far. -/
def spyBoard : Board (List Nat) where
  SS0_LO s := s
  SS0_HI s := s
  send_SPI0 s b := (0, s ++ [b])
  ms_delay s _ := s
  set_lcd_addr s _ := s
  write_int_lcd s _ := s

/-- True on a logged write to a register other than `reg`. -/
def Access.writesOther (reg : Nat) : Access → Bool
  | .wr r _ => r != reg
  | _ => false

/-- The writes to the FIFO data register and to the command register found in
a log, in the order in which they were made. -/
def frame_trace (log : List Access) : List Access :=
  log.filter (fun e => Access.isWrite FIFO_DATA_REG e || Access.isWrite COMMAND_REG e)

/-- The read of the interrupt register made by one turn of the loop of
`rc522_wait_for_card_present` entered in state `st` (lines 563-564). -/
def present_read {σ : Type} (E : Board σ) (st : Run σ) : Nat × Run σ :=
  rc522_read_reg E (rc522_write_reg E st BIT_FRAMING_REG 0x87) COM_IRQ_REG

/-- The state after `n` turns of the loop of `rc522_wait_for_card_present`
that found no card, started in state `s`. -/
def present_state {σ : Type} (E : Board σ) : Nat → Run σ → Run σ
  | 0, s => s
  | n + 1, s =>
    present_state E n
      (ms_delay E (show_on_lcd E (present_read E s).2 (present_read E s).1) 5)

/-- The value of the interrupt register the device shows to read number `n`
(counted from 0) of `rc522_wait_for_card_present` started in state `s`. -/
def present_value {σ : Type} (E : Board σ) (s : Run σ) (n : Nat) : Nat :=
  (present_read E (present_state E n s)).1

/-- The log entries of turns of the loop of `rc522_wait_for_card_present`
that read the values `vs` and found no card. -/
def present_log : List Nat → List Access
  | [] => []
  | v :: vs =>
    Access.wr BIT_FRAMING_REG 0x87 :: Access.rd COM_IRQ_REG v :: Access.delay 5 ::
      present_log vs

/-- The state after `n` turns of the loop of `rc522_wait_for_card_removed`
that did not see the card leave, started in state `s`. -/
def removed_state {σ : Type} (E : Board σ) : Nat → Run σ → Run σ
  | 0, s => s
  | n + 1, s => removed_state E n (ms_delay E (rc522_read_reg E s COM_IRQ_REG).2 1)

/-- The value of the interrupt register the device shows to read number `n`
(counted from 0) of the loop of `rc522_wait_for_card_removed` started in
state `s`. -/
def removed_value {σ : Type} (E : Board σ) (s : Run σ) (n : Nat) : Nat :=
  (rc522_read_reg E (removed_state E n s) COM_IRQ_REG).1

/-- The log entries of turns of the loop of `rc522_wait_for_card_removed`
that read the values `vs` and did not see the card leave. -/
def removed_log : List Nat → List Access
  | [] => []
  | v :: vs => Access.rd COM_IRQ_REG v :: Access.delay 1 :: removed_log vs

/-- A device whose registers return the last value written: 64 byte registers
behind the SPI address byte, and nothing else.  The state is the address byte
of the SPI frame in progress and the register file. -/
def memBoard : Board (Option Nat × (Nat → Nat)) where
  SS0_LO s := (none, s.2)
  SS0_HI s := (none, s.2)
  send_SPI0 s b :=
    match s.1 with
    | none => (0, (some b, s.2))
    | some a =>
      if a &&& 0x80 ≠ 0 then (s.2 ((a >>> 1) &&& 0x3F), s)
      else (0, (s.1, fun r => if r = (a >>> 1) &&& 0x3F then b else s.2 r))
  ms_delay s _ := s
  set_lcd_addr s _ := s
  write_int_lcd s _ := s

/-- A Transceive started in state `st` completes (counter not zero at the
exit of the polling loop, no masked bit in the error register) and then reads
FIFO level 0 together with a non-zero `lastBits` field. -/
def completes_empty_with_last_bits {σ : Type} (E : Board σ) (st : Run σ)
    (data_to_send : List Nat) (data_length : Nat) : Prop :=
  (to_card_polled E st RC522_TRANSCEIVE_CMD data_to_send data_length).1 ≠ 0 ∧
  (to_card_error E st RC522_TRANSCEIVE_CMD data_to_send data_length).1 &&& 0x1B = 0 ∧
  (to_card_level E st RC522_TRANSCEIVE_CMD data_to_send data_length).1 = 0 ∧
  (to_card_control E st RC522_TRANSCEIVE_CMD data_to_send data_length).1 &&& 0x07 ≠ 0

/-! ## Names of the card types -/

/-- `PICC_TYPE_STRING` (RFID_rc522.c:84). -/
def PICC_TYPE_STRING : List String :=
  ["PICC_TYPE_NOT_COMPLETE",
   "PICC_TYPE_MIFARE_MINI",
   "PICC_TYPE_MIFARE_1K",
   "PICC_TYPE_MIFARE_4K",
   "PICC_TYPE_MIFARE_UL",
   "PICC_TYPE_MIFARE_PLUS",
   "PICC_TYPE_TNP3XXX",
   "PICC_TYPE_ISO_14443_4",
   "PICC_TYPE_ISO_18092",
   "PICC_TYPE_UNKNOWN"]

/-- `rc522_type_to_string` (RFID_rc522.c:844): the entry of `PICC_TYPE_STRING`
at index `type`; `none` stands for an index outside the table, where the C
code reads past the array. -/
def rc522_type_to_string (type : Nat) : Option String :=
  PICC_TYPE_STRING[type]?

/-! ## The PIN phase of `authenticate` (`main.c`) -/

def NO_AUTHENTICATION : Nat := 0
def AUTHENTICATED_USER : Nat := 1
def AUTHENTICATED_ADMINISTRATOR : Nat := 2
def MAX_PIN_TRIES : Nat := 4

/-- The array `correct_admin_pin` of `authenticate` (main.c:250), filled with
`ADMINISTRATOR_PIN_CHAR_1` .. `ADMINISTRATOR_PIN_CHAR_4`. -/
def correct_admin_pin : List Nat := [1, 2, 3, 4]

/-- The locals of `authenticate` its PIN loop works on, and whether
`beginAlarm` has been called. -/
structure PinState where
  successful_authentication : Nat
  current_administrator_try : Nat
  current_pin_idx : Nat
  pin_sequence : List Nat
  alarm : Bool
  deriving DecidableEq, Repr

/-- The `for` loop of main.c:360-370: the value of
`n_successful_consecutive_sequence` after comparing the first
`current_pin_idx` entered digits with the PIN. -/
def pin_check (pin_sequence : List Nat) (current_pin_idx : Nat) : Nat :=
  (List.range current_pin_idx).foldl
    (fun n i => if pin_sequence.getD i 0 = correct_admin_pin.getD i 0 then n + 1 else 0) 0

/-- The `while (current_administrator_try < MAX_PIN_TRIES - 1)` loop of
`authenticate` (main.c:344-385), by recursion on the keys that `getkey`
delivers, one per turn.  The result is `none` when the keys run out while the
loop is still waiting in `getkey`.  The beeps, delays and LCD calls of the
body do not touch the variables of the state and are left out; the statement
`successful_authentication == AUTHENTICATED_ADMINISTRATOR;` of line 375 is a
comparison whose value is discarded. -/
def pin_loop : List Nat → PinState → Option PinState
  | [], s => if s.current_administrator_try < MAX_PIN_TRIES - 1 then none else some s
  | key :: keys, s =>
    if s.current_administrator_try < MAX_PIN_TRIES - 1 then
      let idx := if s.current_pin_idx > 3 then 0 else s.current_pin_idx
      let pin_sequence := s.pin_sequence.set idx key
      let idx := idx + 1
      if pin_check pin_sequence idx = MAX_PIN_TRIES then
        some { s with current_pin_idx := idx, pin_sequence := pin_sequence }
      else if idx = 4 then
        pin_loop keys { s with current_pin_idx := idx, pin_sequence := pin_sequence,
                               current_administrator_try := s.current_administrator_try + 1 }
      else
        pin_loop keys { s with current_pin_idx := idx, pin_sequence := pin_sequence }
    else some s

/-- Lines 336-391 of `authenticate`: what follows the card scan.
`successful_authentication` is the value the scan left, `pin_sequence` the
indeterminate initial contents of the array of that name, `keys` the keys the
user presses.  `beginAlarm()` is recorded in the field `alarm`. -/
def authenticate_pin (successful_authentication : Nat) (pin_sequence keys : List Nat) :
    Option PinState :=
  let s : PinState := ⟨successful_authentication, 1, 0, pin_sequence, false⟩
  if successful_authentication = AUTHENTICATED_ADMINISTRATOR then
    match pin_loop keys s with
    | none => none
    | some s =>
      if s.successful_authentication ≠ AUTHENTICATED_ADMINISTRATOR then
        some { s with alarm := true }
      else some s
  else some s

/-! ## Card type classifier -/

set_option maxRecDepth 100000 in
/-- C1: for every SAK byte with bits 0x20 and 0x40 clear, `MFRC522_ParseType`
gives the value of the direct table (0x09 MifareMini, 0x08 Mifare1K, 0x18
Mifare4K, 0x00 MifareUltralight, 0x10 and 0x11 MifarePlus, 0x01 Tnp3xxx) and
otherwise NotComplete when bit 0x04 is set and Unknown when it is clear. -/
theorem parseType_table (sak : Nat) (hbyte : sak < 256) (h20 : sak &&& 0x20 = 0)
    (h40 : sak &&& 0x40 = 0) :
    MFRC522_ParseType sak =
      if sak = 0x09 then PICC_TYPE_MIFARE_MINI
      else if sak = 0x08 then PICC_TYPE_MIFARE_1K
      else if sak = 0x18 then PICC_TYPE_MIFARE_4K
      else if sak = 0x00 then PICC_TYPE_MIFARE_UL
      else if sak = 0x10 ∨ sak = 0x11 then PICC_TYPE_MIFARE_PLUS
      else if sak = 0x01 then PICC_TYPE_TNP3XXX
      else if sak &&& 0x04 ≠ 0 then PICC_TYPE_NOT_COMPLETE
      else PICC_TYPE_UNKNOWN := by
  revert sak
  decide

/-- Witness of C1 at SAK 0x0C, a value outside the table with the cascade bit. -/
theorem parseType_table_witness :
    0x0C < 256 ∧ 0x0C &&& 0x20 = 0 ∧ 0x0C &&& 0x40 = 0 ∧
      MFRC522_ParseType 0x0C = PICC_TYPE_NOT_COMPLETE :=
  ⟨by decide, by decide, by decide,
    parseType_table 0x0C (by decide) (by decide) (by decide)⟩

set_option maxRecDepth 100000 in
/-- C2: for every SAK byte, bit 0x40 forces Iso18092, and bit 0x20 without bit
0x40 forces Iso14443_4, whatever the cascade bit and the table say; 0x08 is
Mifare1K, 0x18 is Mifare4K and 0x28 is Iso14443_4. -/
theorem parseType_overrides (sak : Nat) (hbyte : sak < 256) :
    (sak &&& 0x40 ≠ 0 → MFRC522_ParseType sak = PICC_TYPE_ISO_18092) ∧
    (sak &&& 0x20 ≠ 0 → sak &&& 0x40 = 0 → MFRC522_ParseType sak = PICC_TYPE_ISO_14443_4) ∧
    MFRC522_ParseType 0x08 = PICC_TYPE_MIFARE_1K ∧
    MFRC522_ParseType 0x18 = PICC_TYPE_MIFARE_4K ∧
    MFRC522_ParseType 0x28 = PICC_TYPE_ISO_14443_4 := by
  revert sak
  decide

/-- Witness of C2 at SAK 0x28 (the table value 0x08 with bit 0x20 added) and at
0x48 (the same with bit 0x40). -/
theorem parseType_overrides_witness :
    0x28 < 256 ∧ MFRC522_ParseType 0x28 = PICC_TYPE_ISO_14443_4 ∧
      MFRC522_ParseType 0x48 = PICC_TYPE_ISO_18092 :=
  ⟨by decide,
    (parseType_overrides 0x28 (by decide)).2.1 (by decide) (by decide),
    (parseType_overrides 0x48 (by decide)).1 (by decide)⟩

/-! ## Anticollision: the UID checksum -/

/-- The four-step XOR loop of `MFRC522_Anticoll`, written out. -/
theorem anticoll_check_eq (buf : List Nat) :
    (List.range 4).foldl (fun chk idx => chk ^^^ buf.getD idx 0) 0 =
      buf.getD 0 0 ^^^ buf.getD 1 0 ^^^ buf.getD 2 0 ^^^ buf.getD 3 0 := by
  simp [List.range, List.range.loop]

/-- The result of `MFRC522_Anticoll` in terms of the executor call it makes. -/
theorem anticoll_eq {σ : Type} (E : Board σ) (st : Run σ) (serial_num : List Nat)
    (unLen : Nat) :
    MFRC522_Anticoll E st serial_num unLen =
      (if (anticoll_exchange E st serial_num unLen).1 = MI_OK then
          if (anticoll_exchange E st serial_num unLen).2.1.getD 4 0 =
              (anticoll_exchange E st serial_num unLen).2.1.getD 0 0 ^^^
              (anticoll_exchange E st serial_num unLen).2.1.getD 1 0 ^^^
              (anticoll_exchange E st serial_num unLen).2.1.getD 2 0 ^^^
              (anticoll_exchange E st serial_num unLen).2.1.getD 3 0
          then MI_OK else MI_ERR
        else (anticoll_exchange E st serial_num unLen).1,
       (anticoll_exchange E st serial_num unLen).2.1,
       (anticoll_exchange E st serial_num unLen).2.2.2) := by
  simp only [MFRC522_Anticoll, anticoll_exchange, anticoll_check_eq]
  split_ifs with h1 h2 h3 h3
  · exact absurd h3.symm h2
  · rfl
  · rw [h1]
  · exact absurd (not_not.mp h2).symm h3
  · rfl

/-- C3: whenever the executor returns Ok to `MFRC522_Anticoll`, the function
returns Ok exactly when the fifth buffer byte equals the XOR of the first four
buffer bytes, and returns Error when it does not; the buffer handed back is
the one the executor filled. -/
theorem anticoll_ok_iff_checksum {σ : Type} (E : Board σ) (st : Run σ)
    (serial_num : List Nat) (unLen : Nat)
    (hok : (anticoll_exchange E st serial_num unLen).1 = MI_OK) :
    ((MFRC522_Anticoll E st serial_num unLen).1 = MI_OK ↔
      (anticoll_exchange E st serial_num unLen).2.1.getD 4 0 =
        (anticoll_exchange E st serial_num unLen).2.1.getD 0 0 ^^^
        (anticoll_exchange E st serial_num unLen).2.1.getD 1 0 ^^^
        (anticoll_exchange E st serial_num unLen).2.1.getD 2 0 ^^^
        (anticoll_exchange E st serial_num unLen).2.1.getD 3 0) ∧
    ((anticoll_exchange E st serial_num unLen).2.1.getD 4 0 ≠
        (anticoll_exchange E st serial_num unLen).2.1.getD 0 0 ^^^
        (anticoll_exchange E st serial_num unLen).2.1.getD 1 0 ^^^
        (anticoll_exchange E st serial_num unLen).2.1.getD 2 0 ^^^
        (anticoll_exchange E st serial_num unLen).2.1.getD 3 0 →
      (MFRC522_Anticoll E st serial_num unLen).1 = MI_ERR) ∧
    (MFRC522_Anticoll E st serial_num unLen).2.1 =
      (anticoll_exchange E st serial_num unLen).2.1 := by
  rw [anticoll_eq]
  simp only [hok, if_true]
  refine ⟨?_, ?_, trivial⟩
  · split_ifs with h
    · exact ⟨fun _ => h, fun _ => rfl⟩
    · exact ⟨fun e => absurd e (by decide), fun e => absurd e h⟩
  · intro h
    rw [if_neg h]

/-- Witness of C3: the simulated IC delivers 01 02 03 04 05, whose fifth byte
is not the XOR of the first four, with executor status Ok. -/
theorem anticoll_ok_iff_checksum_witness :
    (anticoll_exchange simBoard ⟨Chip.init (fixedCard [1, 2, 3, 4, 5] 0), []⟩
        (List.replicate 5 0) 0).1 = MI_OK ∧
      (MFRC522_Anticoll simBoard ⟨Chip.init (fixedCard [1, 2, 3, 4, 5] 0), []⟩
        (List.replicate 5 0) 0).1 = MI_ERR :=
  ⟨by decide,
    (anticoll_ok_iff_checksum simBoard ⟨Chip.init (fixedCard [1, 2, 3, 4, 5] 0), []⟩
      (List.replicate 5 0) 0 (by decide)).2.1 (by decide)⟩

/-- Reading one of the first five bytes of a buffer whose first five bytes are
known. -/
theorem getD_of_take_five (buf resp : List Nat) (h : buf.take 5 = resp) (j : Nat)
    (hj : j < 5) : buf.getD j 0 = resp.getD j 0 := by
  subst h
  simp [List.getD_eq_getElem?_getD, List.getElem?_take, hj]

/-- Inverting a bit changes a number, also after further XORs. -/
theorem xor_bit_ne (a k : Nat) : a ^^^ (1 <<< k) ≠ a := by
  intro h
  have h0 : a ^^^ (1 <<< k) = a ^^^ 0 := by simpa using h
  have := Nat.xor_right_injective h0
  simp [Nat.shiftLeft_eq] at this

/-- C4: when the executor delivers, with status Ok, the five bytes
b0 b1 b2 b3 (b0^b1^b2^b3), `MFRC522_Anticoll` reports Ok; when it delivers the
same five bytes with one bit of one of them inverted, it reports Error. -/
theorem anticoll_single_bit_flip {σ : Type} (E : Board σ) (st : Run σ)
    (serial_num : List Nat) (unLen : Nat) (b0 b1 b2 b3 i k : Nat) (hi : i < 5) (hk : k < 8)
    (hok : (anticoll_exchange E st serial_num unLen).1 = MI_OK) :
    ((anticoll_exchange E st serial_num unLen).2.1.take 5 = uid_response b0 b1 b2 b3 →
      (MFRC522_Anticoll E st serial_num unLen).1 = MI_OK) ∧
    ((anticoll_exchange E st serial_num unLen).2.1.take 5 =
        flip_bit (uid_response b0 b1 b2 b3) i k →
      (MFRC522_Anticoll E st serial_num unLen).1 = MI_ERR) := by
  have _ := hk
  rw [anticoll_eq]
  simp only [hok, if_true]
  constructor
  · intro h
    rw [getD_of_take_five _ _ h 0 (by decide), getD_of_take_five _ _ h 1 (by decide),
      getD_of_take_five _ _ h 2 (by decide), getD_of_take_five _ _ h 3 (by decide),
      getD_of_take_five _ _ h 4 (by decide)]
    simp [uid_response]
  · intro h
    rw [getD_of_take_five _ _ h 0 (by decide), getD_of_take_five _ _ h 1 (by decide),
      getD_of_take_five _ _ h 2 (by decide), getD_of_take_five _ _ h 3 (by decide),
      getD_of_take_five _ _ h 4 (by decide)]
    rw [if_neg]
    have hx := xor_bit_ne (b0 ^^^ b1 ^^^ b2 ^^^ b3) k
    interval_cases i
    · simp only [flip_bit, uid_response, List.getD_cons_zero, List.set_cons_zero,
        List.getD_cons_succ, List.set_cons_succ]
      intro e
      have key : b0 ^^^ 1 <<< k ^^^ b1 ^^^ b2 ^^^ b3 = b0 ^^^ b1 ^^^ b2 ^^^ b3 ^^^ 1 <<< k := by
        ac_rfl
      exact hx (key.symm.trans e.symm)
    · simp only [flip_bit, uid_response, List.getD_cons_zero, List.set_cons_zero,
        List.getD_cons_succ, List.set_cons_succ]
      intro e
      have key : b0 ^^^ (b1 ^^^ 1 <<< k) ^^^ b2 ^^^ b3 = b0 ^^^ b1 ^^^ b2 ^^^ b3 ^^^ 1 <<< k := by
        ac_rfl
      exact hx (key.symm.trans e.symm)
    · simp only [flip_bit, uid_response, List.getD_cons_zero, List.set_cons_zero,
        List.getD_cons_succ, List.set_cons_succ]
      intro e
      have key : b0 ^^^ b1 ^^^ (b2 ^^^ 1 <<< k) ^^^ b3 = b0 ^^^ b1 ^^^ b2 ^^^ b3 ^^^ 1 <<< k := by
        ac_rfl
      exact hx (key.symm.trans e.symm)
    · simp only [flip_bit, uid_response, List.getD_cons_zero, List.set_cons_zero,
        List.getD_cons_succ, List.set_cons_succ]
      intro e
      have key : b0 ^^^ b1 ^^^ b2 ^^^ (b3 ^^^ 1 <<< k) = b0 ^^^ b1 ^^^ b2 ^^^ b3 ^^^ 1 <<< k := by
        ac_rfl
      exact hx (key.symm.trans e.symm)
    · simp only [flip_bit, uid_response, List.getD_cons_zero, List.set_cons_zero,
        List.getD_cons_succ, List.set_cons_succ]
      exact hx

/-- Witness of C4: the simulated IC delivers 01 02 03 04 04 (a valid response)
and then 01 02 03 04 05 (the same with bit 0 of the checksum inverted). -/
theorem anticoll_single_bit_flip_witness :
    (4 < 5 ∧ 0 < 8 ∧
      (anticoll_exchange simBoard ⟨Chip.init (fixedCard [1, 2, 3, 4, 4] 0), []⟩
        (List.replicate 5 0) 0).1 = MI_OK ∧
      (MFRC522_Anticoll simBoard ⟨Chip.init (fixedCard [1, 2, 3, 4, 4] 0), []⟩
        (List.replicate 5 0) 0).1 = MI_OK) ∧
    ((anticoll_exchange simBoard ⟨Chip.init (fixedCard [1, 2, 3, 4, 5] 0), []⟩
        (List.replicate 5 0) 0).1 = MI_OK ∧
      (MFRC522_Anticoll simBoard ⟨Chip.init (fixedCard [1, 2, 3, 4, 5] 0), []⟩
        (List.replicate 5 0) 0).1 = MI_ERR) :=
  ⟨⟨by decide, by decide, by decide,
    (anticoll_single_bit_flip simBoard ⟨Chip.init (fixedCard [1, 2, 3, 4, 4] 0), []⟩
      (List.replicate 5 0) 0 1 2 3 4 4 0 (by decide) (by decide) (by decide)).1 (by decide)⟩,
   ⟨by decide,
    (anticoll_single_bit_flip simBoard ⟨Chip.init (fixedCard [1, 2, 3, 4, 5] 0), []⟩
      (List.replicate 5 0) 0 1 2 3 4 4 0 (by decide) (by decide) (by decide)).2 (by decide)⟩⟩

/-! ## Presence and select: the bit-count gates -/

/-- The result of `rc522_is_card_present` in terms of the executor call it
makes. -/
theorem is_card_present_eq {σ : Type} (E : Board σ) (st : Run σ) (req_mode : Nat)
    (tag_type : List Nat) (backBits : Nat) :
    (rc522_is_card_present E st req_mode tag_type backBits).1 =
      if (present_exchange E st req_mode tag_type backBits).1 ≠ MI_OK then
        (present_exchange E st req_mode tag_type backBits).1
      else if (present_exchange E st req_mode tag_type backBits).2.2.1 ≠ 16 then MI_ERR
      else MI_OK := by
  simp only [rc522_is_card_present, present_exchange]
  split_ifs with h1 h2
  · rfl
  · rfl
  · exact not_not.mp h1

/-- C5: `rc522_is_card_present` returns Ok exactly when the executor returned
Ok and reported 16 received bits; with executor status Ok and any other bit
count it returns Error. -/
theorem is_card_present_gate {σ : Type} (E : Board σ) (st : Run σ) (req_mode : Nat)
    (tag_type : List Nat) (backBits : Nat) :
    ((rc522_is_card_present E st req_mode tag_type backBits).1 = MI_OK ↔
      (present_exchange E st req_mode tag_type backBits).1 = MI_OK ∧
      (present_exchange E st req_mode tag_type backBits).2.2.1 = 16) ∧
    ((present_exchange E st req_mode tag_type backBits).1 = MI_OK →
      (present_exchange E st req_mode tag_type backBits).2.2.1 ≠ 16 →
      (rc522_is_card_present E st req_mode tag_type backBits).1 = MI_ERR) := by
  rw [is_card_present_eq]
  constructor
  · split_ifs with h1 h2
    · exact ⟨fun e => absurd e h1, fun e => absurd e.1 h1⟩
    · exact ⟨fun e => absurd e (by decide), fun e => absurd e.2 h2⟩
    · exact ⟨fun _ => ⟨not_not.mp h1, not_not.mp h2⟩, fun _ => rfl⟩
  · intro h1 h2
    rw [if_neg (not_not.mpr h1), if_pos h2]

/-- Witness of C5: simulated responses of 8, 17 and 24 bits reach the caller
with executor status Ok and are reported as Error; a 16-bit response is Ok. -/
theorem is_card_present_gate_witness :
    ((present_exchange simBoard ⟨Chip.init (fixedCard [4] 0), []⟩ 0x26
        (List.replicate 16 0) 0).2.2.1 = 8 ∧
      (rc522_is_card_present simBoard ⟨Chip.init (fixedCard [4] 0), []⟩ 0x26
        (List.replicate 16 0) 0).1 = MI_ERR) ∧
    ((present_exchange simBoard ⟨Chip.init (fixedCard [4, 0, 1] 1), []⟩ 0x26
        (List.replicate 16 0) 0).2.2.1 = 17 ∧
      (rc522_is_card_present simBoard ⟨Chip.init (fixedCard [4, 0, 1] 1), []⟩ 0x26
        (List.replicate 16 0) 0).1 = MI_ERR) ∧
    ((present_exchange simBoard ⟨Chip.init (fixedCard [4, 0, 1] 0), []⟩ 0x26
        (List.replicate 16 0) 0).2.2.1 = 24 ∧
      (rc522_is_card_present simBoard ⟨Chip.init (fixedCard [4, 0, 1] 0), []⟩ 0x26
        (List.replicate 16 0) 0).1 = MI_ERR) ∧
    ((present_exchange simBoard ⟨Chip.init (fixedCard [4, 0] 0), []⟩ 0x26
        (List.replicate 16 0) 0).2.2.1 = 16 ∧
      (rc522_is_card_present simBoard ⟨Chip.init (fixedCard [4, 0] 0), []⟩ 0x26
        (List.replicate 16 0) 0).1 = MI_OK) :=
  ⟨⟨by decide,
     (is_card_present_gate simBoard ⟨Chip.init (fixedCard [4] 0), []⟩ 0x26
       (List.replicate 16 0) 0).2 (by decide) (by decide)⟩,
   ⟨by decide,
     (is_card_present_gate simBoard ⟨Chip.init (fixedCard [4, 0, 1] 1), []⟩ 0x26
       (List.replicate 16 0) 0).2 (by decide) (by decide)⟩,
   ⟨by decide,
     (is_card_present_gate simBoard ⟨Chip.init (fixedCard [4, 0, 1] 0), []⟩ 0x26
       (List.replicate 16 0) 0).2 (by decide) (by decide)⟩,
   ⟨by decide,
     (is_card_present_gate simBoard ⟨Chip.init (fixedCard [4, 0] 0), []⟩ 0x26
       (List.replicate 16 0) 0).1.mpr ⟨by decide, by decide⟩⟩⟩

/-- After the receive loop has run at least once on a non-empty buffer, the
buffer starts with the first byte read from the FIFO data register. -/
theorem to_card_drain_head {σ : Type} (E : Board σ) (st : Run σ) (receive_data : List Nat)
    (hrx : receive_data ≠ []) (n : Nat) :
    (to_card_drain E st receive_data (n + 1)).1.getD 0 0 =
        (rc522_read_reg E st FIFO_DATA_REG).1 ∧
      (to_card_drain E st receive_data (n + 1)).1.length = receive_data.length := by
  have hpos : 0 < receive_data.length := List.length_pos.mpr hrx
  induction n with
  | zero =>
    simp [to_card_drain, List.range_succ, List.getD_eq_getElem?_getD, hpos]
  | succ n ih =>
    obtain ⟨h1, h2⟩ := ih
    have hstep : to_card_drain E st receive_data (n + 1 + 1) =
        (((to_card_drain E st receive_data (n + 1)).1.set (n + 1)
            (rc522_read_reg E (to_card_drain E st receive_data (n + 1)).2 FIFO_DATA_REG).1),
          (rc522_read_reg E (to_card_drain E st receive_data (n + 1)).2 FIFO_DATA_REG).2) := by
      simp only [to_card_drain]
      rw [List.range_succ, List.foldl_append]
      rfl
    rw [hstep]
    refine ⟨?_, ?_⟩
    · rw [← h1]
      simp [List.getD_eq_getElem?_getD, List.getElem?_set]
    · simp [h2]

/-- When a Transceive returns Ok into a non-empty buffer, the first byte of
the buffer is the first byte read from the FIFO data register. -/
theorem to_card_first_byte {σ : Type} (E : Board σ) (st : Run σ)
    (data_to_send : List Nat) (data_length : Nat) (receive_data : List Nat)
    (bytes_received : Nat) (hrx : receive_data ≠ [])
    (hok : (rc522_to_card E st RC522_TRANSCEIVE_CMD data_to_send data_length receive_data
      bytes_received).1 = MI_OK) :
    (rc522_to_card E st RC522_TRANSCEIVE_CMD data_to_send data_length receive_data
      bytes_received).2.1.getD 0 0 =
    (rc522_read_reg E (to_card_control E st RC522_TRANSCEIVE_CMD data_to_send data_length).2
      FIFO_DATA_REG).1 := by
  have key : ∀ f : Nat, ∃ m, (if (if f = 0 then 1 else f) > RC522_MAX_LEN then RC522_MAX_LEN
      else (if f = 0 then 1 else f)) = m + 1 := by
    intro f
    unfold RC522_MAX_LEN
    by_cases hf : f = 0
    · exact ⟨0, by simp [hf]⟩
    · by_cases hg : f > 16
      · exact ⟨15, by simp [hf, hg]⟩
      · exact ⟨f - 1, by simp only [if_neg hf, if_neg hg]; omega⟩
  simp only [to_card_control, to_card_level, to_card_error, to_card_polled]
  simp only [rc522_to_card, if_true] at hok ⊢
  by_cases h1 : (to_card_wait E (waitIRq_of RC522_TRANSCEIVE_CMD) ((2000 + 65535) % 65536)
      (to_card_start E st RC522_TRANSCEIVE_CMD data_to_send data_length)).1 ≠ 0
  · rw [if_pos h1] at hok ⊢
    by_cases h2 : (rc522_read_reg E (rc522_clear_bitmask E
        (to_card_wait E (waitIRq_of RC522_TRANSCEIVE_CMD) ((2000 + 65535) % 65536)
          (to_card_start E st RC522_TRANSCEIVE_CMD data_to_send data_length)).2.2
        BIT_FRAMING_REG 0x80) ERROR_REG).1 &&& 0x1B = 0
    · rw [if_pos h2]
      obtain ⟨m, hm⟩ := key (rc522_read_reg E (rc522_read_reg E (rc522_clear_bitmask E
        (to_card_wait E (waitIRq_of RC522_TRANSCEIVE_CMD) ((2000 + 65535) % 65536)
          (to_card_start E st RC522_TRANSCEIVE_CMD data_to_send data_length)).2.2
        BIT_FRAMING_REG 0x80) ERROR_REG).2 FIFO_LEVEL_REG).1
      simp only [hm]
      exact (to_card_drain_head E _ receive_data hrx m).1
    · rw [if_neg h2] at hok
      exact absurd (show MI_ERR = MI_OK from hok) (by decide)
  · rw [if_neg h1] at hok
    exact absurd (show MI_ERR = MI_OK from hok) (by decide)

/-- The frame of `rc522_select_tag` is a non-empty buffer. -/
theorem select_buffer_ne_nil (serial_num : List Nat) (c0 c1 : Nat) :
    ((select_frame serial_num).set 7 c0).set 8 c1 ≠ [] := by
  apply List.ne_nil_of_length_pos
  simp [select_frame, List.range, List.range.loop]

/-- C6: `rc522_select_tag` returns the first byte of the receive buffer, which
is the first byte read from the FIFO (the SAK), exactly when the executor
returned Ok and reported 24 received bits, and returns 0 for every other
executor status or bit count. -/
theorem select_tag_gate {σ : Type} (E : Board σ) (st : Run σ) (serial_num : List Nat)
    (data_received : Nat) :
    ((select_exchange E st serial_num data_received).1 = MI_OK ∧
        (select_exchange E st serial_num data_received).2.2.1 = 24 →
      (rc522_select_tag E st serial_num data_received).1 =
        (select_exchange E st serial_num data_received).2.1.getD 0 0 ∧
      (rc522_select_tag E st serial_num data_received).1 =
        select_first_byte E st serial_num) ∧
    (¬ ((select_exchange E st serial_num data_received).1 = MI_OK ∧
        (select_exchange E st serial_num data_received).2.2.1 = 24) →
      (rc522_select_tag E st serial_num data_received).1 = 0) := by
  simp only [rc522_select_tag, select_exchange, select_first_byte]
  constructor
  · intro h
    rw [if_pos h]
    exact ⟨rfl, to_card_first_byte E _ _ 9 _ data_received (select_buffer_ne_nil _ _ _) h.1⟩
  · intro h
    rw [if_neg h]

/-- Witness of C6: on the simulated IC a 24-bit answer 08 B6 DD yields SAK
0x08, a 16-bit answer yields 0, and a card that stays silent yields 0. -/
theorem select_tag_gate_witness :
    (rc522_select_tag simBoard ⟨Chip.init (fixedCard [0x08, 0xB6, 0xDD] 0), []⟩
        [1, 2, 3, 4, 4] 0).1 = 0x08 ∧
    (rc522_select_tag simBoard ⟨Chip.init (fixedCard [0x08, 0xB6] 0), []⟩
        [1, 2, 3, 4, 4] 0).1 = 0 ∧
    (rc522_select_tag simBoard ⟨Chip.init (fun _ => ⟨[0x08, 0xB6, 0xDD], 0, 0x01, 0, 0⟩), []⟩
        [1, 2, 3, 4, 4] 0).1 = 0 :=
  ⟨((select_tag_gate simBoard ⟨Chip.init (fixedCard [0x08, 0xB6, 0xDD] 0), []⟩
      [1, 2, 3, 4, 4] 0).1 ⟨by decide, by decide⟩).2.trans (by decide),
   (select_tag_gate simBoard ⟨Chip.init (fixedCard [0x08, 0xB6] 0), []⟩
      [1, 2, 3, 4, 4] 0).2 (by decide),
   (select_tag_gate simBoard ⟨Chip.init (fun _ => ⟨[0x08, 0xB6, 0xDD], 0, 0x01, 0, 0⟩), []⟩
      [1, 2, 3, 4, 4] 0).2 (by decide)⟩

/-! ## Command executor: timeout, status and bit count -/

/-- When the first `k` polls show neither the timer bit nor a done bit, the
polling loop entered with counter `k + 1` runs `k + 1` polls and leaves the
counter at 0. -/
theorem to_card_wait_quiet {σ : Type} (E : Board σ) (waitIRq : Nat) :
    ∀ (k : Nat) (st : Run σ),
      (∀ n, n < k → poll_value E st n &&& 0x01 = 0 ∧ poll_value E st n &&& waitIRq = 0) →
      (to_card_wait E waitIRq k st).1 = 0 ∧
      ∃ vs : List Nat, vs.length = k + 1 ∧
        (to_card_wait E waitIRq k st).2.2.log = st.log ++ poll_log vs := by
  intro k
  induction k with
  | zero =>
    intro st _
    refine ⟨rfl, [(rc522_read_reg E (ms_delay E st 10) COM_IRQ_REG).1], rfl, ?_⟩
    simp [to_card_wait, rc522_read_reg, ms_delay, poll_log]
  | succ k ih =>
    intro st hquiet
    rw [to_card_wait]
    have h0 := hquiet 0 (Nat.succ_pos k)
    simp only [poll_value, poll_state] at h0
    simp only [if_pos h0]
    obtain ⟨hz, vs, hlen, hlog⟩ := ih (rc522_read_reg E (ms_delay E st 10) COM_IRQ_REG).2
      (fun n hn => hquiet (n + 1) (Nat.succ_lt_succ hn))
    refine ⟨hz, (rc522_read_reg E (ms_delay E st 10) COM_IRQ_REG).1 :: vs, by simp [hlen], ?_⟩
    rw [hlog]
    simp [rc522_read_reg, ms_delay, poll_log]

/-- The log after the loop that loads `n` bytes into the FIFO. -/
theorem fifo_load_log {σ : Type} (E : Board σ) (data : List Nat) (n : Nat) (st : Run σ) :
    ((List.range n).foldl
        (fun st idx => rc522_write_reg E st FIFO_DATA_REG (data.getD idx 0)) st).log =
      st.log ++ (List.range n).map (fun idx => Access.wr FIFO_DATA_REG (data.getD idx 0 % 256))
    := by
  induction n with
  | zero => simp
  | succ n ih =>
    rw [List.range_succ, List.foldl_append, List.map_append, ← List.append_assoc, ← ih]
    rfl

/-- The log entry of `rc522_write_reg`. -/
theorem write_reg_log {σ : Type} (E : Board σ) (st : Run σ) (reg value : Nat) :
    (rc522_write_reg E st reg value).log = st.log ++ [Access.wr reg (value % 256)] := rfl

/-- The log entry of `rc522_read_reg`. -/
theorem read_reg_log {σ : Type} (E : Board σ) (st : Run σ) (reg : Nat) :
    (rc522_read_reg E st reg).2.log =
      st.log ++ [Access.rd reg (rc522_read_reg E st reg).1] := rfl

/-- The two log entries of `rc522_set_bitmask`. -/
theorem set_bitmask_log {σ : Type} (E : Board σ) (st : Run σ) (reg mask : Nat) :
    (rc522_set_bitmask E st reg mask).log =
      st.log ++ [Access.rd reg (rc522_read_reg E st reg).1,
        Access.wr reg (((rc522_read_reg E st reg).1 ||| mask) % 256 % 256)] := by
  simp [rc522_set_bitmask, write_reg_log, read_reg_log]

/-- The two log entries of `rc522_clear_bitmask`. -/
theorem clear_bitmask_log {σ : Type} (E : Board σ) (st : Run σ) (reg mask : Nat) :
    (rc522_clear_bitmask E st reg mask).log =
      st.log ++ [Access.rd reg (rc522_read_reg E st reg).1,
        Access.wr reg (((rc522_read_reg E st reg).1 &&& (0xFFFF ^^^ mask)) % 256 % 256)] := by
  simp [rc522_clear_bitmask, write_reg_log, read_reg_log]

/-- The log of the start-up phase of `rc522_to_card`. -/
theorem to_card_start_log {σ : Type} (E : Board σ) (st : Run σ) (command : Nat)
    (data_to_send : List Nat) (data_length : Nat) :
    ∃ a b c : Nat, (to_card_start E st command data_to_send data_length).log =
      st.log ++ start_log command data_to_send data_length a b c := by
  unfold to_card_start
  by_cases hc : command = RC522_TRANSCEIVE_CMD
  · apply Exists.intro
    apply Exists.intro
    apply Exists.intro
    simp only [if_pos hc, start_log, set_bitmask_log, clear_bitmask_log, write_reg_log,
      fifo_load_log, List.append_assoc]
    rfl
  · apply Exists.intro
    apply Exists.intro
    refine ⟨0, ?_⟩
    simp only [if_neg hc, start_log, set_bitmask_log, clear_bitmask_log, write_reg_log,
      fifo_load_log, List.append_assoc, List.append_nil]
    rfl

/-- The start-up phase contains no delay, no read of the FIFO data register
and no read of the error register, and exactly one read of the interrupt
register (the one that clears the pending flags). -/
theorem start_log_shape (command : Nat) (data_to_send : List Nat) (data_length a b c : Nat) :
    (start_log command data_to_send data_length a b c).countP (Access.isDelay 10) = 0 ∧
    (start_log command data_to_send data_length a b c).countP
      (Access.isRead FIFO_DATA_REG) = 0 ∧
    (start_log command data_to_send data_length a b c).countP
      (Access.isRead ERROR_REG) = 0 ∧
    (start_log command data_to_send data_length a b c).countP
      (Access.isRead COM_IRQ_REG) = 1 := by
  have hmap : ∀ (p : Access → Bool), (∀ r v, p (Access.wr r v) = false) →
      ((List.range data_length).map
        (fun idx => Access.wr FIFO_DATA_REG (data_to_send.getD idx 0 % 256))).countP p = 0 := by
    intro p hp
    rw [List.countP_eq_zero]
    intro e he
    obtain ⟨idx, _, rfl⟩ := List.mem_map.mp he
    simp [hp]
  unfold start_log
  refine ⟨?_, ?_, ?_, ?_⟩
  · simp only [List.countP_append, hmap (Access.isDelay 10) (fun _ _ => rfl)]
    split_ifs <;> simp [List.countP_cons, Access.isDelay]
  · simp only [List.countP_append, hmap (Access.isRead FIFO_DATA_REG) (fun _ _ => rfl)]
    split_ifs <;>
      simp [List.countP_cons, Access.isRead, FIFO_DATA_REG, COM_IRQ_REG, FIFO_LEVEL_REG,
        BIT_FRAMING_REG]
  · simp only [List.countP_append, hmap (Access.isRead ERROR_REG) (fun _ _ => rfl)]
    split_ifs <;>
      simp [List.countP_cons, Access.isRead, ERROR_REG, COM_IRQ_REG, FIFO_LEVEL_REG,
        BIT_FRAMING_REG]
  · simp only [List.countP_append, hmap (Access.isRead COM_IRQ_REG) (fun _ _ => rfl)]
    split_ifs <;>
      simp [List.countP_cons, Access.isRead, FIFO_DATA_REG, COM_IRQ_REG, FIFO_LEVEL_REG,
        BIT_FRAMING_REG]

/-- A run of polls contains one delay and one read of the interrupt register
per poll, and no read of any other register. -/
theorem poll_log_shape (vs : List Nat) :
    (poll_log vs).countP (Access.isDelay 10) = vs.length ∧
    (poll_log vs).countP (Access.isRead COM_IRQ_REG) = vs.length ∧
    ∀ reg, reg ≠ COM_IRQ_REG → (poll_log vs).countP (Access.isRead reg) = 0 := by
  induction vs with
  | nil => simp [poll_log]
  | cons v vs ih =>
    obtain ⟨h1, h2, h3⟩ := ih
    refine ⟨?_, ?_, ?_⟩
    · simp [poll_log, List.countP_cons, Access.isDelay, h1]
    · simp [poll_log, List.countP_cons, Access.isRead, h2]
    · intro reg hreg
      simp [poll_log, List.countP_cons, Access.isRead, h3 reg hreg, Ne.symm hreg]

/-- C7: for every command and outgoing frame, if the device never shows the
timer bit 0x01 nor the done bits of the command in the interrupt register
(whatever the number of the poll), `rc522_to_card` returns Error after exactly
2000 polls: what it adds to the log
is the start-up phase, then 2000 times (delay 10 ms, read of the interrupt
register), then the read and write that clear StartSend, and nothing else.
So there are 2000 delays, 2001 reads of the interrupt register (one in the
start-up phase, 2000 polls), no read of the error register and no read of the
FIFO; the receive buffer and the bit count are left as they were. -/
theorem to_card_timeout {σ : Type} (E : Board σ) (st : Run σ) (command : Nat)
    (data_to_send : List Nat) (data_length : Nat) (receive_data : List Nat)
    (bytes_received : Nat)
    (hquiet : ∀ n : Nat,
      poll_value E (to_card_start E st command data_to_send data_length) n &&& 0x01 = 0 ∧
      poll_value E (to_card_start E st command data_to_send data_length) n &&&
        waitIRq_of command = 0) :
    (rc522_to_card E st command data_to_send data_length receive_data bytes_received).1
        = MI_ERR ∧
    (rc522_to_card E st command data_to_send data_length receive_data bytes_received).2.1
        = receive_data ∧
    (rc522_to_card E st command data_to_send data_length receive_data bytes_received).2.2.1
        = bytes_received ∧
    ∃ added : List Access,
      (rc522_to_card E st command data_to_send data_length receive_data
          bytes_received).2.2.2.log = st.log ++ added ∧
      (∃ (a b c : Nat) (vs : List Nat) (x y : Nat), vs.length = 2000 ∧
        added = start_log command data_to_send data_length a b c ++ poll_log vs ++
          [Access.rd BIT_FRAMING_REG x, Access.wr BIT_FRAMING_REG y]) ∧
      added.countP (Access.isDelay 10) = 2000 ∧
      added.countP (Access.isRead COM_IRQ_REG) = 2001 ∧
      added.countP (Access.isRead ERROR_REG) = 0 ∧
      added.countP (Access.isRead FIFO_DATA_REG) = 0 := by
  obtain ⟨h0, vs, hlen, hlog⟩ := to_card_wait_quiet E (waitIRq_of command) 1999
    (to_card_start E st command data_to_send data_length) (fun n _ => hquiet n)
  obtain ⟨a, b, c, hstart⟩ := to_card_start_log E st command data_to_send data_length
  obtain ⟨s1, s2, s3, s4⟩ := start_log_shape command data_to_send data_length a b c
  obtain ⟨p1, p2, p3⟩ := poll_log_shape vs
  have hr : rc522_to_card E st command data_to_send data_length receive_data bytes_received =
      (MI_ERR, receive_data, bytes_received,
        rc522_clear_bitmask E
          (to_card_wait E (waitIRq_of command) 1999
            (to_card_start E st command data_to_send data_length)).2.2
          BIT_FRAMING_REG 0x80) := by
    simp only [rc522_to_card, Nat.reduceAdd, Nat.reduceMod, h0, ne_eq, not_true_eq_false,
      if_false]
  obtain ⟨x, y, hclr⟩ : ∃ x y : Nat, (rc522_clear_bitmask E
      (to_card_wait E (waitIRq_of command) 1999
        (to_card_start E st command data_to_send data_length)).2.2 BIT_FRAMING_REG 0x80).log =
      (to_card_wait E (waitIRq_of command) 1999
        (to_card_start E st command data_to_send data_length)).2.2.log ++
        [Access.rd BIT_FRAMING_REG x, Access.wr BIT_FRAMING_REG y] :=
    ⟨_, _, clear_bitmask_log E _ BIT_FRAMING_REG 0x80⟩
  rw [hr]
  refine ⟨rfl, rfl, rfl,
    start_log command data_to_send data_length a b c ++ poll_log vs ++
      [Access.rd BIT_FRAMING_REG x, Access.wr BIT_FRAMING_REG y],
    ?_, ⟨a, b, c, vs, x, y, hlen, rfl⟩, ?_, ?_, ?_, ?_⟩
  · simp only [hclr, hlog, hstart, List.append_assoc]
  · rw [List.countP_append, List.countP_append, s1, p1, hlen]
    simp [List.countP_cons, Access.isDelay]
  · rw [List.countP_append, List.countP_append, s4, p2, hlen]
    simp [List.countP_cons, Access.isRead, BIT_FRAMING_REG, COM_IRQ_REG]
  · rw [List.countP_append, List.countP_append, s3, p3 ERROR_REG (by decide)]
    simp [List.countP_cons, Access.isRead, BIT_FRAMING_REG, ERROR_REG]
  · rw [List.countP_append, List.countP_append, s2, p3 FIFO_DATA_REG (by decide)]
    simp [List.countP_cons, Access.isRead, BIT_FRAMING_REG, FIFO_DATA_REG]

/-- Witness of C7: a bus with nothing attached reads 0 from every register, so
an anticollision frame sent through it times out. -/
theorem to_card_timeout_witness :
    (∀ n : Nat,
      poll_value deadBoard
        (to_card_start deadBoard ⟨(), []⟩ RC522_TRANSCEIVE_CMD [0x93, 0x20] 2) n &&& 0x01 = 0 ∧
      poll_value deadBoard
        (to_card_start deadBoard ⟨(), []⟩ RC522_TRANSCEIVE_CMD [0x93, 0x20] 2) n &&&
          waitIRq_of RC522_TRANSCEIVE_CMD = 0) ∧
    (rc522_to_card deadBoard ⟨(), []⟩ RC522_TRANSCEIVE_CMD [0x93, 0x20] 2
      [0x93, 0x20, 0, 0, 0] 0).1 = MI_ERR :=
  ⟨fun _ => by simp [poll_value, rc522_read_reg, deadBoard],
    (to_card_timeout deadBoard ⟨(), []⟩ RC522_TRANSCEIVE_CMD [0x93, 0x20] 2
      [0x93, 0x20, 0, 0, 0] 0
      (fun _ => by simp [poll_value, rc522_read_reg, deadBoard])).1⟩

/-- C8: whenever the polling of `rc522_to_card` ends with the counter not at
zero, the result is Error if the error register ANDed with 0x1B is non-zero;
otherwise it is NoTag when the last-read interrupt status has the timer bit
0x01 set within the enabled mask, and Ok in every other case. -/
theorem to_card_status {σ : Type} (E : Board σ) (st : Run σ) (command : Nat)
    (data_to_send : List Nat) (data_length : Nat) (receive_data : List Nat)
    (bytes_received : Nat)
    (hcnt : (to_card_polled E st command data_to_send data_length).1 ≠ 0) :
    (rc522_to_card E st command data_to_send data_length receive_data bytes_received).1 =
      if (to_card_error E st command data_to_send data_length).1 &&& 0x1B ≠ 0 then MI_ERR
      else if (to_card_polled E st command data_to_send data_length).2.1 &&&
          irqEn_of command &&& 0x01 ≠ 0 then MI_NOTAGERR
      else MI_OK := by
  simp only [to_card_polled, to_card_error] at hcnt ⊢
  simp only [rc522_to_card, hcnt, ne_eq, not_false_eq_true, if_true]
  split_ifs <;> rfl

/-- Witness of C8: on the simulated IC a card that answers at once gives Ok, a
silent card (timer interrupt) gives NoTag, and a collision flag in the error
register gives Error. -/
theorem to_card_status_witness :
    ((to_card_polled simBoard ⟨Chip.init (fixedCard [4, 0] 0), []⟩ RC522_TRANSCEIVE_CMD
        [0x26] 1).1 ≠ 0 ∧
      (rc522_to_card simBoard ⟨Chip.init (fixedCard [4, 0] 0), []⟩ RC522_TRANSCEIVE_CMD
        [0x26] 1 [0x26] 0).1 = MI_OK) ∧
    ((to_card_polled simBoard ⟨Chip.init (fun _ => ⟨[], 0, 0x01, 0, 0⟩), []⟩
        RC522_TRANSCEIVE_CMD [0x26] 1).1 ≠ 0 ∧
      (rc522_to_card simBoard ⟨Chip.init (fun _ => ⟨[], 0, 0x01, 0, 0⟩), []⟩
        RC522_TRANSCEIVE_CMD [0x26] 1 [0x26] 0).1 = MI_NOTAGERR) ∧
    ((to_card_polled simBoard ⟨Chip.init (fun _ => ⟨[4, 0], 0, 0x30, 0x08, 0⟩), []⟩
        RC522_TRANSCEIVE_CMD [0x26] 1).1 ≠ 0 ∧
      (rc522_to_card simBoard ⟨Chip.init (fun _ => ⟨[4, 0], 0, 0x30, 0x08, 0⟩), []⟩
        RC522_TRANSCEIVE_CMD [0x26] 1 [0x26] 0).1 = MI_ERR) :=
  ⟨⟨by decide,
     (to_card_status simBoard ⟨Chip.init (fixedCard [4, 0] 0), []⟩ RC522_TRANSCEIVE_CMD
       [0x26] 1 [0x26] 0 (by decide)).trans (by decide)⟩,
   ⟨by decide,
     (to_card_status simBoard ⟨Chip.init (fun _ => ⟨[], 0, 0x01, 0, 0⟩), []⟩
       RC522_TRANSCEIVE_CMD [0x26] 1 [0x26] 0 (by decide)).trans (by decide)⟩,
   ⟨by decide,
     (to_card_status simBoard ⟨Chip.init (fun _ => ⟨[4, 0], 0, 0x30, 0x08, 0⟩), []⟩
       RC522_TRANSCEIVE_CMD [0x26] 1 [0x26] 0 (by decide)).trans (by decide)⟩⟩

/-! ## End-to-end scenario -/

/-- For Transceive the value the caller's bit-count variable held before the
call has no influence on the status, the buffer or the device, and none on
the bit count when the status is Ok. -/
theorem to_card_transceive_indep {σ : Type} (E : Board σ) (st : Run σ)
    (data_to_send : List Nat) (data_length : Nat) (receive_data : List Nat) (b : Nat) :
    (rc522_to_card E st RC522_TRANSCEIVE_CMD data_to_send data_length receive_data b).1 =
      (rc522_to_card E st RC522_TRANSCEIVE_CMD data_to_send data_length receive_data 0).1 ∧
    (rc522_to_card E st RC522_TRANSCEIVE_CMD data_to_send data_length receive_data b).2.1 =
      (rc522_to_card E st RC522_TRANSCEIVE_CMD data_to_send data_length receive_data 0).2.1 ∧
    (rc522_to_card E st RC522_TRANSCEIVE_CMD data_to_send data_length receive_data b).2.2.2 =
      (rc522_to_card E st RC522_TRANSCEIVE_CMD data_to_send data_length receive_data 0).2.2.2 ∧
    ((rc522_to_card E st RC522_TRANSCEIVE_CMD data_to_send data_length receive_data 0).1 = MI_OK →
      (rc522_to_card E st RC522_TRANSCEIVE_CMD data_to_send data_length receive_data b).2.2.1 =
      (rc522_to_card E st RC522_TRANSCEIVE_CMD data_to_send data_length receive_data 0).2.2.1) := by
  simp only [rc522_to_card]
  split_ifs <;> simp [MI_ERR, MI_OK]

/-- The indeterminate initial value of `backBits` has no influence on
`rc522_is_card_present`. -/
theorem is_card_present_indep {σ : Type} (E : Board σ) (st : Run σ) (req_mode : Nat)
    (tag_type : List Nat) (backBits : Nat) :
    rc522_is_card_present E st req_mode tag_type backBits =
      rc522_is_card_present E st req_mode tag_type 0 := by
  obtain ⟨h1, h2, h3, h4⟩ := to_card_transceive_indep E
    (rc522_write_reg E st BIT_FRAMING_REG 0x07) (tag_type.set 0 req_mode) 1
    (tag_type.set 0 req_mode) backBits
  simp only [rc522_is_card_present, h1, h2, h3]
  split_ifs with a b c c
  · rfl
  · rfl
  · exact absurd ((h4 (not_not.mp a)).trans (not_not.mp c)) b
  · exact absurd ((h4 (not_not.mp a)).symm.trans (not_not.mp b)) c
  · rfl

/-- The indeterminate initial value of `unLen` has no influence on
`MFRC522_Anticoll`. -/
theorem anticoll_indep {σ : Type} (E : Board σ) (st : Run σ) (serial_num : List Nat)
    (unLen : Nat) :
    MFRC522_Anticoll E st serial_num unLen = MFRC522_Anticoll E st serial_num 0 := by
  obtain ⟨h1, h2, h3, _⟩ := to_card_transceive_indep E
    (rc522_write_reg E st BIT_FRAMING_REG 0x00) ((serial_num.set 0 PICC_ANTICOLL).set 1 0x20) 2
    ((serial_num.set 0 PICC_ANTICOLL).set 1 0x20) unLen
  simp only [MFRC522_Anticoll, h1, h2, h3]

/-- The indeterminate initial value of `data_received` has no influence on
`rc522_select_tag`. -/
theorem select_tag_indep {σ : Type} (E : Board σ) (st : Run σ) (serial_num : List Nat)
    (data_received : Nat) :
    rc522_select_tag E st serial_num data_received = rc522_select_tag E st serial_num 0 := by
  obtain ⟨h1, h2, h3, h4⟩ := to_card_transceive_indep E
    (rc522_calculate_CRC E st (select_frame serial_num) 7).2
    (((select_frame serial_num).set 7
      (rc522_calculate_CRC E st (select_frame serial_num) 7).1.1).set 8
      (rc522_calculate_CRC E st (select_frame serial_num) 7).1.2) 9
    (((select_frame serial_num).set 7
      (rc522_calculate_CRC E st (select_frame serial_num) 7).1.1).set 8
      (rc522_calculate_CRC E st (select_frame serial_num) 7).1.2) data_received
  simp only [rc522_select_tag, h1, h2, h3]
  split_ifs with a c c
  · rfl
  · exact absurd ⟨a.1, (h4 a.1) ▸ a.2⟩ c
  · exact absurd ⟨c.1, (h4 c.1).symm ▸ c.2⟩ a
  · rfl

set_option maxRecDepth 100000 in
/-- C9: against the simulated IC and the scenario card, starting from the
zeroed buffers of the application, the executor reports 16 bits for the REQA and 24 bits for the select;
`rc522_is_card_present(0x26)` returns Ok; `MFRC522_Anticoll` then returns Ok
with 01 02 03 04 04 in the caller's buffer; `rc522_select_tag` on that buffer
then returns 0x08, and `MFRC522_ParseType` of the value returned is Mifare1K.  The initial values of the uninitialised
locals do not matter. -/
theorem end_to_end_scenario (backBits unLen data_received : Nat) :
    (present_exchange simBoard ⟨Chip.init scenarioCard, []⟩ PICC_REQIDL
      (List.replicate 16 0) backBits).2.2.1 = 16 ∧
    (select_exchange simBoard
      (MFRC522_Anticoll simBoard
        (rc522_is_card_present simBoard ⟨Chip.init scenarioCard, []⟩ PICC_REQIDL
          (List.replicate 16 0) backBits).2.2
        (List.replicate 5 0) unLen).2.2
      (MFRC522_Anticoll simBoard
        (rc522_is_card_present simBoard ⟨Chip.init scenarioCard, []⟩ PICC_REQIDL
          (List.replicate 16 0) backBits).2.2
        (List.replicate 5 0) unLen).2.1 data_received).2.2.1 = 24 ∧
    (rc522_is_card_present simBoard ⟨Chip.init scenarioCard, []⟩ PICC_REQIDL
      (List.replicate 16 0) backBits).1 = MI_OK ∧
    (MFRC522_Anticoll simBoard
      (rc522_is_card_present simBoard ⟨Chip.init scenarioCard, []⟩ PICC_REQIDL
        (List.replicate 16 0) backBits).2.2
      (List.replicate 5 0) unLen).1 = MI_OK ∧
    (MFRC522_Anticoll simBoard
      (rc522_is_card_present simBoard ⟨Chip.init scenarioCard, []⟩ PICC_REQIDL
        (List.replicate 16 0) backBits).2.2
      (List.replicate 5 0) unLen).2.1 = [0x01, 0x02, 0x03, 0x04, 0x04] ∧
    (rc522_select_tag simBoard
      (MFRC522_Anticoll simBoard
        (rc522_is_card_present simBoard ⟨Chip.init scenarioCard, []⟩ PICC_REQIDL
          (List.replicate 16 0) backBits).2.2
        (List.replicate 5 0) unLen).2.2
      (MFRC522_Anticoll simBoard
        (rc522_is_card_present simBoard ⟨Chip.init scenarioCard, []⟩ PICC_REQIDL
          (List.replicate 16 0) backBits).2.2
        (List.replicate 5 0) unLen).2.1 data_received).1 = 0x08 ∧
    MFRC522_ParseType
      (rc522_select_tag simBoard
        (MFRC522_Anticoll simBoard
          (rc522_is_card_present simBoard ⟨Chip.init scenarioCard, []⟩ PICC_REQIDL
            (List.replicate 16 0) backBits).2.2
          (List.replicate 5 0) unLen).2.2
        (MFRC522_Anticoll simBoard
          (rc522_is_card_present simBoard ⟨Chip.init scenarioCard, []⟩ PICC_REQIDL
            (List.replicate 16 0) backBits).2.2
          (List.replicate 5 0) unLen).2.1 data_received).1 = PICC_TYPE_MIFARE_1K := by
  rw [select_tag_indep, anticoll_indep, is_card_present_indep]
  refine ⟨?_, ?_, ?_⟩
  · exact ((to_card_transceive_indep simBoard _ _ _ _ backBits).2.2.2 (by decide)).trans
      (by decide)
  · exact ((to_card_transceive_indep simBoard _ _ _ _ data_received).2.2.2 (by decide)).trans
      (by decide)
  · decide

/-! ## The bit count of a Transceive -/

/-- The stored bit count for a FIFO level byte and a `lastBits` value 0..7. -/
theorem to_card_bits_cases (level lastBits : Nat) (hlevel : level < 256) (hlast : lastBits < 8) :
    (lastBits = 0 → to_card_bits level lastBits = level * 8) ∧
    (lastBits ≠ 0 → 1 ≤ level → to_card_bits level lastBits = (level - 1) * 8 + lastBits) ∧
    (lastBits ≠ 0 → level = 0 → to_card_bits level lastBits = 65528 + lastBits) := by
  unfold to_card_bits
  refine ⟨?_, ?_, ?_⟩
  · intro h
    rw [if_neg (not_not.mpr h)]
    omega
  · intro h h1
    rw [if_pos h]
    omega
  · intro h h0
    rw [if_pos h]
    omega

/-- C10 (as amended): for a Transceive that completes without timeout and
without masked error bits, and for the FIFO level byte and the lastBits value
0..7 read from the device, the bit count `rc522_to_card` reports is
fifoLevel*8 when lastBits is zero, and (fifoLevel-1)*8 + lastBits when
lastBits is non-zero and fifoLevel is at least 1. -/
theorem to_card_bit_count {σ : Type} (E : Board σ) (st : Run σ)
    (data_to_send : List Nat) (data_length : Nat) (receive_data : List Nat)
    (bytes_received : Nat)
    (hcnt : (to_card_polled E st RC522_TRANSCEIVE_CMD data_to_send data_length).1 ≠ 0)
    (herr : (to_card_error E st RC522_TRANSCEIVE_CMD data_to_send data_length).1 &&& 0x1B = 0) :
    ((to_card_control E st RC522_TRANSCEIVE_CMD data_to_send data_length).1 &&& 0x07 = 0 →
      (rc522_to_card E st RC522_TRANSCEIVE_CMD data_to_send data_length receive_data
          bytes_received).2.2.1 =
        (to_card_level E st RC522_TRANSCEIVE_CMD data_to_send data_length).1 * 8) ∧
    ((to_card_control E st RC522_TRANSCEIVE_CMD data_to_send data_length).1 &&& 0x07 ≠ 0 →
      1 ≤ (to_card_level E st RC522_TRANSCEIVE_CMD data_to_send data_length).1 →
      (rc522_to_card E st RC522_TRANSCEIVE_CMD data_to_send data_length receive_data
          bytes_received).2.2.1 =
        ((to_card_level E st RC522_TRANSCEIVE_CMD data_to_send data_length).1 - 1) * 8 +
          ((to_card_control E st RC522_TRANSCEIVE_CMD data_to_send data_length).1 &&& 0x07))
    := by
  have hbits : (rc522_to_card E st RC522_TRANSCEIVE_CMD data_to_send data_length receive_data
      bytes_received).2.2.1 =
      to_card_bits (to_card_level E st RC522_TRANSCEIVE_CMD data_to_send data_length).1
        ((to_card_control E st RC522_TRANSCEIVE_CMD data_to_send data_length).1 &&& 0x07) := by
    simp only [to_card_polled, to_card_error, to_card_level, to_card_control] at hcnt herr ⊢
    simp only [rc522_to_card, hcnt, herr, ne_eq, not_false_eq_true, if_true]
  have hcases := to_card_bits_cases
    (to_card_level E st RC522_TRANSCEIVE_CMD data_to_send data_length).1
    ((to_card_control E st RC522_TRANSCEIVE_CMD data_to_send data_length).1 &&& 0x07)
    (by simp only [to_card_level, rc522_read_reg]; exact Nat.mod_lt _ (by decide))
    (Nat.lt_of_le_of_lt Nat.and_le_right (by decide))
  rw [hbits]
  exact ⟨hcases.1, hcases.2.1⟩

/-- Witness of C10 (as amended): the simulated IC holds three bytes with one
valid bit in the last, and the executor reports 17 bits; with two whole bytes
it reports 16 bits. -/
theorem to_card_bit_count_witness :
    ((to_card_polled simBoard ⟨Chip.init (fixedCard [4, 0, 1] 1), []⟩ RC522_TRANSCEIVE_CMD
        [0x26] 1).1 ≠ 0 ∧
      (to_card_error simBoard ⟨Chip.init (fixedCard [4, 0, 1] 1), []⟩ RC522_TRANSCEIVE_CMD
        [0x26] 1).1 &&& 0x1B = 0 ∧
      (rc522_to_card simBoard ⟨Chip.init (fixedCard [4, 0, 1] 1), []⟩ RC522_TRANSCEIVE_CMD
        [0x26] 1 [0x26] 0).2.2.1 = 17) ∧
    ((to_card_polled simBoard ⟨Chip.init (fixedCard [4, 0] 0), []⟩ RC522_TRANSCEIVE_CMD
        [0x26] 1).1 ≠ 0 ∧
      (to_card_error simBoard ⟨Chip.init (fixedCard [4, 0] 0), []⟩ RC522_TRANSCEIVE_CMD
        [0x26] 1).1 &&& 0x1B = 0 ∧
      (rc522_to_card simBoard ⟨Chip.init (fixedCard [4, 0] 0), []⟩ RC522_TRANSCEIVE_CMD
        [0x26] 1 [0x26] 0).2.2.1 = 16) :=
  ⟨⟨by decide, by decide,
    ((to_card_bit_count simBoard ⟨Chip.init (fixedCard [4, 0, 1] 1), []⟩ [0x26] 1 [0x26] 0
      (by decide) (by decide)).2 (by decide) (by decide)).trans (by decide)⟩,
   ⟨by decide, by decide,
    ((to_card_bit_count simBoard ⟨Chip.init (fixedCard [4, 0] 0), []⟩ [0x26] 1 [0x26] 0
      (by decide) (by decide)).1 (by decide)).trans (by decide)⟩⟩

/-- Counterexample to C10 as stated: the simulated IC completes a Transceive
(counter not zero, no masked error bit) with FIFO level 0 and lastBits 1; the
bit count reported is 65529, not (0-1)*8 + 1. -/
theorem bit_count_wraps_at_level_zero :
    (to_card_polled simBoard ⟨Chip.init (fixedCard [] 1), []⟩ RC522_TRANSCEIVE_CMD
        [0x26] 1).1 ≠ 0 ∧
    (to_card_error simBoard ⟨Chip.init (fixedCard [] 1), []⟩ RC522_TRANSCEIVE_CMD
        [0x26] 1).1 &&& 0x1B = 0 ∧
    (to_card_level simBoard ⟨Chip.init (fixedCard [] 1), []⟩ RC522_TRANSCEIVE_CMD
        [0x26] 1).1 = 0 ∧
    (to_card_control simBoard ⟨Chip.init (fixedCard [] 1), []⟩ RC522_TRANSCEIVE_CMD
        [0x26] 1).1 &&& 0x07 = 1 ∧
    (rc522_to_card simBoard ⟨Chip.init (fixedCard [] 1), []⟩ RC522_TRANSCEIVE_CMD
        [0x26] 1 [0x26] 0).2.2.1 = 65529 ∧
    ¬ (((rc522_to_card simBoard ⟨Chip.init (fixedCard [] 1), []⟩ RC522_TRANSCEIVE_CMD
        [0x26] 1 [0x26] 0).2.2.1 : Int) =
      (((to_card_level simBoard ⟨Chip.init (fixedCard [] 1), []⟩ RC522_TRANSCEIVE_CMD
        [0x26] 1).1 : Int) - 1) * 8 +
      (((to_card_control simBoard ⟨Chip.init (fixedCard [] 1), []⟩ RC522_TRANSCEIVE_CMD
        [0x26] 1).1 &&& 0x07 : Nat) : Int)) := by
  decide

/-! ## The receive loop of the command executor -/

/-- One more turn of the receive loop. -/
theorem to_card_drain_succ {σ : Type} (E : Board σ) (st : Run σ) (receive_data : List Nat)
    (n : Nat) :
    to_card_drain E st receive_data (n + 1) =
      ((to_card_drain E st receive_data n).1.set n
          (rc522_read_reg E (to_card_drain E st receive_data n).2 FIFO_DATA_REG).1,
        (rc522_read_reg E (to_card_drain E st receive_data n).2 FIFO_DATA_REG).2) := by
  simp only [to_card_drain]
  rw [List.range_succ, List.foldl_append]
  rfl

/-- The receive loop run `n` times reads the FIFO data register `n` times and
stores the bytes read at the indices 0, 1, ... of the buffer, leaving the
rest of the buffer as it was. -/
theorem to_card_drain_spec {σ : Type} (E : Board σ) (st : Run σ) (receive_data : List Nat) :
    ∀ n : Nat, ∃ vs : List Nat, vs.length = n ∧
      (to_card_drain E st receive_data n).2.log = st.log ++ vs.map (Access.rd FIFO_DATA_REG) ∧
      (to_card_drain E st receive_data n).1.length = receive_data.length ∧
      ∀ i, (to_card_drain E st receive_data n).1.getD i 0 =
        if i < n ∧ i < receive_data.length then vs.getD i 0 else receive_data.getD i 0 := by
  intro n
  induction n with
  | zero => exact ⟨[], rfl, by simp [to_card_drain], by simp [to_card_drain], by simp [to_card_drain]⟩
  | succ n ih =>
    obtain ⟨vs, hlen, hlog, hl, hget⟩ := ih
    rw [to_card_drain_succ]
    refine ⟨vs ++ [(rc522_read_reg E (to_card_drain E st receive_data n).2 FIFO_DATA_REG).1],
      by simp [hlen], ?_, by simp [hl], ?_⟩
    · simp [read_reg_log, hlog]
    · intro i
      simp only [List.getD_eq_getElem?_getD, List.getElem?_set, hl] at hget ⊢
      by_cases hin : n = i
      · subst hin
        by_cases hlt : n < receive_data.length
        · simp [hlt, hlen]
        · have hnone : receive_data[n]? = none := List.getElem?_eq_none (by omega)
          simp [hlt, hnone]
      · rw [if_neg hin, hget i]
        by_cases hi : i < n
        · have h1 : i < n + 1 := by omega
          rw [List.getElem?_append_left (by omega)]
          simp [hi, h1]
        · have h1 : ¬ i < n + 1 := by omega
          simp [hi, h1]

/-- The polling loop of `rc522_to_card` in general: entered with counter
`k + 1` it makes between 1 and `k + 1` polls, every poll but the last shows
neither the timer bit nor a done bit, the counter is decremented once per
poll, and `ird_status_reg` is the value of the last poll. -/
theorem to_card_wait_log {σ : Type} (E : Board σ) (waitIRq : Nat) :
    ∀ (k : Nat) (st : Run σ), ∃ vs : List Nat, vs ≠ [] ∧ vs.length ≤ k + 1 ∧
      (to_card_wait E waitIRq k st).2.2.log = st.log ++ poll_log vs ∧
      (to_card_wait E waitIRq k st).1 = k + 1 - vs.length ∧
      (to_card_wait E waitIRq k st).2.1 = vs.getLast?.getD 0 ∧
      (∀ v ∈ vs.dropLast, v &&& 0x01 = 0 ∧ v &&& waitIRq = 0) ∧
      ((to_card_wait E waitIRq k st).1 ≠ 0 →
        ¬ (vs.getLast?.getD 0 &&& 0x01 = 0 ∧ vs.getLast?.getD 0 &&& waitIRq = 0)) := by
  intro k
  induction k with
  | zero =>
    intro st
    refine ⟨[(rc522_read_reg E (ms_delay E st 10) COM_IRQ_REG).1], by simp, by simp, ?_, rfl,
      rfl, by simp, ?_⟩
    · simp [to_card_wait, rc522_read_reg, ms_delay, poll_log]
    · intro h
      exact absurd rfl h
  | succ k ih =>
    intro st
    rw [to_card_wait]
    by_cases hq : (rc522_read_reg E (ms_delay E st 10) COM_IRQ_REG).1 &&& 0x01 = 0 ∧
        (rc522_read_reg E (ms_delay E st 10) COM_IRQ_REG).1 &&& waitIRq = 0
    · simp only [if_pos hq]
      obtain ⟨vs, hne, hlen, hlog, hcnt, hlast, hquiet, hstop⟩ :=
        ih (rc522_read_reg E (ms_delay E st 10) COM_IRQ_REG).2
      obtain ⟨w, ws, rfl⟩ := List.exists_cons_of_ne_nil hne
      refine ⟨(rc522_read_reg E (ms_delay E st 10) COM_IRQ_REG).1 :: w :: ws, by simp,
        by simp at hlen ⊢; omega, ?_, ?_, ?_, ?_, ?_⟩
      · rw [hlog]
        simp [rc522_read_reg, ms_delay, poll_log]
      · rw [hcnt]
        simp
      · rw [hlast]
        simp
      · intro v hv
        simp only [List.dropLast_cons₂, List.mem_cons] at hv
        rcases hv with rfl | hv
        · exact hq
        · exact hquiet v hv
      · intro h
        simpa using hstop h
    · simp only [if_neg hq]
      refine ⟨[(rc522_read_reg E (ms_delay E st 10) COM_IRQ_REG).1], by simp, by simp, ?_,
        by simp, rfl, by simp, ?_⟩
      · simp [rc522_read_reg, ms_delay, poll_log]
      · intro _
        simpa using hq

/-- Up to the read of the control register, a run of `rc522_to_card` has not
read the FIFO data register. -/
theorem to_card_control_log {σ : Type} (E : Board σ) (st : Run σ) (command : Nat)
    (data_to_send : List Nat) (data_length : Nat) :
    ∃ pre : List Access,
      (to_card_control E st command data_to_send data_length).2.log = st.log ++ pre ∧
      pre.countP (Access.isRead FIFO_DATA_REG) = 0 := by
  obtain ⟨a, b, c, hstart⟩ := to_card_start_log E st command data_to_send data_length
  obtain ⟨ps, -, -, hlog, -⟩ := to_card_wait_log E (waitIRq_of command) ((2000 + 65535) % 65536)
    (to_card_start E st command data_to_send data_length)
  obtain ⟨-, s2, -, -⟩ := start_log_shape command data_to_send data_length a b c
  obtain ⟨-, -, p3⟩ := poll_log_shape ps
  have h5 : ∃ x y e l d : Nat,
      (to_card_control E st command data_to_send data_length).2.log =
        (to_card_polled E st command data_to_send data_length).2.2.log ++
          [Access.rd BIT_FRAMING_REG x, Access.wr BIT_FRAMING_REG y, Access.rd ERROR_REG e,
            Access.rd FIFO_LEVEL_REG l, Access.rd CONTROL_REG d] := by
    apply Exists.intro
    apply Exists.intro
    apply Exists.intro
    apply Exists.intro
    apply Exists.intro
    simp only [to_card_control, to_card_level, to_card_error, read_reg_log,
      clear_bitmask_log, List.append_assoc, List.cons_append, List.nil_append]
    rfl
  obtain ⟨x, y, e, l, d, h5⟩ := h5
  refine ⟨start_log command data_to_send data_length a b c ++ poll_log ps ++
    [Access.rd BIT_FRAMING_REG x, Access.wr BIT_FRAMING_REG y, Access.rd ERROR_REG e,
      Access.rd FIFO_LEVEL_REG l, Access.rd CONTROL_REG d], ?_, ?_⟩
  · rw [h5]
    simp only [to_card_polled, hlog, hstart, List.append_assoc]
  · rw [List.countP_append, List.countP_append, s2, p3 FIFO_DATA_REG (by decide)]
    simp [List.countP_cons, Access.isRead, BIT_FRAMING_REG, FIFO_DATA_REG, ERROR_REG,
      FIFO_LEVEL_REG, CONTROL_REG]

/-- C11: for every FIFO level byte the device reports, a Transceive that
completes (counter not zero, no masked error bit) reads the FIFO data
register exactly min(max(fifoLevel,1),16) times, all of them after the read
of the control register, and stores the bytes read at the indices 0, 1, ...
of the receive buffer, leaving the rest of the buffer as it was: at least 1
and at most 16 bytes are drained. -/
theorem to_card_drain_count {σ : Type} (E : Board σ) (st : Run σ)
    (data_to_send : List Nat) (data_length : Nat) (receive_data : List Nat)
    (bytes_received : Nat)
    (hcnt : (to_card_polled E st RC522_TRANSCEIVE_CMD data_to_send data_length).1 ≠ 0)
    (herr : (to_card_error E st RC522_TRANSCEIVE_CMD data_to_send data_length).1 &&& 0x1B = 0) :
    ∃ (pre : List Access) (vs : List Nat),
      (rc522_to_card E st RC522_TRANSCEIVE_CMD data_to_send data_length receive_data
        bytes_received).2.2.2.log = st.log ++ pre ++ vs.map (Access.rd FIFO_DATA_REG) ∧
      pre.countP (Access.isRead FIFO_DATA_REG) = 0 ∧
      vs.length =
        min (max (to_card_level E st RC522_TRANSCEIVE_CMD data_to_send data_length).1 1) 16 ∧
      1 ≤ vs.length ∧ vs.length ≤ 16 ∧
      (rc522_to_card E st RC522_TRANSCEIVE_CMD data_to_send data_length receive_data
        bytes_received).2.1.length = receive_data.length ∧
      ∀ i, (rc522_to_card E st RC522_TRANSCEIVE_CMD data_to_send data_length receive_data
          bytes_received).2.1.getD i 0 =
        if i < vs.length ∧ i < receive_data.length then vs.getD i 0
        else receive_data.getD i 0 := by
  have hclamp : ∀ f : Nat, (if (if f = 0 then 1 else f) > RC522_MAX_LEN then RC522_MAX_LEN
      else (if f = 0 then 1 else f)) = min (max f 1) 16 := by
    intro f
    unfold RC522_MAX_LEN
    split_ifs <;> omega
  obtain ⟨pre, hpre, hcount⟩ := to_card_control_log E st RC522_TRANSCEIVE_CMD data_to_send
    data_length
  obtain ⟨vs, hlen, hlog, hl, hget⟩ := to_card_drain_spec E
    (to_card_control E st RC522_TRANSCEIVE_CMD data_to_send data_length).2 receive_data
    (min (max (to_card_level E st RC522_TRANSCEIVE_CMD data_to_send data_length).1 1) 16)
  have hres : (rc522_to_card E st RC522_TRANSCEIVE_CMD data_to_send data_length receive_data
      bytes_received).2.1 =
        (to_card_drain E (to_card_control E st RC522_TRANSCEIVE_CMD data_to_send data_length).2
          receive_data
          (min (max (to_card_level E st RC522_TRANSCEIVE_CMD data_to_send data_length).1 1)
            16)).1 ∧
      (rc522_to_card E st RC522_TRANSCEIVE_CMD data_to_send data_length receive_data
        bytes_received).2.2.2 =
        (to_card_drain E (to_card_control E st RC522_TRANSCEIVE_CMD data_to_send data_length).2
          receive_data
          (min (max (to_card_level E st RC522_TRANSCEIVE_CMD data_to_send data_length).1 1)
            16)).2 := by
    simp only [to_card_polled, to_card_error, to_card_level, to_card_control] at hcnt herr ⊢
    simp only [rc522_to_card, hcnt, herr, ne_eq, not_false_eq_true, if_true, hclamp]
    exact ⟨trivial, trivial⟩
  rw [hres.1, hres.2]
  refine ⟨pre, vs, ?_, hcount, hlen, ?_, ?_, hl, ?_⟩
  · rw [hlog, hpre]
  · omega
  · omega
  · intro i
    rw [hget i, hlen]

set_option maxRecDepth 100000 in
/-- Witness of C11: the simulated IC reports 20 bytes in its FIFO and 16 are
drained; it reports none and 1 byte is read all the same. -/
theorem to_card_drain_count_witness :
    ((to_card_polled simBoard ⟨Chip.init (fixedCard (List.replicate 20 7) 0), []⟩
        RC522_TRANSCEIVE_CMD [0x26] 1).1 ≠ 0 ∧
      (to_card_error simBoard ⟨Chip.init (fixedCard (List.replicate 20 7) 0), []⟩
        RC522_TRANSCEIVE_CMD [0x26] 1).1 &&& 0x1B = 0 ∧
      ∃ (pre : List Access) (vs : List Nat),
        (rc522_to_card simBoard ⟨Chip.init (fixedCard (List.replicate 20 7) 0), []⟩
          RC522_TRANSCEIVE_CMD [0x26] 1 (List.replicate 32 0) 0).2.2.2.log =
          [] ++ pre ++ vs.map (Access.rd FIFO_DATA_REG) ∧
        pre.countP (Access.isRead FIFO_DATA_REG) = 0 ∧ vs.length = 16) ∧
    ((to_card_polled simBoard ⟨Chip.init (fixedCard [] 0), []⟩
        RC522_TRANSCEIVE_CMD [0x26] 1).1 ≠ 0 ∧
      (to_card_error simBoard ⟨Chip.init (fixedCard [] 0), []⟩
        RC522_TRANSCEIVE_CMD [0x26] 1).1 &&& 0x1B = 0 ∧
      ∃ (pre : List Access) (vs : List Nat),
        (rc522_to_card simBoard ⟨Chip.init (fixedCard [] 0), []⟩
          RC522_TRANSCEIVE_CMD [0x26] 1 (List.replicate 32 0) 0).2.2.2.log =
          [] ++ pre ++ vs.map (Access.rd FIFO_DATA_REG) ∧
        pre.countP (Access.isRead FIFO_DATA_REG) = 0 ∧ vs.length = 1) :=
  ⟨⟨by decide, by decide,
     let ⟨pre, vs, h1, h2, h3, _⟩ := to_card_drain_count simBoard
       ⟨Chip.init (fixedCard (List.replicate 20 7) 0), []⟩ [0x26] 1 (List.replicate 32 0) 0
       (by decide) (by decide)
     ⟨pre, vs, h1, h2, h3.trans (by decide)⟩⟩,
   ⟨by decide, by decide,
     let ⟨pre, vs, h1, h2, h3, _⟩ := to_card_drain_count simBoard
       ⟨Chip.init (fixedCard [] 0), []⟩ [0x26] 1 (List.replicate 32 0) 0
       (by decide) (by decide)
     ⟨pre, vs, h1, h2, h3.trans (by decide)⟩⟩⟩

/-! ## CRC coprocessor: polling and result -/

/-- The polling loop of `rc522_calculate_CRC` in general: entered with `i`
equal to `k + 1` it makes between 1 and `k + 1` polls of the divider-interrupt
register, every poll but the last shows the CRC-done flag clear, and an exit
before the last allowed poll means the flag was seen set. -/
theorem crc_wait_log {σ : Type} (E : Board σ) :
    ∀ (k : Nat) (st : Run σ), ∃ vs : List Nat, vs ≠ [] ∧ vs.length ≤ k + 1 ∧
      (crc_wait E k st).2.log = st.log ++ vs.map (Access.rd DIV_IRQ_REG) ∧
      (crc_wait E k st).1 = vs.getLast?.getD 0 ∧
      (∀ v ∈ vs.dropLast, v &&& 0x04 = 0) ∧
      (vs.length < k + 1 → vs.getLast?.getD 0 &&& 0x04 ≠ 0) := by
  intro k
  induction k with
  | zero =>
    intro st
    exact ⟨[(rc522_read_reg E st DIV_IRQ_REG).1], by simp, by simp,
      by simp [crc_wait, read_reg_log], rfl, by simp, by simp⟩
  | succ k ih =>
    intro st
    rw [crc_wait]
    by_cases hq : (rc522_read_reg E st DIV_IRQ_REG).1 &&& 0x04 = 0
    · simp only [if_pos hq]
      obtain ⟨vs, hne, hlen, hlog, hlast, hquiet, hstop⟩ := ih (rc522_read_reg E st DIV_IRQ_REG).2
      obtain ⟨w, ws, rfl⟩ := List.exists_cons_of_ne_nil hne
      refine ⟨(rc522_read_reg E st DIV_IRQ_REG).1 :: w :: ws, by simp,
        by simp at hlen ⊢; omega, ?_, ?_, ?_, ?_⟩
      · rw [hlog]
        simp [read_reg_log]
      · rw [hlast]
        simp
      · intro v hv
        simp only [List.dropLast_cons₂, List.mem_cons] at hv
        rcases hv with rfl | hv
        · exact hq
        · exact hquiet v hv
      · intro h
        have h2 : (w :: ws).length < k + 1 := by simp at h ⊢; omega
        simpa using hstop h2
    · simp only [if_neg hq]
      exact ⟨[(rc522_read_reg E st DIV_IRQ_REG).1], by simp, by simp,
        by simp [read_reg_log], rfl, by simp, fun _ => by simpa using hq⟩

/-- The shape of the log and the result of one run of
`rc522_calculate_CRC`, for any device. -/
theorem calculate_CRC_log {σ : Type} (E : Board σ) (st : Run σ) (pIndata : List Nat)
    (len : Nat) :
    ∃ (x y : Nat) (vs : List Nat) (lo mid : Nat),
      (rc522_calculate_CRC E st pIndata len).2.log =
        st.log ++ crc_log pIndata len x y vs lo mid ∧
      (rc522_calculate_CRC E st pIndata len).1 = (lo, mid) := by
  obtain ⟨vs, -, -, hlog, -⟩ := crc_wait_log E ((0xFF + 255) % 256)
    ((rc522_write_reg E
      ((List.range len).foldl
        (fun st i => rc522_write_reg E st FIFO_DATA_REG (pIndata.getD i 0))
        (rc522_set_bitmask E (rc522_clear_bitmask E st DIV_IRQ_REG 0x04) FIFO_LEVEL_REG 0x80))
      COMMAND_REG RC522_CALC_CRC_CMD))
  refine ⟨(rc522_read_reg E st DIV_IRQ_REG).1,
    (rc522_read_reg E (rc522_clear_bitmask E st DIV_IRQ_REG 0x04) FIFO_LEVEL_REG).1,
    vs, _, _, ?_, rfl⟩
  simp only [rc522_calculate_CRC, read_reg_log, hlog, write_reg_log, fifo_load_log,
    set_bitmask_log, clear_bitmask_log, crc_log, List.append_assoc, List.cons_append,
    List.nil_append]

/-- C13: for every input and every device, `rc522_calculate_CRC` clears the
CRC interrupt flag, flushes the FIFO, loads the `len` input bytes, issues
CalcCRC, and then polls bit 0x04 of the divider-interrupt register (0x05) at
least once and at most 255 times, stopping at the first poll that shows the
bit; then, whether or not the bit was seen, it reads the low result register
(0x22) and the mid result register (0x21), in that order, and returns the two
values read as output bytes 0 and 1.  Nothing else is returned. -/
theorem calculate_CRC_polls {σ : Type} (E : Board σ) (st : Run σ) (pIndata : List Nat)
    (len : Nat) :
    ∃ (x y : Nat) (vs : List Nat) (lo mid : Nat),
      1 ≤ vs.length ∧ vs.length ≤ 255 ∧
      (∀ v ∈ vs.dropLast, v &&& 0x04 = 0) ∧
      (vs.length < 255 → vs.getLast?.getD 0 &&& 0x04 ≠ 0) ∧
      (rc522_calculate_CRC E st pIndata len).2.log =
        st.log ++ crc_log pIndata len x y vs lo mid ∧
      (rc522_calculate_CRC E st pIndata len).1 = (lo, mid) := by
  obtain ⟨vs, hne, hlen, hlog, -, hquiet, hstop⟩ := crc_wait_log E ((0xFF + 255) % 256)
    ((rc522_write_reg E
      ((List.range len).foldl
        (fun st i => rc522_write_reg E st FIFO_DATA_REG (pIndata.getD i 0))
        (rc522_set_bitmask E (rc522_clear_bitmask E st DIV_IRQ_REG 0x04) FIFO_LEVEL_REG 0x80))
      COMMAND_REG RC522_CALC_CRC_CMD))
  refine ⟨(rc522_read_reg E st DIV_IRQ_REG).1,
    (rc522_read_reg E (rc522_clear_bitmask E st DIV_IRQ_REG 0x04) FIFO_LEVEL_REG).1,
    vs, _, _, List.length_pos.mpr hne, hlen, hquiet, hstop, ?_, rfl⟩
  simp only [rc522_calculate_CRC, read_reg_log, hlog, write_reg_log, fifo_load_log,
    set_bitmask_log, clear_bitmask_log, crc_log, List.append_assoc, List.cons_append,
    List.nil_append]

/-! ## CRC on the simulated IC -/

theorem sim_address_decode : ∀ reg, reg < 64 →
    ((((reg <<< 1) &&& 0xFE) ||| 0x80) % 256) &&& 0x80 ≠ 0 ∧
    (((((reg <<< 1) &&& 0xFE) ||| 0x80) % 256) >>> 1) &&& 0x3F = reg ∧
    ((((reg <<< 1) &&& 0x7E) % 256) &&& 0x80 = 0) ∧
    ((((reg <<< 1) &&& 0x7E) % 256) >>> 1) &&& 0x3F = reg := by
  decide

theorem sim_read_reg (st : Run Chip) (reg : Nat) (hreg : reg < 64) :
    rc522_read_reg simBoard st reg =
      ((st.hw.read reg).1 % 256,
        ⟨{ (st.hw.read reg).2 with addr := none },
          st.log ++ [Access.rd reg ((st.hw.read reg).1 % 256)]⟩) := by
  obtain ⟨h1, h2, -, -⟩ := sim_address_decode reg hreg
  simp only [rc522_read_reg, simBoard, h1, h2, ne_eq, not_false_eq_true, if_true]
  unfold Chip.read
  split_ifs <;> rfl

theorem sim_write_reg (st : Run Chip) (reg value : Nat) (hreg : reg < 64) :
    rc522_write_reg simBoard st reg value =
      ⟨{ (st.hw.write reg (value % 256)) with addr := none },
        st.log ++ [Access.wr reg (value % 256)]⟩ := by
  obtain ⟨-, -, h3, h4⟩ := sim_address_decode reg hreg
  simp only [rc522_write_reg, simBoard, h3, h4, ne_eq, not_true_eq_false, if_false]
  unfold Chip.write
  split_ifs <;> rfl

theorem or_four_mod_and (d : Nat) : ((d ||| 4) % 256) &&& 4 ≠ 0 := by
  intro h
  have h1 : (((d ||| 4) % 256) &&& 4).testBit 2 = false := by rw [h]; simp
  have h2 : (((d ||| 4) % 256) &&& 4).testBit 2 = true := by
    rw [Nat.testBit_and, show (256 : Nat) = 2 ^ 8 from rfl, Nat.testBit_mod_two_pow,
      Nat.testBit_or]
    have : (4 : Nat).testBit 2 = true := by decide
    simp [this]
  rw [h1] at h2
  exact absurd h2 (by decide)

theorem or_flush_mod_and (y : Nat) : ((y ||| 0x80) % 256 % 256) &&& 0x80 ≠ 0 := by
  intro h
  have h1 : (((y ||| 0x80) % 256 % 256) &&& 0x80).testBit 7 = false := by rw [h]; simp
  have h2 : (((y ||| 0x80) % 256 % 256) &&& 0x80).testBit 7 = true := by
    rw [Nat.mod_mod, Nat.testBit_and, show (256 : Nat) = 2 ^ 8 from rfl,
      Nat.testBit_mod_two_pow, Nat.testBit_or]
    have : (0x80 : Nat).testBit 7 = true := by decide
    simp [this]
  rw [h1] at h2
  exact absurd h2 (by decide)

/-- CRC_A is a 16-bit value. -/
theorem crc_a_lt (bytes : List Nat) : crc_a bytes < 65536 := by
  unfold crc_a
  have : ∀ (l : List Nat) (init : Nat), init < 65536 →
      l.foldl (fun crc b =>
        ((crc >>> 8) ^^^ ((((b ^^^ crc) &&& 0xFF) ^^^ (((b ^^^ crc) &&& 0xFF) <<< 4)) &&& 0xFF) <<< 8
          ^^^ ((((b ^^^ crc) &&& 0xFF) ^^^ (((b ^^^ crc) &&& 0xFF) <<< 4)) &&& 0xFF) <<< 3
          ^^^ ((((b ^^^ crc) &&& 0xFF) ^^^ (((b ^^^ crc) &&& 0xFF) <<< 4)) &&& 0xFF) >>> 4)
          &&& 0xFFFF) init < 65536 := by
    intro l
    induction l with
    | nil => intro init h; simpa using h
    | cons b l ih =>
      intro init _
      rw [List.foldl_cons]
      exact ih _ (Nat.lt_of_le_of_lt Nat.and_le_right (by decide))
  exact this bytes 0x6363 (by decide)

theorem sim_flush_fifo (st : Run Chip) :
    (rc522_set_bitmask simBoard st FIFO_LEVEL_REG 0x80).hw.fifo = [] := by
  simp only [rc522_set_bitmask]
  rw [sim_write_reg _ _ _ (by decide)]
  have h := or_flush_mod_and (rc522_read_reg simBoard st FIFO_LEVEL_REG).1
  simp only [Nat.mod_mod, FIFO_LEVEL_REG] at h
  simp [Chip.write, FIFO_LEVEL_REG, COMMAND_REG, COM_IRQ_REG, DIV_IRQ_REG, FIFO_DATA_REG, h]

theorem sim_fifo_load (data : List Nat) : ∀ (n : Nat) (st : Run Chip),
    ((List.range n).foldl
        (fun st i => rc522_write_reg simBoard st FIFO_DATA_REG (data.getD i 0)) st).hw.fifo =
      st.hw.fifo ++ (List.range n).map (fun i => data.getD i 0 % 256) ∧
    ((List.range n).foldl
        (fun st i => rc522_write_reg simBoard st FIFO_DATA_REG (data.getD i 0)) st).hw.divIrq =
      st.hw.divIrq := by
  intro n
  induction n with
  | zero => intro st; simp
  | succ n ih =>
    intro st
    obtain ⟨h1, h2⟩ := ih st
    rw [List.range_succ, List.foldl_append, List.map_append, ← List.append_assoc, ← h1, ← h2]
    simp only [List.foldl_cons, List.foldl_nil, List.map_cons, List.map_nil]
    rw [sim_write_reg _ _ _ (by decide)]
    simp [Chip.write, FIFO_LEVEL_REG, COMMAND_REG, COM_IRQ_REG, DIV_IRQ_REG, FIFO_DATA_REG]

theorem sim_start_crc (st : Run Chip) :
    (rc522_write_reg simBoard st COMMAND_REG RC522_CALC_CRC_CMD).hw.crc = crc_a st.hw.fifo ∧
    (rc522_write_reg simBoard st COMMAND_REG RC522_CALC_CRC_CMD).hw.divIrq =
      st.hw.divIrq ||| 0x04 := by
  rw [sim_write_reg _ _ _ (by decide)]
  simp [Chip.write, COMMAND_REG, RC522_CALC_CRC_CMD, RC522_TRANSCEIVE_CMD]

theorem sim_read_keeps_crc (st : Run Chip) (reg : Nat) (hreg : reg < 64) :
    (rc522_read_reg simBoard st reg).2.hw.crc = st.hw.crc := by
  rw [sim_read_reg _ _ hreg]
  unfold Chip.read
  split_ifs <;> rfl

theorem sim_crc_wait (st : Run Chip) (h : (st.hw.divIrq % 256) &&& 0x04 ≠ 0) (k : Nat) :
    (crc_wait simBoard k st).2.hw.crc = st.hw.crc := by
  have hv : (rc522_read_reg simBoard st DIV_IRQ_REG).1 = st.hw.divIrq % 256 := by
    rw [sim_read_reg _ _ (by decide)]
    simp [Chip.read, DIV_IRQ_REG, COM_IRQ_REG]
  cases k with
  | zero => exact sim_read_keeps_crc st DIV_IRQ_REG (by decide)
  | succ k =>
    rw [crc_wait]
    simp only [hv, if_neg h]
    exact sim_read_keeps_crc st DIV_IRQ_REG (by decide)

/-- On the simulated IC, whatever state it is in, `rc522_calculate_CRC`
returns the low and the high byte of CRC_A of the `len` input bytes. -/
theorem sim_calculate_CRC (st : Run Chip) (pIndata : List Nat) (len : Nat) :
    (rc522_calculate_CRC simBoard st pIndata len).1 =
      (crc_a ((List.range len).map (fun i => pIndata.getD i 0 % 256)) &&& 0xFF,
       crc_a ((List.range len).map (fun i => pIndata.getD i 0 % 256)) >>> 8) := by
  have hload := sim_fifo_load pIndata len
    (rc522_set_bitmask simBoard (rc522_clear_bitmask simBoard st DIV_IRQ_REG 0x04)
      FIFO_LEVEL_REG 0x80)
  rw [sim_flush_fifo, List.nil_append] at hload
  have hcmd := sim_start_crc ((List.range len).foldl
    (fun st i => rc522_write_reg simBoard st FIFO_DATA_REG (pIndata.getD i 0))
    (rc522_set_bitmask simBoard (rc522_clear_bitmask simBoard st DIV_IRQ_REG 0x04)
      FIFO_LEVEL_REG 0x80))
  rw [hload.1] at hcmd
  have hbit : ((rc522_write_reg simBoard ((List.range len).foldl
      (fun st i => rc522_write_reg simBoard st FIFO_DATA_REG (pIndata.getD i 0))
      (rc522_set_bitmask simBoard (rc522_clear_bitmask simBoard st DIV_IRQ_REG 0x04)
        FIFO_LEVEL_REG 0x80)) COMMAND_REG RC522_CALC_CRC_CMD).hw.divIrq % 256) &&& 0x04 ≠ 0 := by
    rw [hcmd.2]
    exact or_four_mod_and _
  have hwait := sim_crc_wait _ hbit ((0xFF + 255) % 256)
  rw [hcmd.1] at hwait
  have hlt := crc_a_lt ((List.range len).map (fun i => pIndata.getD i 0 % 256))
  have hlo : ∀ s : Run Chip, (rc522_read_reg simBoard s CRC_RESULT_REG_L).1 =
      (s.hw.crc &&& 0xFF) % 256 := by
    intro s
    rw [sim_read_reg _ _ (by decide)]
    simp [Chip.read, CRC_RESULT_REG_M, CRC_RESULT_REG_L, COM_IRQ_REG, DIV_IRQ_REG, ERROR_REG,
      FIFO_DATA_REG, FIFO_LEVEL_REG, CONTROL_REG]
  have hmid : ∀ s : Run Chip, (rc522_read_reg simBoard s CRC_RESULT_REG_M).1 =
      (s.hw.crc >>> 8) % 256 := by
    intro s
    rw [sim_read_reg _ _ (by decide)]
    simp [Chip.read, CRC_RESULT_REG_M, CRC_RESULT_REG_L, COM_IRQ_REG, DIV_IRQ_REG, ERROR_REG,
      FIFO_DATA_REG, FIFO_LEVEL_REG, CONTROL_REG]
  simp only [rc522_calculate_CRC]
  rw [hlo, hmid, sim_read_keeps_crc _ CRC_RESULT_REG_L (by decide), hwait]
  have h1 : (crc_a ((List.range len).map (fun i => pIndata.getD i 0 % 256)) &&& 0xFF) % 256 =
      crc_a ((List.range len).map (fun i => pIndata.getD i 0 % 256)) &&& 0xFF :=
    Nat.mod_eq_of_lt (Nat.lt_of_le_of_lt Nat.and_le_right (by decide))
  have h2 : (crc_a ((List.range len).map (fun i => pIndata.getD i 0 % 256)) >>> 8) % 256 =
      crc_a ((List.range len).map (fun i => pIndata.getD i 0 % 256)) >>> 8 := by
    apply Nat.mod_eq_of_lt
    rw [Nat.shiftRight_eq_div_pow]
    omega
  rw [h1, h2]

set_option maxRecDepth 100000 in
/-- Counterexample to C12 as stated: on an IC whose coprocessor never runs,
two runs of `rc522_calculate_CRC` over the same input 00 00 return the two
different pairs of bytes that the result registers happened to hold. -/
theorem calculate_CRC_stale :
    (rc522_calculate_CRC staleBoard ⟨(none, 0x1234), []⟩ [0x00, 0x00] 2).1 = (0x34, 0x12) ∧
    (rc522_calculate_CRC staleBoard ⟨(none, 0xABCD), []⟩ [0x00, 0x00] 2).1 = (0xCD, 0xAB) ∧
    (rc522_calculate_CRC staleBoard ⟨(none, 0x1234), []⟩ [0x00, 0x00] 2).1 ≠
      (rc522_calculate_CRC staleBoard ⟨(none, 0xABCD), []⟩ [0x00, 0x00] 2).1 := by
  decide

/-- C12 (as amended): on a reader IC whose CRC coprocessor works (the
simulated IC: CalcCRC computes CRC_A of the bytes loaded since the FIFO was
flushed and raises the CRC-done flag), any two runs of `rc522_calculate_CRC`
with the same input bytes return the same two output bytes, whatever states
the IC is in: the low and the high byte of CRC_A of the `len` input bytes.
The input 00 00 gives A0 1E. -/
theorem calculate_CRC_input_only (st1 st2 : Run Chip) (pIndata : List Nat) (len : Nat) :
    (rc522_calculate_CRC simBoard st1 pIndata len).1 =
      (rc522_calculate_CRC simBoard st2 pIndata len).1 ∧
    (rc522_calculate_CRC simBoard st1 pIndata len).1 =
      (crc_a ((List.range len).map (fun i => pIndata.getD i 0 % 256)) &&& 0xFF,
       crc_a ((List.range len).map (fun i => pIndata.getD i 0 % 256)) >>> 8) ∧
    (rc522_calculate_CRC simBoard st1 [0x00, 0x00] 2).1 = (0xA0, 0x1E) := by
  refine ⟨?_, sim_calculate_CRC st1 pIndata len, ?_⟩
  · rw [sim_calculate_CRC, sim_calculate_CRC]
  · rw [sim_calculate_CRC]
    decide

/-! ## Address bytes, status propagation and initialisation -/

/-- The address bytes of the registers 0x00..0x3F. -/
theorem address_byte_arith : ∀ addr, addr ≤ 0x3F →
    ((((addr <<< 1) &&& 0xFE) ||| 0x80) % 256 = ((addr <<< 1) &&& 0xFE) ||| 0x80) ∧
    (((addr <<< 1) &&& 0x7E) % 256 = (addr <<< 1) &&& 0x7E) ∧
    (((addr <<< 1) &&& 0xFE) ||| 0x80) &&& 0x80 = 0x80 ∧
    ((addr <<< 1) &&& 0x7E) &&& 0x80 = 0 ∧
    (((addr <<< 1) &&& 0xFE) ||| 0x80) &&& 0x01 = 0 ∧
    ((addr <<< 1) &&& 0x7E) &&& 0x01 = 0 ∧
    ((((addr <<< 1) &&& 0xFE) ||| 0x80) >>> 1) &&& 0x3F = addr ∧
    (((addr <<< 1) &&& 0x7E) >>> 1) &&& 0x3F = addr ∧
    ((((addr <<< 1) &&& 0xFE) ||| 0x80) ^^^ ((addr <<< 1) &&& 0x7E)) = 0x80 := by
  decide

/-- C14: for every register address in 0x00..0x3F, `rc522_read_reg` sends
the two bytes `(addr<<1 & 0xFE) | 0x80` and 0x00, and `rc522_write_reg` sends
`(addr<<1) & 0x7E` and the value; the first byte of a read has bit 7 set,
that of a write has it clear, both have bit 0 clear and carry the address in
bits 6..1, and the two differ exactly in bit 7. -/
theorem address_byte_format (addr value : Nat) (haddr : addr ≤ 0x3F) :
    ∃ rb wb : Nat,
      (rc522_read_reg spyBoard ⟨[], []⟩ addr).2.hw = [rb, 0x00] ∧
      (rc522_write_reg spyBoard ⟨[], []⟩ addr value).hw = [wb, value % 256] ∧
      rb = ((addr <<< 1) &&& 0xFE) ||| 0x80 ∧
      wb = (addr <<< 1) &&& 0x7E ∧
      rb &&& 0x80 = 0x80 ∧ wb &&& 0x80 = 0 ∧
      rb &&& 0x01 = 0 ∧ wb &&& 0x01 = 0 ∧
      (rb >>> 1) &&& 0x3F = addr ∧ (wb >>> 1) &&& 0x3F = addr ∧
      rb ^^^ wb = 0x80 := by
  obtain ⟨h1, h2, h3, h4, h5, h6, h7, h8, h9⟩ := address_byte_arith addr haddr
  refine ⟨((addr <<< 1) &&& 0xFE) ||| 0x80, (addr <<< 1) &&& 0x7E, ?_, ?_, rfl, rfl,
    h3, h4, h5, h6, h7, h8, h9⟩
  · simp only [rc522_read_reg, spyBoard, h1]
    rfl
  · simp only [rc522_write_reg, spyBoard, h2]
    rfl

/-- Witness of C14 at the FIFO data register 0x09: a read sends 92 00, a write
of 0x26 sends 12 26. -/
theorem address_byte_format_witness :
    (0x09 : Nat) ≤ 0x3F ∧
    (rc522_read_reg spyBoard ⟨[], []⟩ 0x09).2.hw = [0x92, 0x00] ∧
    (rc522_write_reg spyBoard ⟨[], []⟩ 0x09 0x26).hw = [0x12, 0x26] :=
  ⟨by decide,
    let ⟨_, _, h1, _, h3, _⟩ := address_byte_format 0x09 0x26 (by decide)
    h1.trans (by rw [h3]; rfl),
    let ⟨_, _, _, h2, _, h4, _⟩ := address_byte_format 0x09 0x26 (by decide)
    h2.trans (by rw [h4]; rfl)⟩

/-- C18: when the executor returns NoTag or Error, `rc522_is_card_present`
and `MFRC522_Anticoll` each return that same status to their caller, whatever
the bit count and the buffer contents are. -/
theorem status_propagation {σ : Type} (E : Board σ) (st : Run σ) (req_mode : Nat)
    (tag_type serial_num : List Nat) (backBits unLen : Nat) :
    ((present_exchange E st req_mode tag_type backBits).1 = MI_NOTAGERR ∨
        (present_exchange E st req_mode tag_type backBits).1 = MI_ERR →
      (rc522_is_card_present E st req_mode tag_type backBits).1 =
        (present_exchange E st req_mode tag_type backBits).1) ∧
    ((anticoll_exchange E st serial_num unLen).1 = MI_NOTAGERR ∨
        (anticoll_exchange E st serial_num unLen).1 = MI_ERR →
      (MFRC522_Anticoll E st serial_num unLen).1 =
        (anticoll_exchange E st serial_num unLen).1) := by
  constructor
  · intro h
    rw [is_card_present_eq, if_pos]
    rcases h with h | h <;> rw [h] <;> decide
  · intro h
    rw [anticoll_eq, if_neg]
    rcases h with h | h <;> rw [h] <;> decide

/-- Witness of C18: on the simulated IC a silent card makes the executor
return NoTag and a collision flag makes it return Error; both functions hand
the status on. -/
theorem status_propagation_witness :
    ((present_exchange simBoard ⟨Chip.init (fun _ => ⟨[], 0, 0x01, 0, 0⟩), []⟩ 0x26
        (List.replicate 16 0) 0).1 = MI_NOTAGERR ∧
      (rc522_is_card_present simBoard ⟨Chip.init (fun _ => ⟨[], 0, 0x01, 0, 0⟩), []⟩ 0x26
        (List.replicate 16 0) 0).1 = MI_NOTAGERR) ∧
    ((anticoll_exchange simBoard ⟨Chip.init (fun _ => ⟨[1, 2, 3, 4, 4], 0, 0x30, 0x08, 0⟩), []⟩
        (List.replicate 5 0) 0).1 = MI_ERR ∧
      (MFRC522_Anticoll simBoard ⟨Chip.init (fun _ => ⟨[1, 2, 3, 4, 4], 0, 0x30, 0x08, 0⟩), []⟩
        (List.replicate 5 0) 0).1 = MI_ERR) :=
  ⟨⟨by decide,
     ((status_propagation simBoard ⟨Chip.init (fun _ => ⟨[], 0, 0x01, 0, 0⟩), []⟩ 0x26
       (List.replicate 16 0) [] 0 0).1 (Or.inl (by decide))).trans (by decide)⟩,
   ⟨by decide,
     ((status_propagation simBoard
       ⟨Chip.init (fun _ => ⟨[1, 2, 3, 4, 4], 0, 0x30, 0x08, 0⟩), []⟩ 0x26
       [] (List.replicate 5 0) 0 0).2 (Or.inr (by decide))).trans (by decide)⟩⟩

/-- C20: `rc522_init` returns Error exactly when the value read back from
the timer prescaler register right after writing 0x3E to it differs from 0x3E,
and Ok (0) otherwise; the status is the same for every `card_type`. -/
theorem init_status {σ : Type} (E : Board σ) (st : Run σ) (card_type other_type : Nat) :
    ((rc522_init E st card_type).1 = MI_ERR ↔ (init_readback E st).1 ≠ 0x3E) ∧
    ((rc522_init E st card_type).1 = MI_OK ↔ (init_readback E st).1 = 0x3E) ∧
    MI_OK = 0 ∧
    (rc522_init E st card_type).1 = (rc522_init E st other_type).1 := by
  simp only [rc522_init, init_readback]
  refine ⟨?_, ?_, rfl, trivial⟩
  · split_ifs with h
    · exact ⟨fun _ => h, fun _ => rfl⟩
    · exact ⟨fun e => absurd e (by decide), fun e => absurd e h⟩
  · split_ifs with h
    · exact ⟨fun e => absurd e (by decide), fun e => absurd e h⟩
    · exact ⟨fun _ => not_not.mp h, fun _ => rfl⟩

/-! ## What the executor writes -/

theorem frame_trace_append (l1 l2 : List Access) :
    frame_trace (l1 ++ l2) = frame_trace l1 ++ frame_trace l2 := by
  simp [frame_trace]

theorem frame_trace_of_quiet (rest : List Access)
    (h : ∀ e ∈ rest, Access.writesOther BIT_FRAMING_REG e = false) : frame_trace rest = [] := by
  unfold frame_trace
  rw [List.filter_eq_nil_iff]
  intro e he
  have := h e he
  cases e with
  | rd r v => simp [Access.isWrite]
  | delay ms => simp [Access.isWrite]
  | wr r v =>
    simp only [Access.writesOther, bne_eq_false_iff_eq] at this
    subst this
    simp [Access.isWrite, BIT_FRAMING_REG, FIFO_DATA_REG, COMMAND_REG]

theorem frame_trace_fifo_map (f : Nat → Nat) (l : List Nat) :
    frame_trace (l.map (fun i => Access.wr FIFO_DATA_REG (f i))) =
      l.map (fun i => Access.wr FIFO_DATA_REG (f i)) := by
  unfold frame_trace
  rw [List.filter_eq_self]
  intro e he
  obtain ⟨i, _, rfl⟩ := List.mem_map.mp he
  simp [Access.isWrite]

theorem frame_trace_rd_map (reg : Nat) (vs : List Nat) :
    frame_trace (vs.map (Access.rd reg)) = [] := by
  unfold frame_trace
  rw [List.filter_eq_nil_iff]
  intro e he
  obtain ⟨i, _, rfl⟩ := List.mem_map.mp he
  simp [Access.isWrite]

theorem frame_trace_crc_log (pIndata : List Nat) (len x y : Nat) (vs : List Nat) (lo mid : Nat) :
    frame_trace (crc_log pIndata len x y vs lo mid) =
      (List.range len).map (fun i => Access.wr FIFO_DATA_REG (pIndata.getD i 0 % 256)) ++
        [Access.wr COMMAND_REG RC522_CALC_CRC_CMD] := by
  unfold crc_log
  simp only [frame_trace_append, frame_trace_fifo_map, frame_trace_rd_map]
  simp [frame_trace, Access.isWrite, DIV_IRQ_REG, FIFO_LEVEL_REG, FIFO_DATA_REG, COMMAND_REG,
    RC522_CALC_CRC_CMD]

theorem frame_trace_start_log (command : Nat) (data_to_send : List Nat)
    (data_length a b c : Nat) :
    frame_trace (start_log command data_to_send data_length a b c) =
      [Access.wr COMMAND_REG RC522_IDLE_CMD] ++
      (List.range data_length).map
        (fun i => Access.wr FIFO_DATA_REG (data_to_send.getD i 0 % 256)) ++
      [Access.wr COMMAND_REG (command % 256)] := by
  unfold start_log
  simp only [frame_trace_append, frame_trace_fifo_map]
  split_ifs <;>
    simp [frame_trace, Access.isWrite, COM_IEN_REG, COM_IRQ_REG, FIFO_LEVEL_REG, FIFO_DATA_REG,
      COMMAND_REG, BIT_FRAMING_REG, RC522_IDLE_CMD]

theorem poll_log_quiet (vs : List Nat) :
    ∀ e ∈ poll_log vs, Access.writesOther BIT_FRAMING_REG e = false := by
  induction vs with
  | nil => simp [poll_log]
  | cons v vs ih =>
    intro e he
    simp only [poll_log, List.mem_cons] at he
    rcases he with rfl | rfl | he
    · rfl
    · rfl
    · exact ih e he

/-- The state in which `rc522_to_card` returns, by the path taken. -/
theorem to_card_final_state {σ : Type} (E : Board σ) (st : Run σ) (command : Nat)
    (data_to_send : List Nat) (data_length : Nat) (receive_data : List Nat)
    (bytes_received : Nat) :
    (rc522_to_card E st command data_to_send data_length receive_data bytes_received).2.2.2 =
      if (to_card_polled E st command data_to_send data_length).1 ≠ 0 then
        if (to_card_error E st command data_to_send data_length).1 &&& 0x1B = 0 then
          if command = RC522_TRANSCEIVE_CMD then
            (to_card_drain E (to_card_control E st command data_to_send data_length).2
              receive_data
              (min (max (to_card_level E st command data_to_send data_length).1 1) 16)).2
          else (to_card_error E st command data_to_send data_length).2
        else (to_card_error E st command data_to_send data_length).2
      else
        rc522_clear_bitmask E (to_card_polled E st command data_to_send data_length).2.2
          BIT_FRAMING_REG 0x80 := by
  have hclamp : ∀ f : Nat, (if (if f = 0 then 1 else f) > RC522_MAX_LEN then RC522_MAX_LEN
      else (if f = 0 then 1 else f)) = min (max f 1) 16 := by
    intro f
    unfold RC522_MAX_LEN
    split_ifs <;> omega
  simp only [to_card_polled, to_card_error, to_card_level, to_card_control]
  by_cases h1 : (to_card_wait E (waitIRq_of command) ((2000 + 65535) % 65536)
      (to_card_start E st command data_to_send data_length)).1 ≠ 0
  · by_cases h2 : (rc522_read_reg E (rc522_clear_bitmask E
        (to_card_wait E (waitIRq_of command) ((2000 + 65535) % 65536)
          (to_card_start E st command data_to_send data_length)).2.2
        BIT_FRAMING_REG 0x80) ERROR_REG).1 &&& 0x1B = 0
    · by_cases h3 : command = RC522_TRANSCEIVE_CMD
      · simp only [rc522_to_card, if_pos h1, if_pos h2, if_pos h3, hclamp]
      · simp only [rc522_to_card, if_pos h1, if_pos h2, if_neg h3]
    · simp only [rc522_to_card, if_pos h1, if_neg h2]
  · simp only [rc522_to_card, if_neg h1]

/-- The log entries that follow the polling loop of `rc522_to_card`. -/
theorem to_card_tail_log {σ : Type} (E : Board σ) (st : Run σ) (command : Nat)
    (data_to_send : List Nat) (data_length : Nat) :
    ∃ x y e l d : Nat,
      (rc522_clear_bitmask E (to_card_polled E st command data_to_send data_length).2.2
          BIT_FRAMING_REG 0x80).log =
        (to_card_polled E st command data_to_send data_length).2.2.log ++
          [Access.rd BIT_FRAMING_REG x, Access.wr BIT_FRAMING_REG y] ∧
      (to_card_error E st command data_to_send data_length).2.log =
        (to_card_polled E st command data_to_send data_length).2.2.log ++
          [Access.rd BIT_FRAMING_REG x, Access.wr BIT_FRAMING_REG y, Access.rd ERROR_REG e] ∧
      (to_card_control E st command data_to_send data_length).2.log =
        (to_card_polled E st command data_to_send data_length).2.2.log ++
          [Access.rd BIT_FRAMING_REG x, Access.wr BIT_FRAMING_REG y, Access.rd ERROR_REG e,
            Access.rd FIFO_LEVEL_REG l, Access.rd CONTROL_REG d] := by
  refine ⟨(rc522_read_reg E (to_card_polled E st command data_to_send data_length).2.2
      BIT_FRAMING_REG).1,
    ((rc522_read_reg E (to_card_polled E st command data_to_send data_length).2.2
      BIT_FRAMING_REG).1 &&& (0xFFFF ^^^ 0x80)) % 256 % 256,
    (to_card_error E st command data_to_send data_length).1,
    (to_card_level E st command data_to_send data_length).1,
    (to_card_control E st command data_to_send data_length).1, ?_, ?_, ?_⟩
  · simp only [clear_bitmask_log]
  · simp only [to_card_error, read_reg_log, clear_bitmask_log, List.append_assoc,
      List.cons_append, List.nil_append]
  · simp only [to_card_control, to_card_level, to_card_error, read_reg_log, clear_bitmask_log,
      List.append_assoc, List.cons_append, List.nil_append]

/-- After its start-up phase `rc522_to_card` writes to no register but the
bit-framing register. -/
theorem to_card_log {σ : Type} (E : Board σ) (st : Run σ) (command : Nat)
    (data_to_send : List Nat) (data_length : Nat) (receive_data : List Nat)
    (bytes_received : Nat) :
    ∃ (a b c : Nat) (rest : List Access),
      (rc522_to_card E st command data_to_send data_length receive_data
        bytes_received).2.2.2.log =
        st.log ++ start_log command data_to_send data_length a b c ++ rest ∧
      ∀ e ∈ rest, Access.writesOther BIT_FRAMING_REG e = false := by
  obtain ⟨a, b, c, hstart⟩ := to_card_start_log E st command data_to_send data_length
  obtain ⟨ps, -, -, hlog, -⟩ := to_card_wait_log E (waitIRq_of command) ((2000 + 65535) % 65536)
    (to_card_start E st command data_to_send data_length)
  have hpl : (to_card_polled E st command data_to_send data_length).2.2.log =
      st.log ++ start_log command data_to_send data_length a b c ++ poll_log ps := by
    rw [to_card_polled, hlog, hstart]
  obtain ⟨x, y, e, l, d, t1, t2, t3⟩ := to_card_tail_log E st command data_to_send data_length
  obtain ⟨vs, -, hd, -, -⟩ := to_card_drain_spec E
    (to_card_control E st command data_to_send data_length).2 receive_data
    (min (max (to_card_level E st command data_to_send data_length).1 1) 16)
  have hq := poll_log_quiet ps
  refine ⟨a, b, c, ?_⟩
  rw [to_card_final_state]
  split_ifs with h1 h2 h3
  · refine ⟨poll_log ps ++ ([Access.rd BIT_FRAMING_REG x, Access.wr BIT_FRAMING_REG y,
      Access.rd ERROR_REG e, Access.rd FIFO_LEVEL_REG l, Access.rd CONTROL_REG d] ++
      vs.map (Access.rd FIFO_DATA_REG)), ?_, ?_⟩
    · rw [hd, t3, hpl]
      simp only [List.append_assoc]
    · intro e he
      simp only [List.mem_append, List.mem_cons, List.mem_map, List.mem_singleton,
        List.not_mem_nil, or_false] at he
      rcases he with he | (rfl | rfl | rfl | rfl | rfl) | ⟨v, _, rfl⟩
      · exact hq e he
      all_goals rfl
  · refine ⟨poll_log ps ++ [Access.rd BIT_FRAMING_REG x, Access.wr BIT_FRAMING_REG y,
      Access.rd ERROR_REG e], ?_, ?_⟩
    · rw [t2, hpl]
      simp only [List.append_assoc]
    · intro e he
      simp only [List.mem_append, List.mem_cons, List.mem_singleton, List.not_mem_nil,
        or_false] at he
      rcases he with he | rfl | rfl | rfl
      · exact hq e he
      all_goals rfl
  · refine ⟨poll_log ps ++ [Access.rd BIT_FRAMING_REG x, Access.wr BIT_FRAMING_REG y,
      Access.rd ERROR_REG e], ?_, ?_⟩
    · rw [t2, hpl]
      simp only [List.append_assoc]
    · intro e he
      simp only [List.mem_append, List.mem_cons, List.mem_singleton, List.not_mem_nil,
        or_false] at he
      rcases he with he | rfl | rfl | rfl
      · exact hq e he
      all_goals rfl
  · refine ⟨poll_log ps ++ [Access.rd BIT_FRAMING_REG x, Access.wr BIT_FRAMING_REG y], ?_, ?_⟩
    · rw [t1, hpl]
      simp only [List.append_assoc]
    · intro e he
      simp only [List.mem_append, List.mem_cons, List.mem_singleton, List.not_mem_nil,
        or_false] at he
      rcases he with he | rfl | rfl
      · exact hq e he
      all_goals rfl

/-! ## The select and halt frames -/

/-- The loop that loads the FIFO looks only at the first `n` bytes of its
input. -/
theorem fifo_load_congr {σ : Type} (E : Board σ) (d1 d2 : List Nat) :
    ∀ (n : Nat) (st : Run σ), (∀ i, i < n → d1.getD i 0 = d2.getD i 0) →
      (List.range n).foldl (fun st i => rc522_write_reg E st FIFO_DATA_REG (d1.getD i 0)) st =
      (List.range n).foldl (fun st i => rc522_write_reg E st FIFO_DATA_REG (d2.getD i 0)) st := by
  intro n
  induction n with
  | zero => intro st _; rfl
  | succ n ih =>
    intro st h
    rw [List.range_succ, List.foldl_append, List.foldl_append,
      ih st (fun i hi => h i (Nat.lt_succ_of_lt hi))]
    simp only [List.foldl_cons, List.foldl_nil]
    rw [h n (Nat.lt_succ_self n)]

/-- `rc522_calculate_CRC` looks only at the first `len` bytes of its input. -/
theorem calculate_CRC_congr {σ : Type} (E : Board σ) (st : Run σ) (d1 d2 : List Nat)
    (len : Nat) (h : ∀ i, i < len → d1.getD i 0 = d2.getD i 0) :
    rc522_calculate_CRC E st d1 len = rc522_calculate_CRC E st d2 len := by
  simp only [rc522_calculate_CRC, fifo_load_congr E d1 d2 len _ h]

/-- The bytes returned by `rc522_calculate_CRC` are bytes. -/
theorem calculate_CRC_bytes {σ : Type} (E : Board σ) (st : Run σ) (d : List Nat) (len : Nat) :
    (rc522_calculate_CRC E st d len).1.1 < 256 ∧ (rc522_calculate_CRC E st d len).1.2 < 256 := by
  simp only [rc522_calculate_CRC, rc522_read_reg]
  exact ⟨Nat.mod_lt _ (by decide), Nat.mod_lt _ (by decide)⟩

theorem select_frame_eq (serial_num : List Nat) :
    select_frame serial_num =
      [0x93, 0x70, serial_num.getD 0 0, serial_num.getD 1 0, serial_num.getD 2 0,
        serial_num.getD 3 0, serial_num.getD 4 0] ++ List.replicate 25 0 := by
  rfl

/-- C15: `rc522_select_tag` computes the CRC over exactly the first 7 bytes
of its frame (0x93, 0x70 and the five bytes of `serial_num`), and hands
`rc522_to_card(Transceive)` a buffer that starts with the 9 bytes 0x93, 0x70,
`serial_num[0..4]` in order, then the two bytes `rc522_calculate_CRC`
returned, with length 9.  On the bus, the writes to the FIFO data register
and to the command register are: the 7 bytes, CalcCRC, Idle, the 9 bytes,
Transceive. -/
theorem select_tag_frame {σ : Type} (E : Board σ) (st : Run σ) (serial_num : List Nat)
    (data_received : Nat) :
    ∃ (lo mid : Nat) (added : List Access),
      rc522_calculate_CRC E st (select_frame serial_num) 7 =
        rc522_calculate_CRC E st
          [0x93, 0x70, serial_num.getD 0 0, serial_num.getD 1 0, serial_num.getD 2 0,
            serial_num.getD 3 0, serial_num.getD 4 0] 7 ∧
      (rc522_calculate_CRC E st
          [0x93, 0x70, serial_num.getD 0 0, serial_num.getD 1 0, serial_num.getD 2 0,
            serial_num.getD 3 0, serial_num.getD 4 0] 7).1 = (lo, mid) ∧
      (rc522_select_tag E st serial_num data_received).2 =
        (rc522_to_card E
          (rc522_calculate_CRC E st
            [0x93, 0x70, serial_num.getD 0 0, serial_num.getD 1 0, serial_num.getD 2 0,
              serial_num.getD 3 0, serial_num.getD 4 0] 7).2
          RC522_TRANSCEIVE_CMD
          ([0x93, 0x70, serial_num.getD 0 0, serial_num.getD 1 0, serial_num.getD 2 0,
            serial_num.getD 3 0, serial_num.getD 4 0, lo, mid] ++ List.replicate 23 0) 9
          ([0x93, 0x70, serial_num.getD 0 0, serial_num.getD 1 0, serial_num.getD 2 0,
            serial_num.getD 3 0, serial_num.getD 4 0, lo, mid] ++ List.replicate 23 0)
          data_received).2.2.2 ∧
      (rc522_select_tag E st serial_num data_received).2.log = st.log ++ added ∧
      frame_trace added =
        [Access.wr FIFO_DATA_REG 0x93, Access.wr FIFO_DATA_REG 0x70,
          Access.wr FIFO_DATA_REG (serial_num.getD 0 0 % 256),
          Access.wr FIFO_DATA_REG (serial_num.getD 1 0 % 256),
          Access.wr FIFO_DATA_REG (serial_num.getD 2 0 % 256),
          Access.wr FIFO_DATA_REG (serial_num.getD 3 0 % 256),
          Access.wr FIFO_DATA_REG (serial_num.getD 4 0 % 256),
          Access.wr COMMAND_REG RC522_CALC_CRC_CMD,
          Access.wr COMMAND_REG RC522_IDLE_CMD,
          Access.wr FIFO_DATA_REG 0x93, Access.wr FIFO_DATA_REG 0x70,
          Access.wr FIFO_DATA_REG (serial_num.getD 0 0 % 256),
          Access.wr FIFO_DATA_REG (serial_num.getD 1 0 % 256),
          Access.wr FIFO_DATA_REG (serial_num.getD 2 0 % 256),
          Access.wr FIFO_DATA_REG (serial_num.getD 3 0 % 256),
          Access.wr FIFO_DATA_REG (serial_num.getD 4 0 % 256),
          Access.wr FIFO_DATA_REG lo, Access.wr FIFO_DATA_REG mid,
          Access.wr COMMAND_REG RC522_TRANSCEIVE_CMD] := by
  have hcongr : rc522_calculate_CRC E st (select_frame serial_num) 7 =
      rc522_calculate_CRC E st
        [0x93, 0x70, serial_num.getD 0 0, serial_num.getD 1 0, serial_num.getD 2 0,
          serial_num.getD 3 0, serial_num.getD 4 0] 7 := by
    apply calculate_CRC_congr
    intro i hi
    rw [select_frame_eq]
    interval_cases i <;> rfl
  obtain ⟨x, y, vs, lo, mid, hcl, hcr⟩ := calculate_CRC_log E st (select_frame serial_num) 7
  obtain ⟨hlo, hmid⟩ := calculate_CRC_bytes E st (select_frame serial_num) 7
  rw [hcr] at hlo hmid
  have hsel : (rc522_select_tag E st serial_num data_received).2 =
      (rc522_to_card E (rc522_calculate_CRC E st (select_frame serial_num) 7).2
        RC522_TRANSCEIVE_CMD (((select_frame serial_num).set 7 lo).set 8 mid) 9
        (((select_frame serial_num).set 7 lo).set 8 mid) data_received).2.2.2 := by
    simp only [rc522_select_tag, hcr]
    split_ifs <;> rfl
  have hbuf : ((select_frame serial_num).set 7 lo).set 8 mid =
      [0x93, 0x70, serial_num.getD 0 0, serial_num.getD 1 0, serial_num.getD 2 0,
        serial_num.getD 3 0, serial_num.getD 4 0, lo, mid] ++ List.replicate 23 0 := by
    rw [select_frame_eq]
    rfl
  obtain ⟨a, b, c, rest, htl, hq⟩ := to_card_log E
    (rc522_calculate_CRC E st (select_frame serial_num) 7).2 RC522_TRANSCEIVE_CMD
    (((select_frame serial_num).set 7 lo).set 8 mid) 9
    (((select_frame serial_num).set 7 lo).set 8 mid) data_received
  refine ⟨lo, mid,
    crc_log (select_frame serial_num) 7 x y vs lo mid ++
      (start_log RC522_TRANSCEIVE_CMD (((select_frame serial_num).set 7 lo).set 8 mid) 9 a b c
        ++ rest),
    hcongr, ?_, ?_, ?_, ?_⟩
  · rw [← hcongr, hcr]
  · rw [hsel, hbuf, hcongr]
  · rw [hsel, htl, hcl]
    simp only [List.append_assoc]
  · rw [frame_trace_append, frame_trace_append, frame_trace_crc_log, frame_trace_start_log,
      frame_trace_of_quiet rest hq, hbuf, select_frame_eq]
    simp [List.range_succ, RC522_TRANSCEIVE_CMD, RC522_IDLE_CMD, Nat.mod_eq_of_lt hlo,
      Nat.mod_eq_of_lt hmid]

/-- C19: `rc522_send_halt` computes the CRC over the two bytes 0x50, 0x00
and hands `rc522_to_card(Transceive)` the 4-byte frame 0x50, 0x00 and the two
bytes `rc522_calculate_CRC` returned, with length 4.  On the bus, the writes
to the FIFO data register and to the command register are: the 2 bytes,
CalcCRC, Idle, the 4 bytes, Transceive, so the command is issued exactly once.
What the function leaves behind is the state in which that one call of the
executor ended; the status the executor returned is dropped. -/
theorem send_halt_frame {σ : Type} (E : Board σ) (st : Run σ) (b2 b3 unLen : Nat) :
    ∃ (lo mid : Nat) (added : List Access),
      rc522_calculate_CRC E st [PICC_HALT, 0, b2, b3] 2 =
        rc522_calculate_CRC E st [0x50, 0x00] 2 ∧
      (rc522_calculate_CRC E st [0x50, 0x00] 2).1 = (lo, mid) ∧
      rc522_send_halt E st b2 b3 unLen =
        (rc522_to_card E (rc522_calculate_CRC E st [0x50, 0x00] 2).2 RC522_TRANSCEIVE_CMD
          [0x50, 0x00, lo, mid] 4 [0x50, 0x00, lo, mid] unLen).2.2.2 ∧
      (rc522_send_halt E st b2 b3 unLen).log = st.log ++ added ∧
      frame_trace added =
        [Access.wr FIFO_DATA_REG 0x50, Access.wr FIFO_DATA_REG 0x00,
          Access.wr COMMAND_REG RC522_CALC_CRC_CMD,
          Access.wr COMMAND_REG RC522_IDLE_CMD,
          Access.wr FIFO_DATA_REG 0x50, Access.wr FIFO_DATA_REG 0x00,
          Access.wr FIFO_DATA_REG lo, Access.wr FIFO_DATA_REG mid,
          Access.wr COMMAND_REG RC522_TRANSCEIVE_CMD] ∧
      added.countP (fun e => e == Access.wr COMMAND_REG RC522_TRANSCEIVE_CMD) = 1 := by
  have hcongr : rc522_calculate_CRC E st [PICC_HALT, 0, b2, b3] 2 =
      rc522_calculate_CRC E st [0x50, 0x00] 2 := by
    apply calculate_CRC_congr
    intro i hi
    interval_cases i <;> rfl
  obtain ⟨x, y, vs, lo, mid, hcl, hcr⟩ := calculate_CRC_log E st [0x50, 0x00] 2
  obtain ⟨hlo, hmid⟩ := calculate_CRC_bytes E st [0x50, 0x00] 2
  rw [hcr] at hlo hmid
  have hhalt : rc522_send_halt E st b2 b3 unLen =
      (rc522_to_card E (rc522_calculate_CRC E st [0x50, 0x00] 2).2 RC522_TRANSCEIVE_CMD
        [0x50, 0x00, lo, mid] 4 [0x50, 0x00, lo, mid] unLen).2.2.2 := by
    simp only [rc522_send_halt, hcongr, hcr]
    rfl
  obtain ⟨a, b, c, rest, htl, hq⟩ := to_card_log E
    (rc522_calculate_CRC E st [0x50, 0x00] 2).2 RC522_TRANSCEIVE_CMD
    [0x50, 0x00, lo, mid] 4 [0x50, 0x00, lo, mid] unLen
  have htrace : frame_trace (crc_log [0x50, 0x00] 2 x y vs lo mid ++
      (start_log RC522_TRANSCEIVE_CMD [0x50, 0x00, lo, mid] 4 a b c ++ rest)) =
      [Access.wr FIFO_DATA_REG 0x50, Access.wr FIFO_DATA_REG 0x00,
        Access.wr COMMAND_REG RC522_CALC_CRC_CMD,
        Access.wr COMMAND_REG RC522_IDLE_CMD,
        Access.wr FIFO_DATA_REG 0x50, Access.wr FIFO_DATA_REG 0x00,
        Access.wr FIFO_DATA_REG lo, Access.wr FIFO_DATA_REG mid,
        Access.wr COMMAND_REG RC522_TRANSCEIVE_CMD] := by
    rw [frame_trace_append, frame_trace_append, frame_trace_crc_log, frame_trace_start_log,
      frame_trace_of_quiet rest hq]
    simp [List.range_succ, RC522_TRANSCEIVE_CMD, RC522_IDLE_CMD, Nat.mod_eq_of_lt hlo,
      Nat.mod_eq_of_lt hmid]
  refine ⟨lo, mid,
    crc_log [0x50, 0x00] 2 x y vs lo mid ++
      (start_log RC522_TRANSCEIVE_CMD [0x50, 0x00, lo, mid] 4 a b c ++ rest),
    hcongr, hcr, hhalt, ?_, htrace, ?_⟩
  · rw [hhalt, htl, hcl]
    simp only [List.append_assoc]
  · have hsub : ∀ l : List Access,
        l.countP (fun e => e == Access.wr COMMAND_REG RC522_TRANSCEIVE_CMD) =
        (frame_trace l).countP (fun e => e == Access.wr COMMAND_REG RC522_TRANSCEIVE_CMD) := by
      intro l
      unfold frame_trace
      rw [List.countP_filter]
      apply List.countP_congr
      intro e _
      cases e <;> simp [Access.isWrite]
      intro h _
      exact Or.inr h
    rw [hsub, htrace]
    simp [List.countP_cons, FIFO_DATA_REG, COMMAND_REG, RC522_CALC_CRC_CMD, RC522_IDLE_CMD,
      RC522_TRANSCEIVE_CMD]

/-! ## Waiting for a card to appear -/

/-- The loop of `rc522_wait_for_card_present`: either some read `m` below
`timeout` is the first to show bit 0x10, the loop stops there with TRUE after
writing 0x7F to the interrupt register, or no read below `timeout` shows the
bit and the loop ends with FALSE after `timeout` turns. -/
theorem wait_present_loop_spec {σ : Type} (E : Board σ) :
    ∀ (timeout : Nat) (st : Run σ),
      (∃ m, m < timeout ∧ (∀ n, n < m → present_value E st n &&& 0x10 ≠ 0x10) ∧
        present_value E st m &&& 0x10 = 0x10 ∧
        (wait_present_loop E timeout st).1 = TRUE ∧
        ∃ vs : List Nat, vs.length = m ∧
          (wait_present_loop E timeout st).2.log = st.log ++ present_log vs ++
            [Access.wr BIT_FRAMING_REG 0x87, Access.rd COM_IRQ_REG (present_value E st m),
              Access.wr COM_IRQ_REG 0x7F]) ∨
      ((∀ n, n < timeout → present_value E st n &&& 0x10 ≠ 0x10) ∧
        (wait_present_loop E timeout st).1 = FALSE ∧
        ∃ vs : List Nat, vs.length = timeout ∧
          (wait_present_loop E timeout st).2.log = st.log ++ present_log vs) := by
  intro timeout
  induction timeout with
  | zero =>
    intro st
    exact Or.inr ⟨fun n hn => absurd hn (Nat.not_lt_zero n), rfl, [], rfl, by simp [wait_present_loop, present_log]⟩
  | succ t ih =>
    intro st
    rw [wait_present_loop]
    by_cases hb : (present_read E st).1 &&& 0x10 = 0x10
    · left
      have hb0 : present_value E st 0 &&& 0x10 = 0x10 := hb
      simp only [present_read] at hb
      simp only [if_pos hb]
      refine ⟨0, Nat.succ_pos t, fun n hn => absurd hn (Nat.not_lt_zero n), hb0, trivial, [], rfl, ?_⟩
      simp [present_log, show_on_lcd, write_reg_log, read_reg_log, present_value, present_state,
        present_read]
    · have hb0 : present_value E st 0 &&& 0x10 ≠ 0x10 := hb
      simp only [present_read] at hb
      simp only [if_neg hb]
      have hlog0 : (ms_delay E (show_on_lcd E
          (rc522_read_reg E (rc522_write_reg E st BIT_FRAMING_REG 0x87) COM_IRQ_REG).2
          (rc522_read_reg E (rc522_write_reg E st BIT_FRAMING_REG 0x87) COM_IRQ_REG).1) 5).log =
          st.log ++ present_log
            [(rc522_read_reg E (rc522_write_reg E st BIT_FRAMING_REG 0x87) COM_IRQ_REG).1] := by
        simp [present_log, show_on_lcd, write_reg_log, read_reg_log, ms_delay]
      have hval : ∀ n, present_value E (ms_delay E (show_on_lcd E
          (rc522_read_reg E (rc522_write_reg E st BIT_FRAMING_REG 0x87) COM_IRQ_REG).2
          (rc522_read_reg E (rc522_write_reg E st BIT_FRAMING_REG 0x87) COM_IRQ_REG).1) 5) n =
          present_value E st (n + 1) := fun _ => rfl
      rcases ih (ms_delay E (show_on_lcd E
          (rc522_read_reg E (rc522_write_reg E st BIT_FRAMING_REG 0x87) COM_IRQ_REG).2
          (rc522_read_reg E (rc522_write_reg E st BIT_FRAMING_REG 0x87) COM_IRQ_REG).1) 5) with
        ⟨m, hm, hbefore, hat, hres, vs, hlen, hlog⟩ | ⟨hnone, hres, vs, hlen, hlog⟩
      · left
        refine ⟨m + 1, Nat.succ_lt_succ hm, ?_, ?_, hres,
          (rc522_read_reg E (rc522_write_reg E st BIT_FRAMING_REG 0x87) COM_IRQ_REG).1 :: vs,
          by simp [hlen], ?_⟩
        · intro n hn
          cases n with
          | zero => exact hb0
          | succ n => rw [← hval]; exact hbefore n (Nat.lt_of_succ_lt_succ hn)
        · rw [← hval]; exact hat
        · rw [hlog, hlog0, hval]
          simp [present_log]
      · right
        refine ⟨?_, hres,
          (rc522_read_reg E (rc522_write_reg E st BIT_FRAMING_REG 0x87) COM_IRQ_REG).1 :: vs,
          by simp [hlen], ?_⟩
        · intro n hn
          cases n with
          | zero => exact hb0
          | succ n => rw [← hval]; exact hnone n (Nat.lt_of_succ_lt_succ hn)
        · rw [hlog, hlog0]
          simp [present_log]

/-- Turns that found no card read the interrupt register once each and never
write it. -/
theorem present_log_shape (vs : List Nat) :
    (present_log vs).countP (Access.isRead COM_IRQ_REG) = vs.length ∧
    (present_log vs).countP (Access.isWrite COM_IRQ_REG) = 0 := by
  induction vs with
  | nil => simp [present_log]
  | cons v vs ih =>
    obtain ⟨h1, h2⟩ := ih
    constructor
    · simp only [present_log, List.countP_cons, h1]
      simp [Access.isRead, BIT_FRAMING_REG, COM_IRQ_REG]
    · simp only [present_log, List.countP_cons, h2]
      simp [Access.isWrite, BIT_FRAMING_REG, COM_IRQ_REG]

/-- C16: `rc522_wait_for_card_present(timeout)` returns true exactly when one
of its first `timeout` reads of the interrupt register has bit 0x10 set.  It
makes at most `timeout` such reads (none, and the result false, when
`timeout` is 0).  When it returns true it has stopped at the first read `m`
that shows the bit, after `m + 1` reads, and the last thing it did was to
write 0x7F to the interrupt register, its only write to that register; when
it returns false it has made `timeout` reads and has not written to the
interrupt register. -/
theorem wait_for_card_present_spec {σ : Type} (E : Board σ) (st : Run σ) (timeout : Nat) :
    ((rc522_wait_for_card_present E st timeout).1 = TRUE ↔
      ∃ n, n < timeout ∧ present_value E st n &&& 0x10 = 0x10) ∧
    ((rc522_wait_for_card_present E st timeout).1 = TRUE ∨
      (rc522_wait_for_card_present E st timeout).1 = FALSE) ∧
    (timeout = 0 → rc522_wait_for_card_present E st timeout = (FALSE, st)) ∧
    ∃ added : List Access,
      (rc522_wait_for_card_present E st timeout).2.log = st.log ++ added ∧
      added.countP (Access.isRead COM_IRQ_REG) ≤ timeout ∧
      ((rc522_wait_for_card_present E st timeout).1 = TRUE →
        ∃ m, m < timeout ∧ (∀ n, n < m → present_value E st n &&& 0x10 ≠ 0x10) ∧
          present_value E st m &&& 0x10 = 0x10 ∧
          added.countP (Access.isRead COM_IRQ_REG) = m + 1 ∧
          added.countP (Access.isWrite COM_IRQ_REG) = 1 ∧
          added.getLast? = some (Access.wr COM_IRQ_REG 0x7F)) ∧
      ((rc522_wait_for_card_present E st timeout).1 = FALSE →
        added.countP (Access.isRead COM_IRQ_REG) = timeout ∧
        added.countP (Access.isWrite COM_IRQ_REG) = 0) := by
  have hne : TRUE ≠ FALSE := by decide
  unfold rc522_wait_for_card_present
  rcases wait_present_loop_spec E timeout st with
    ⟨m, hm, hbefore, hat, hres, vs, hlen, hlog⟩ | ⟨hnone, hres, vs, hlen, hlog⟩
  · obtain ⟨c1, c2⟩ := present_log_shape vs
    have hr : (present_log vs ++
        [Access.wr BIT_FRAMING_REG 0x87, Access.rd COM_IRQ_REG (present_value E st m),
          Access.wr COM_IRQ_REG 0x7F]).countP (Access.isRead COM_IRQ_REG) = m + 1 := by
      rw [List.countP_append, c1, hlen]
      simp [List.countP_cons, Access.isRead, BIT_FRAMING_REG, COM_IRQ_REG]
    have hw : (present_log vs ++
        [Access.wr BIT_FRAMING_REG 0x87, Access.rd COM_IRQ_REG (present_value E st m),
          Access.wr COM_IRQ_REG 0x7F]).countP (Access.isWrite COM_IRQ_REG) = 1 := by
      rw [List.countP_append, c2]
      simp [List.countP_cons, Access.isWrite, BIT_FRAMING_REG, COM_IRQ_REG]
    refine ⟨⟨fun _ => ⟨m, hm, hat⟩, fun _ => hres⟩, Or.inl hres, ?_,
      present_log vs ++
        [Access.wr BIT_FRAMING_REG 0x87, Access.rd COM_IRQ_REG (present_value E st m),
          Access.wr COM_IRQ_REG 0x7F], ?_, ?_, ?_, ?_⟩
    · intro h0
      exact absurd hm (by omega)
    · rw [hlog, List.append_assoc]
    · rw [hr]
      omega
    · intro _
      exact ⟨m, hm, hbefore, hat, hr, hw, by simp⟩
    · intro h
      rw [hres] at h
      exact absurd h hne
  · obtain ⟨c1, c2⟩ := present_log_shape vs
    refine ⟨⟨fun h => ?_, fun ⟨n, hn, hb⟩ => absurd hb (hnone n hn)⟩, Or.inr hres, ?_,
      present_log vs, hlog, ?_, ?_, ?_⟩
    · rw [hres] at h
      exact absurd h.symm hne
    · intro h0
      subst h0
      rfl
    · rw [c1, hlen]
    · intro h
      rw [hres] at h
      exact absurd h.symm hne
    · intro _
      exact ⟨by rw [c1, hlen], c2⟩

/-! ## Waiting for a card to leave -/

/-- The loop of `rc522_wait_for_card_removed`: either some read `m` below
`timeout` is the first to show both bit 0x10 and bit 0x02 and the loop stops
there with TRUE, or no read below `timeout` shows both and the loop ends with
FALSE after `timeout` turns. -/
theorem wait_removed_loop_spec {σ : Type} (E : Board σ) :
    ∀ (timeout : Nat) (st : Run σ),
      (∃ m, m < timeout ∧
        (∀ n, n < m →
          ¬ (removed_value E st n &&& 0x10 ≠ 0 ∧ removed_value E st n &&& 0x02 ≠ 0)) ∧
        (removed_value E st m &&& 0x10 ≠ 0 ∧ removed_value E st m &&& 0x02 ≠ 0) ∧
        (wait_removed_loop E timeout st).1 = TRUE ∧
        ∃ vs : List Nat, vs.length = m ∧
          (wait_removed_loop E timeout st).2.log = st.log ++ removed_log vs ++
            [Access.rd COM_IRQ_REG (removed_value E st m)]) ∨
      ((∀ n, n < timeout →
          ¬ (removed_value E st n &&& 0x10 ≠ 0 ∧ removed_value E st n &&& 0x02 ≠ 0)) ∧
        (wait_removed_loop E timeout st).1 = FALSE ∧
        ∃ vs : List Nat, vs.length = timeout ∧
          (wait_removed_loop E timeout st).2.log = st.log ++ removed_log vs) := by
  intro timeout
  induction timeout with
  | zero =>
    intro st
    exact Or.inr ⟨fun n hn => absurd hn (Nat.not_lt_zero n), rfl, [], rfl,
      by simp [wait_removed_loop, removed_log]⟩
  | succ t ih =>
    intro st
    rw [wait_removed_loop]
    by_cases hb : (rc522_read_reg E st COM_IRQ_REG).1 &&& 0x10 ≠ 0 ∧
        (rc522_read_reg E st COM_IRQ_REG).1 &&& 0x02 ≠ 0
    · left
      simp only [if_pos hb]
      refine ⟨0, Nat.succ_pos t, fun n hn => absurd hn (Nat.not_lt_zero n), hb, trivial, [], rfl,
        ?_⟩
      simp [removed_log, read_reg_log, removed_value, removed_state]
    · simp only [if_neg hb]
      have hlog0 : (ms_delay E (rc522_read_reg E st COM_IRQ_REG).2 1).log =
          st.log ++ removed_log [(rc522_read_reg E st COM_IRQ_REG).1] := by
        simp [removed_log, read_reg_log, ms_delay]
      have hval : ∀ n, removed_value E (ms_delay E (rc522_read_reg E st COM_IRQ_REG).2 1) n =
          removed_value E st (n + 1) := fun _ => rfl
      rcases ih (ms_delay E (rc522_read_reg E st COM_IRQ_REG).2 1) with
        ⟨m, hm, hbefore, hat, hres, vs, hlen, hlog⟩ | ⟨hnone, hres, vs, hlen, hlog⟩
      · left
        refine ⟨m + 1, Nat.succ_lt_succ hm, ?_, ?_, hres,
          (rc522_read_reg E st COM_IRQ_REG).1 :: vs, by simp [hlen], ?_⟩
        · intro n hn
          cases n with
          | zero => exact hb
          | succ n => rw [← hval]; exact hbefore n (Nat.lt_of_succ_lt_succ hn)
        · rw [← hval]; exact hat
        · rw [hlog, hlog0, hval]
          simp [removed_log]
      · right
        refine ⟨?_, hres, (rc522_read_reg E st COM_IRQ_REG).1 :: vs, by simp [hlen], ?_⟩
        · intro n hn
          cases n with
          | zero => exact hb
          | succ n => rw [← hval]; exact hnone n (Nat.lt_of_succ_lt_succ hn)
        · rw [hlog, hlog0]
          simp [removed_log]

/-- Turns that did not see the card leave read the interrupt register once
each. -/
theorem removed_log_shape (vs : List Nat) :
    (removed_log vs).countP (Access.isRead COM_IRQ_REG) = vs.length := by
  induction vs with
  | nil => simp [removed_log]
  | cons v vs ih =>
    simp only [removed_log, List.countP_cons, ih]
    simp [Access.isRead]

/-- C17: `rc522_wait_for_card_removed(timeout)` first writes 0x00 to the
bit-framing register and then returns true exactly when one of its first
`timeout` reads of the interrupt register has both bit 0x10 and bit 0x02 set.
It makes at most `timeout` reads: it stops at the first read that matches, and
returns false after `timeout` reads when none of them matches. -/
theorem wait_for_card_removed_spec {σ : Type} (E : Board σ) (st : Run σ) (timeout : Nat) :
    ((rc522_wait_for_card_removed E st timeout).1 = TRUE ↔
      ∃ n, n < timeout ∧
        removed_value E (rc522_write_reg E st BIT_FRAMING_REG 0x00) n &&& 0x10 ≠ 0 ∧
        removed_value E (rc522_write_reg E st BIT_FRAMING_REG 0x00) n &&& 0x02 ≠ 0) ∧
    ((rc522_wait_for_card_removed E st timeout).1 = TRUE ∨
      (rc522_wait_for_card_removed E st timeout).1 = FALSE) ∧
    ∃ added : List Access,
      (rc522_wait_for_card_removed E st timeout).2.log =
        st.log ++ [Access.wr BIT_FRAMING_REG 0x00] ++ added ∧
      added.countP (Access.isRead COM_IRQ_REG) ≤ timeout ∧
      ((rc522_wait_for_card_removed E st timeout).1 = TRUE →
        ∃ m, m < timeout ∧
          (∀ n, n < m →
            ¬ (removed_value E (rc522_write_reg E st BIT_FRAMING_REG 0x00) n &&& 0x10 ≠ 0 ∧
              removed_value E (rc522_write_reg E st BIT_FRAMING_REG 0x00) n &&& 0x02 ≠ 0)) ∧
          added.countP (Access.isRead COM_IRQ_REG) = m + 1) ∧
      ((rc522_wait_for_card_removed E st timeout).1 = FALSE →
        added.countP (Access.isRead COM_IRQ_REG) = timeout) := by
  have hne : TRUE ≠ FALSE := by decide
  unfold rc522_wait_for_card_removed
  rcases wait_removed_loop_spec E timeout (rc522_write_reg E st BIT_FRAMING_REG 0x00) with
    ⟨m, hm, hbefore, hat, hres, vs, hlen, hlog⟩ | ⟨hnone, hres, vs, hlen, hlog⟩
  · have hr : (removed_log vs ++
        [Access.rd COM_IRQ_REG
          (removed_value E (rc522_write_reg E st BIT_FRAMING_REG 0x00) m)]).countP
        (Access.isRead COM_IRQ_REG) = m + 1 := by
      rw [List.countP_append, removed_log_shape, hlen]
      simp [List.countP_cons, Access.isRead]
    refine ⟨⟨fun _ => ⟨m, hm, hat⟩, fun _ => hres⟩, Or.inl hres,
      removed_log vs ++
        [Access.rd COM_IRQ_REG (removed_value E (rc522_write_reg E st BIT_FRAMING_REG 0x00) m)],
      ?_, ?_, ?_, ?_⟩
    · rw [hlog, write_reg_log]
      simp
    · rw [hr]
      omega
    · intro _
      exact ⟨m, hm, hbefore, hr⟩
    · intro h
      rw [hres] at h
      exact absurd h hne
  · refine ⟨⟨fun h => ?_, fun ⟨n, hn, hb⟩ => absurd hb (hnone n hn)⟩, Or.inr hres,
      removed_log vs, ?_, ?_, ?_, ?_⟩
    · rw [hres] at h
      exact absurd h.symm hne
    · rw [hlog, write_reg_log]
    · rw [removed_log_shape, hlen]
    · intro h
      rw [hres] at h
      exact absurd h.symm hne
    · intro _
      rw [removed_log_shape, hlen]

/-! ## Read-modify-write of a register -/

/-- A register read on the last-value-written device. -/
theorem mem_read_reg (st : Run (Option Nat × (Nat → Nat))) (reg : Nat) (hreg : reg < 64) :
    rc522_read_reg memBoard st reg =
      (st.hw.2 reg % 256, ⟨(none, st.hw.2), st.log ++ [Access.rd reg (st.hw.2 reg % 256)]⟩) := by
  obtain ⟨h1, h2, -, -⟩ := sim_address_decode reg hreg
  simp only [rc522_read_reg, memBoard, h1, h2, ne_eq, not_false_eq_true, if_true]

/-- A register write on the last-value-written device. -/
theorem mem_write_reg (st : Run (Option Nat × (Nat → Nat))) (reg value : Nat)
    (hreg : reg < 64) :
    rc522_write_reg memBoard st reg value =
      ⟨(none, fun r => if r = reg then value % 256 else st.hw.2 r),
        st.log ++ [Access.wr reg (value % 256)]⟩ := by
  obtain ⟨-, -, h3, h4⟩ := sim_address_decode reg hreg
  simp only [rc522_write_reg, memBoard, h3, h4, ne_eq, not_true_eq_false, if_false]

/-- Clearing with the 16-bit complement of a byte mask and truncating to a
byte is clearing with the 8-bit complement. -/
theorem clear_mask_byte (old mask : Nat) (hold : old < 256) :
    (old &&& (0xFFFF ^^^ mask)) % 256 = old &&& (0xFF ^^^ mask) := by
  have hle : old &&& (0xFFFF ^^^ mask) < 256 := Nat.lt_of_le_of_lt Nat.and_le_left hold
  rw [Nat.mod_eq_of_lt hle]
  apply Nat.eq_of_testBit_eq
  intro i
  simp only [Nat.testBit_and, Nat.testBit_xor]
  by_cases hi : i < 8
  · have h1 : Nat.testBit 0xFFFF i = true := by
      interval_cases i <;> decide
    have h2 : Nat.testBit 0xFF i = true := by
      interval_cases i <;> decide
    rw [h1, h2]
  · have h0 : old.testBit i = false := by
      apply Nat.testBit_lt_two_pow
      calc old < 2 ^ 8 := hold
        _ ≤ 2 ^ i := Nat.pow_le_pow_right (by decide) (by omega)
    simp [h0]

/-- C21: over a device whose registers return the last value written,
`rc522_set_bitmask(addr, mask)` leaves register `addr` holding `old | mask`
and `rc522_clear_bitmask(addr, mask)` leaves it holding `old & ~mask` as a
byte; every bit of `addr` outside `mask` and every other register is as it
was, and each call makes exactly one register read followed by one register
write, both of register `addr`. -/
theorem bitmask_read_modify_write (st : Run (Option Nat × (Nat → Nat))) (addr mask : Nat)
    (haddr : addr < 64) (hmask : mask < 256) (hold : st.hw.2 addr < 256) :
    ((rc522_set_bitmask memBoard st addr mask).hw.2 addr = st.hw.2 addr ||| mask ∧
      (rc522_clear_bitmask memBoard st addr mask).hw.2 addr =
        st.hw.2 addr &&& (0xFF ^^^ mask)) ∧
    (∀ i, mask.testBit i = false →
      ((rc522_set_bitmask memBoard st addr mask).hw.2 addr).testBit i =
          (st.hw.2 addr).testBit i ∧
      ((rc522_clear_bitmask memBoard st addr mask).hw.2 addr).testBit i =
          (st.hw.2 addr).testBit i) ∧
    (∀ r, r ≠ addr →
      (rc522_set_bitmask memBoard st addr mask).hw.2 r = st.hw.2 r ∧
      (rc522_clear_bitmask memBoard st addr mask).hw.2 r = st.hw.2 r) ∧
    (rc522_set_bitmask memBoard st addr mask).log =
      st.log ++ [Access.rd addr (st.hw.2 addr), Access.wr addr (st.hw.2 addr ||| mask)] ∧
    (rc522_clear_bitmask memBoard st addr mask).log =
      st.log ++ [Access.rd addr (st.hw.2 addr),
        Access.wr addr (st.hw.2 addr &&& (0xFF ^^^ mask))] := by
  have hor : (st.hw.2 addr ||| mask) % 256 = st.hw.2 addr ||| mask :=
    Nat.mod_eq_of_lt (@Nat.or_lt_two_pow _ _ 8 hold hmask)
  have hand : (st.hw.2 addr &&& (0xFFFF ^^^ mask)) % 256 = st.hw.2 addr &&& (0xFF ^^^ mask) :=
    clear_mask_byte _ mask hold
  have hset : rc522_set_bitmask memBoard st addr mask =
      ⟨(none, fun r => if r = addr then st.hw.2 addr ||| mask else st.hw.2 r),
        st.log ++ [Access.rd addr (st.hw.2 addr), Access.wr addr (st.hw.2 addr ||| mask)]⟩ := by
    simp only [rc522_set_bitmask, mem_read_reg st addr haddr, mem_write_reg _ _ _ haddr,
      Nat.mod_eq_of_lt hold, hor, List.append_assoc, List.cons_append, List.nil_append]
  have hclr : rc522_clear_bitmask memBoard st addr mask =
      ⟨(none, fun r => if r = addr then st.hw.2 addr &&& (0xFF ^^^ mask) else st.hw.2 r),
        st.log ++ [Access.rd addr (st.hw.2 addr),
          Access.wr addr (st.hw.2 addr &&& (0xFF ^^^ mask))]⟩ := by
    simp only [rc522_clear_bitmask, mem_read_reg st addr haddr, mem_write_reg _ _ _ haddr,
      Nat.mod_eq_of_lt hold, hand, Nat.mod_eq_of_lt (Nat.lt_of_le_of_lt Nat.and_le_left hold),
      List.append_assoc, List.cons_append, List.nil_append]
  rw [hset, hclr]
  refine ⟨⟨by simp, by simp⟩, ?_, ?_, rfl, rfl⟩
  · intro i hi
    simp only [if_true, Nat.testBit_or, Nat.testBit_and, Nat.testBit_xor, hi, Bool.or_false,
      Bool.xor_false, true_and]
    by_cases h8 : i < 8
    · have h2 : Nat.testBit 0xFF i = true := by
        interval_cases i <;> decide
      simp [h2]
    · have h0 : (st.hw.2 addr).testBit i = false := by
        apply Nat.testBit_lt_two_pow
        calc st.hw.2 addr < 2 ^ 8 := hold
          _ ≤ 2 ^ i := Nat.pow_le_pow_right (by decide) (by omega)
      simp [h0]
  · intro r hr
    simp [hr]

/-- Witness of C21: the bit-framing register holds 0x21; setting 0x80 leaves
0xA1 and clearing 0x01 leaves 0x20. -/
theorem bitmask_read_modify_write_witness :
    (rc522_set_bitmask memBoard ⟨(none, fun _ => 0x21), []⟩ BIT_FRAMING_REG 0x80).hw.2
        BIT_FRAMING_REG = 0xA1 ∧
    (rc522_clear_bitmask memBoard ⟨(none, fun _ => 0x21), []⟩ BIT_FRAMING_REG 0x01).hw.2
        BIT_FRAMING_REG = 0x20 ∧
    (rc522_set_bitmask memBoard ⟨(none, fun _ => 0x21), []⟩ BIT_FRAMING_REG 0x80).log =
      [Access.rd BIT_FRAMING_REG 0x21, Access.wr BIT_FRAMING_REG 0xA1] :=
  ⟨(bitmask_read_modify_write ⟨(none, fun _ => 0x21), []⟩ BIT_FRAMING_REG 0x80
      (by decide) (by decide) (by decide)).1.1.trans (by decide),
   (bitmask_read_modify_write ⟨(none, fun _ => 0x21), []⟩ BIT_FRAMING_REG 0x01
      (by decide) (by decide) (by decide)).1.2.trans (by decide),
   (bitmask_read_modify_write ⟨(none, fun _ => 0x21), []⟩ BIT_FRAMING_REG 0x80
      (by decide) (by decide) (by decide)).2.2.2.1.trans (by decide)⟩

/-! ## The polling loop and the command writes of the executor -/

/-- C22: the polling loop of `rc522_to_card` is a run of polls, each a 10 ms
delay followed by one read of the interrupt-status register; there are at
least 1 and at most 2000 of them; no poll before the last shows the timer bit
0x01 or a bit of the done-bit group of the command, and when fewer than 2000
polls were made the last one does, so the loop stops at the first such read
or else after the 2000th.  The done-bit group is 0x30 for Transceive, 0x10
for Authent and empty for every other command.  The first access of the run,
before all of this, is the write of the interrupt-enable register with the
mask of the command (0x77 for Transceive, 0x12 for Authent, 0x00 otherwise)
ORed with 0x80. -/
theorem to_card_polling {σ : Type} (E : Board σ) (st : Run σ) (command : Nat)
    (data_to_send : List Nat) (data_length : Nat) :
    (∃ (a b c : Nat) (vs : List Nat),
      (to_card_polled E st command data_to_send data_length).2.2.log =
        st.log ++ start_log command data_to_send data_length a b c ++ poll_log vs ∧
      (start_log command data_to_send data_length a b c).head? =
        some (Access.wr COM_IEN_REG (irqEn_of command ||| 0x80)) ∧
      1 ≤ vs.length ∧ vs.length ≤ 2000 ∧
      (poll_log vs).countP (Access.isRead COM_IRQ_REG) = vs.length ∧
      (∀ v ∈ vs.dropLast, v &&& 0x01 = 0 ∧ v &&& waitIRq_of command = 0) ∧
      (vs.length < 2000 →
        vs.getLast?.getD 0 &&& 0x01 ≠ 0 ∨ vs.getLast?.getD 0 &&& waitIRq_of command ≠ 0) ∧
      (to_card_polled E st command data_to_send data_length).2.1 = vs.getLast?.getD 0 ∧
      (to_card_polled E st command data_to_send data_length).1 = 2000 - vs.length) ∧
    (waitIRq_of RC522_TRANSCEIVE_CMD = 0x30 ∧ waitIRq_of RC522_AUTHENT_CMD = 0x10 ∧
      ∀ c, c ≠ RC522_TRANSCEIVE_CMD → c ≠ RC522_AUTHENT_CMD → waitIRq_of c = 0x00) ∧
    (irqEn_of RC522_TRANSCEIVE_CMD = 0x77 ∧ irqEn_of RC522_AUTHENT_CMD = 0x12 ∧
      ∀ c, c ≠ RC522_TRANSCEIVE_CMD → c ≠ RC522_AUTHENT_CMD → irqEn_of c = 0x00) := by
  obtain ⟨a, b, c, hstart⟩ := to_card_start_log E st command data_to_send data_length
  obtain ⟨vs, hne, hlen, hlog, hcnt, hlast, hquiet, hstop⟩ :=
    to_card_wait_log E (waitIRq_of command) 1999
      (to_card_start E st command data_to_send data_length)
  have hp : to_card_polled E st command data_to_send data_length =
      to_card_wait E (waitIRq_of command) 1999
        (to_card_start E st command data_to_send data_length) := rfl
  have hirq : (irqEn_of command ||| 0x80) % 256 = irqEn_of command ||| 0x80 := by
    unfold irqEn_of
    split_ifs <;> rfl
  refine ⟨⟨a, b, c, vs, ?_, ?_, ?_, hlen, (poll_log_shape vs).2.1, hquiet, ?_, ?_, ?_⟩,
    ⟨rfl, rfl, ?_⟩, ⟨rfl, rfl, ?_⟩⟩
  · rw [hp, hlog, hstart]
  · simp only [start_log, List.cons_append, List.head?_cons, hirq]
  · cases vs with
    | nil => exact absurd rfl hne
    | cons v vs => simp
  · intro hlt
    have hc : (to_card_wait E (waitIRq_of command) 1999
        (to_card_start E st command data_to_send data_length)).1 ≠ 0 := by
      rw [hcnt]
      omega
    have := hstop hc
    by_contra hcon
    push_neg at hcon
    exact this hcon
  · rw [hp, hlast]
  · rw [hp, hcnt]
  · intro c h1 h2
    simp [waitIRq_of, h1, h2]
  · intro c h1 h2
    simp [irqEn_of, h1, h2]

/-- Counting the writes of the command register in a log is counting them in
its frame trace. -/
theorem countP_command_frame_trace (l : List Access) :
    l.countP (Access.isWrite COMMAND_REG) =
      (frame_trace l).countP (Access.isWrite COMMAND_REG) := by
  unfold frame_trace
  rw [List.countP_filter]
  apply List.countP_congr
  intro e _
  cases e with
  | rd r v => simp [Access.isWrite]
  | delay ms => simp [Access.isWrite]
  | wr r v =>
    simp only [Access.isWrite, Bool.and_eq_true, Bool.or_eq_true, beq_iff_eq]
    exact ⟨fun h => ⟨h, Or.inr h⟩, fun h => h.1⟩

/-- C23: in every run of `rc522_to_card`, whatever the device does and
whatever status comes back, the writes the run makes to the command register
and to the FIFO data register are, in order: Idle (0x00) to the command
register, the `data_length` outgoing bytes in index order to the FIFO data
register, `command` to the command register.  So the command register is
written exactly twice and `command` is issued once, with no retry. -/
theorem to_card_command_once {σ : Type} (E : Board σ) (st : Run σ) (command : Nat)
    (data_to_send : List Nat) (data_length : Nat) (receive_data : List Nat)
    (bytes_received : Nat) :
    ∃ added : List Access,
      (rc522_to_card E st command data_to_send data_length receive_data
        bytes_received).2.2.2.log = st.log ++ added ∧
      frame_trace added =
        [Access.wr COMMAND_REG RC522_IDLE_CMD] ++
        (List.range data_length).map
          (fun i => Access.wr FIFO_DATA_REG (data_to_send.getD i 0 % 256)) ++
        [Access.wr COMMAND_REG (command % 256)] ∧
      added.countP (Access.isWrite COMMAND_REG) = 2 ∧
      added.countP (Access.isWrite FIFO_DATA_REG) = data_length := by
  obtain ⟨a, b, c, rest, hlog, hrest⟩ :=
    to_card_log E st command data_to_send data_length receive_data bytes_received
  have hft : frame_trace (start_log command data_to_send data_length a b c ++ rest) =
      [Access.wr COMMAND_REG RC522_IDLE_CMD] ++
        (List.range data_length).map
          (fun i => Access.wr FIFO_DATA_REG (data_to_send.getD i 0 % 256)) ++
        [Access.wr COMMAND_REG (command % 256)] := by
    rw [frame_trace_append, frame_trace_start_log, frame_trace_of_quiet rest hrest,
      List.append_nil]
  have hmapc : ((List.range data_length).map
      (fun i => Access.wr FIFO_DATA_REG (data_to_send.getD i 0 % 256))).countP
        (Access.isWrite COMMAND_REG) = 0 := by
    rw [List.countP_eq_zero]
    intro e he
    obtain ⟨i, _, rfl⟩ := List.mem_map.mp he
    simp [Access.isWrite, FIFO_DATA_REG, COMMAND_REG]
  have hmapf : ((List.range data_length).map
      (fun i => Access.wr FIFO_DATA_REG (data_to_send.getD i 0 % 256))).countP
        (Access.isWrite FIFO_DATA_REG) = data_length := by
    rw [List.countP_eq_length.mpr, List.length_map, List.length_range]
    intro e he
    obtain ⟨i, _, rfl⟩ := List.mem_map.mp he
    simp [Access.isWrite]
  have hfifo : ∀ l : List Access, l.countP (Access.isWrite FIFO_DATA_REG) =
      (frame_trace l).countP (Access.isWrite FIFO_DATA_REG) := by
    intro l
    unfold frame_trace
    rw [List.countP_filter]
    apply List.countP_congr
    intro e _
    cases e with
    | rd r v => simp [Access.isWrite]
    | delay ms => simp [Access.isWrite]
    | wr r v =>
      simp only [Access.isWrite, Bool.and_eq_true, Bool.or_eq_true, beq_iff_eq]
      exact ⟨fun h => ⟨h, Or.inl h⟩, fun h => h.1⟩
  refine ⟨start_log command data_to_send data_length a b c ++ rest, ?_, hft, ?_, ?_⟩
  · rw [hlog, List.append_assoc]
  · rw [countP_command_frame_trace, hft, List.countP_append, List.countP_append, hmapc]
    simp [List.countP_cons, Access.isWrite]
  · rw [hfifo, hft, List.countP_append, List.countP_append, hmapf]
    simp [List.countP_cons, Access.isWrite, FIFO_DATA_REG, COMMAND_REG]

/-! ## The PIN phase of `authenticate` -/

/-- The PIN loop changes neither `successful_authentication` nor the alarm. -/
theorem pin_loop_keeps : ∀ (keys : List Nat) (s t : PinState), pin_loop keys s = some t →
    t.successful_authentication = s.successful_authentication ∧ t.alarm = s.alarm := by
  intro keys
  induction keys with
  | nil =>
    intro s t h
    simp only [pin_loop] at h
    split_ifs at h
    cases h
    exact ⟨rfl, rfl⟩
  | cons key keys ih =>
    intro s t h
    simp only [pin_loop] at h
    split_ifs at h
    all_goals first
      | (cases h; exact ⟨rfl, rfl⟩)
      | (have hh := ih _ t h; exact hh)

/-- The PIN loop ends once enough keys have been pressed: each turn takes one
key, and a wrong fourth digit uses up a try. -/
theorem pin_loop_returns : ∀ (keys : List Nat) (s : PinState),
    (MAX_PIN_TRIES - 1 - s.current_administrator_try) * 4 ≤
      keys.length + (if s.current_pin_idx > 3 then 0 else s.current_pin_idx) →
    (pin_loop keys s).isSome = true := by
  intro keys
  induction keys with
  | nil =>
    intro s h
    have hi3 : (if s.current_pin_idx > 3 then 0 else s.current_pin_idx) ≤ 3 := by
      split_ifs <;> omega
    simp only [pin_loop, MAX_PIN_TRIES, List.length_nil] at h ⊢
    split_ifs with h1
    · omega
    · rfl
  | cons key keys ih =>
    intro s h
    have hi3 : (if s.current_pin_idx > 3 then 0 else s.current_pin_idx) ≤ 3 := by
      split_ifs <;> omega
    simp only [pin_loop]
    generalize (if s.current_pin_idx > 3 then 0 else s.current_pin_idx) = i at h hi3 ⊢
    by_cases h1 : s.current_administrator_try < MAX_PIN_TRIES - 1
    · simp only [if_pos h1]
      split_ifs with h2 h3
      · rfl
      · apply ih
        simp only [MAX_PIN_TRIES, List.length_cons] at h h1 ⊢
        split_ifs <;> omega
      · apply ih
        simp only [MAX_PIN_TRIES, List.length_cons] at h h1 ⊢
        split_ifs <;> omega
    · simp only [if_neg h1]
      rfl

set_option maxRecDepth 100000 in
/-- C24 (the code at the failing input): with an administrator card accepted,
two wrong four-digit PINs (5 6 7 8, twice) use up every try the loop allows
(`current_administrator_try` reaches `MAX_PIN_TRIES - 1`) and `authenticate`
returns without calling `beginAlarm`.  In general the PIN phase returns once
eight keys have been pressed, so the chances are bounded, but no sequence of
keys makes it call `beginAlarm`: the test after the loop reads
`successful_authentication`, which is `AUTHENTICATED_ADMINISTRATOR`
throughout this branch. -/
theorem authenticate_pin_no_alarm :
    authenticate_pin AUTHENTICATED_ADMINISTRATOR [0, 0, 0, 0] [5, 6, 7, 8, 5, 6, 7, 8] =
      some ⟨AUTHENTICATED_ADMINISTRATOR, 3, 4, [5, 6, 7, 8], false⟩ ∧
    (∀ pin_sequence keys : List Nat, 8 ≤ keys.length →
      (authenticate_pin AUTHENTICATED_ADMINISTRATOR pin_sequence keys).isSome = true) ∧
    (∀ (pin_sequence keys : List Nat) (s : PinState),
      authenticate_pin AUTHENTICATED_ADMINISTRATOR pin_sequence keys = some s →
      s.alarm = false) := by
  refine ⟨by decide, ?_, ?_⟩
  · intro pin_sequence keys hlen
    have h := pin_loop_returns keys ⟨AUTHENTICATED_ADMINISTRATOR, 1, 0, pin_sequence, false⟩
      (by simp only [MAX_PIN_TRIES]; omega)
    simp only [authenticate_pin, if_true]
    cases hp : pin_loop keys ⟨AUTHENTICATED_ADMINISTRATOR, 1, 0, pin_sequence, false⟩ with
    | none => rw [hp] at h; exact absurd h (by decide)
    | some t => simp only []; split_ifs <;> rfl
  · intro pin_sequence keys s h
    simp only [authenticate_pin, if_true] at h
    cases hp : pin_loop keys ⟨AUTHENTICATED_ADMINISTRATOR, 1, 0, pin_sequence, false⟩ with
    | none => rw [hp] at h; cases h
    | some t =>
      obtain ⟨h1, h2⟩ := pin_loop_keeps keys _ t hp
      rw [hp] at h
      simp only [h1, ne_eq, not_true_eq_false, if_false] at h
      cases h
      exact h2

/-! ## Short anticollision responses -/

set_option maxRecDepth 100000 in
/-- C25: there is a device response shorter than 5 bytes for which
`MFRC522_Anticoll` returns Ok.  The caller's buffer holds zeros and the
simulated IC delivers the single byte 0x20: the executor returns Ok with a bit
count of 8, one byte is read from the FIFO, the buffer comes back as
20 20 00 00 00 (the received byte, the outgoing 0x20, the caller's zeros) and
the result is Ok.  In general the result of `MFRC522_Anticoll` is a function
of the executor's status and of the first five bytes of the buffer alone; the
bit count does not enter it. -/
theorem anticoll_short_response (unLen : Nat) :
    ((anticoll_exchange simBoard ⟨Chip.init (fixedCard [0x20] 0), []⟩ [0, 0, 0, 0, 0] 0).1
        = MI_OK ∧
      (anticoll_exchange simBoard ⟨Chip.init (fixedCard [0x20] 0), []⟩ [0, 0, 0, 0, 0] 0).2.2.1
        = 8 ∧
      ((MFRC522_Anticoll simBoard ⟨Chip.init (fixedCard [0x20] 0), []⟩
        [0, 0, 0, 0, 0] unLen).2.2.log.countP (Access.isRead FIFO_DATA_REG)) = 1 ∧
      (MFRC522_Anticoll simBoard ⟨Chip.init (fixedCard [0x20] 0), []⟩
        [0, 0, 0, 0, 0] unLen).2.1 = [0x20, 0x20, 0, 0, 0] ∧
      (MFRC522_Anticoll simBoard ⟨Chip.init (fixedCard [0x20] 0), []⟩
        [0, 0, 0, 0, 0] unLen).1 = MI_OK) ∧
    (∀ (σ : Type) (E : Board σ) (st : Run σ) (serial_num : List Nat) (u : Nat),
      (MFRC522_Anticoll E st serial_num u).1 =
        if (anticoll_exchange E st serial_num u).1 = MI_OK then
          if (anticoll_exchange E st serial_num u).2.1.getD 4 0 =
              (anticoll_exchange E st serial_num u).2.1.getD 0 0 ^^^
              (anticoll_exchange E st serial_num u).2.1.getD 1 0 ^^^
              (anticoll_exchange E st serial_num u).2.1.getD 2 0 ^^^
              (anticoll_exchange E st serial_num u).2.1.getD 3 0
          then MI_OK else MI_ERR
        else (anticoll_exchange E st serial_num u).1) := by
  refine ⟨?_, ?_⟩
  · rw [anticoll_indep]
    decide
  · intro σ E st serial_num u
    rw [anticoll_eq]

/-! ## An event on the last poll -/

/-- A poll among the first `k` that shows the timer bit or a done bit stops
the polling loop entered with counter `k + 1` before the counter reaches 0. -/
theorem to_card_wait_event {σ : Type} (E : Board σ) (waitIRq : Nat) :
    ∀ (k : Nat) (st : Run σ),
      (∃ n, n < k ∧
        ¬ (poll_value E st n &&& 0x01 = 0 ∧ poll_value E st n &&& waitIRq = 0)) →
      (to_card_wait E waitIRq k st).1 ≠ 0 := by
  intro k
  induction k with
  | zero =>
    intro st h
    obtain ⟨n, hn, -⟩ := h
    exact absurd hn (Nat.not_lt_zero n)
  | succ k ih =>
    intro st h
    rw [to_card_wait]
    by_cases hq : (rc522_read_reg E (ms_delay E st 10) COM_IRQ_REG).1 &&& 0x01 = 0 ∧
        (rc522_read_reg E (ms_delay E st 10) COM_IRQ_REG).1 &&& waitIRq = 0
    · simp only [if_pos hq]
      obtain ⟨n, hn, hev⟩ := h
      cases n with
      | zero => exact absurd hq hev
      | succ m =>
        exact ih (rc522_read_reg E (ms_delay E st 10) COM_IRQ_REG).2
          ⟨m, Nat.lt_of_succ_lt_succ hn, hev⟩
    · simp only [if_neg hq]
      exact Nat.succ_ne_zero k

/-- When the first `k` polls show neither the timer bit nor a done bit, the
polling loop entered with counter `k + 1` leaves in `ird_status_reg` the value
of poll number `k`, its last. -/
theorem to_card_wait_last {σ : Type} (E : Board σ) (waitIRq : Nat) :
    ∀ (k : Nat) (st : Run σ),
      (∀ n, n < k → poll_value E st n &&& 0x01 = 0 ∧ poll_value E st n &&& waitIRq = 0) →
      (to_card_wait E waitIRq k st).2.1 = poll_value E st k := by
  intro k
  induction k with
  | zero =>
    intro st _
    rfl
  | succ k ih =>
    intro st hquiet
    rw [to_card_wait]
    have h0 := hquiet 0 (Nat.succ_pos k)
    simp only [poll_value, poll_state] at h0
    simp only [if_pos h0]
    exact ih (rc522_read_reg E (ms_delay E st 10) COM_IRQ_REG).2
      (fun n hn => hquiet (n + 1) (Nat.succ_lt_succ hn))

/-- On the simulated IC the polls leave the pending interrupt flags as they
are and count the latency down. -/
theorem sim_poll_state : ∀ (n : Nat) (st : Run Chip),
    (poll_state simBoard n st).hw.pending = st.hw.pending - n ∧
    (poll_state simBoard n st).hw.irq = st.hw.irq := by
  intro n
  induction n with
  | zero =>
    intro st
    exact ⟨rfl, rfl⟩
  | succ n ih =>
    intro st
    rw [poll_state]
    obtain ⟨h1, h2⟩ := ih (rc522_read_reg simBoard (ms_delay simBoard st 10) COM_IRQ_REG).2
    rw [h1, h2, sim_read_reg _ _ (by decide)]
    have hd : (ms_delay simBoard st 10).hw = st.hw := rfl
    simp only [hd, Chip.read, if_true]
    split_ifs with hp
    · simp [hp]
    · refine ⟨?_, rfl⟩
      show st.hw.pending - 1 - n = st.hw.pending - (n + 1)
      omega

/-- On the simulated IC a poll shows 0 while the latency lasts and the
pending interrupt flags afterwards. -/
theorem sim_poll_value (st : Run Chip) (n : Nat) :
    poll_value simBoard st n = if n < st.hw.pending then 0 else st.hw.irq % 256 := by
  obtain ⟨h1, h2⟩ := sim_poll_state n st
  rw [poll_value, sim_read_reg _ _ (by decide)]
  have hd : (ms_delay simBoard (poll_state simBoard n st) 10).hw =
      (poll_state simBoard n st).hw := rfl
  simp only [hd, Chip.read, if_true]
  split_ifs with hp hn hn
  · omega
  · simp [h2]
  · rfl
  · omega

/-- C26: the counter of `rc522_to_card` is not zero at the exit of the
polling loop exactly when one of the first 1999 polls shows the timer bit or
a done bit of the command.  So when the first 1999 polls are quiet the call
returns Error whatever the 2000th poll shows (a completion bit included):
`ird_status_reg` holds the value of the 2000th poll, but the error register
is not read, the FIFO is not drained, the receive buffer and the bit count
are left as they were, and the accesses made are those of a timeout with no
event (start-up, 2000 polls, the read and write that clear StartSend). -/
theorem to_card_last_poll {σ : Type} (E : Board σ) (st : Run σ) (command : Nat)
    (data_to_send : List Nat) (data_length : Nat) (receive_data : List Nat)
    (bytes_received : Nat) :
    ((to_card_polled E st command data_to_send data_length).1 ≠ 0 ↔
      ∃ n, n < 1999 ∧
        ¬ (poll_value E (to_card_start E st command data_to_send data_length) n &&& 0x01 = 0 ∧
          poll_value E (to_card_start E st command data_to_send data_length) n &&&
            waitIRq_of command = 0)) ∧
    ((∀ n, n < 1999 →
        poll_value E (to_card_start E st command data_to_send data_length) n &&& 0x01 = 0 ∧
        poll_value E (to_card_start E st command data_to_send data_length) n &&&
          waitIRq_of command = 0) →
      (to_card_polled E st command data_to_send data_length).2.1 =
        poll_value E (to_card_start E st command data_to_send data_length) 1999 ∧
      (rc522_to_card E st command data_to_send data_length receive_data bytes_received).1
        = MI_ERR ∧
      (rc522_to_card E st command data_to_send data_length receive_data bytes_received).2.1
        = receive_data ∧
      (rc522_to_card E st command data_to_send data_length receive_data bytes_received).2.2.1
        = bytes_received ∧
      ∃ added : List Access,
        (rc522_to_card E st command data_to_send data_length receive_data
            bytes_received).2.2.2.log = st.log ++ added ∧
        (∃ (a b c : Nat) (vs : List Nat) (x y : Nat), vs.length = 2000 ∧
          added = start_log command data_to_send data_length a b c ++ poll_log vs ++
            [Access.rd BIT_FRAMING_REG x, Access.wr BIT_FRAMING_REG y]) ∧
        added.countP (Access.isRead ERROR_REG) = 0 ∧
        added.countP (Access.isRead FIFO_DATA_REG) = 0) := by
  have hp : to_card_polled E st command data_to_send data_length =
      to_card_wait E (waitIRq_of command) 1999
        (to_card_start E st command data_to_send data_length) := rfl
  have hmain : (∀ n, n < 1999 →
        poll_value E (to_card_start E st command data_to_send data_length) n &&& 0x01 = 0 ∧
        poll_value E (to_card_start E st command data_to_send data_length) n &&&
          waitIRq_of command = 0) →
      (to_card_wait E (waitIRq_of command) 1999
        (to_card_start E st command data_to_send data_length)).1 = 0 :=
    fun hq => (to_card_wait_quiet E (waitIRq_of command) 1999
      (to_card_start E st command data_to_send data_length) hq).1
  refine ⟨⟨?_, ?_⟩, ?_⟩
  · intro hne
    by_contra hcon
    push_neg at hcon
    rw [hp] at hne
    exact hne (hmain (fun n hn => by
      by_contra hq
      exact hq ⟨(hcon n hn).1, (hcon n hn).2⟩))
  · intro hev
    rw [hp]
    exact to_card_wait_event E (waitIRq_of command) 1999 _ hev
  · intro hquiet
    obtain ⟨h0, vs, hlen, hlog⟩ := to_card_wait_quiet E (waitIRq_of command) 1999
      (to_card_start E st command data_to_send data_length) hquiet
    obtain ⟨a, b, c, hstart⟩ := to_card_start_log E st command data_to_send data_length
    obtain ⟨s1, s2, s3, s4⟩ := start_log_shape command data_to_send data_length a b c
    obtain ⟨p1, p2, p3⟩ := poll_log_shape vs
    have hr : rc522_to_card E st command data_to_send data_length receive_data
        bytes_received =
        (MI_ERR, receive_data, bytes_received,
          rc522_clear_bitmask E
            (to_card_wait E (waitIRq_of command) 1999
              (to_card_start E st command data_to_send data_length)).2.2
            BIT_FRAMING_REG 0x80) := by
      simp only [rc522_to_card, Nat.reduceAdd, Nat.reduceMod, h0, ne_eq, not_true_eq_false,
        if_false]
    obtain ⟨x, y, hclr⟩ : ∃ x y : Nat, (rc522_clear_bitmask E
        (to_card_wait E (waitIRq_of command) 1999
          (to_card_start E st command data_to_send data_length)).2.2 BIT_FRAMING_REG 0x80).log =
        (to_card_wait E (waitIRq_of command) 1999
          (to_card_start E st command data_to_send data_length)).2.2.log ++
          [Access.rd BIT_FRAMING_REG x, Access.wr BIT_FRAMING_REG y] :=
      ⟨_, _, clear_bitmask_log E _ BIT_FRAMING_REG 0x80⟩
    rw [hr, hp]
    refine ⟨to_card_wait_last E (waitIRq_of command) 1999 _ hquiet, rfl, rfl, rfl,
      start_log command data_to_send data_length a b c ++ poll_log vs ++
        [Access.rd BIT_FRAMING_REG x, Access.wr BIT_FRAMING_REG y],
      ?_, ⟨a, b, c, vs, x, y, hlen, rfl⟩, ?_, ?_⟩
    · simp only [hclr, hlog, hstart, List.append_assoc]
    · rw [List.countP_append, List.countP_append, s3, p3 ERROR_REG (by decide)]
      simp [List.countP_cons, Access.isRead, BIT_FRAMING_REG, ERROR_REG]
    · rw [List.countP_append, List.countP_append, s2, p3 FIFO_DATA_REG (by decide)]
      simp [List.countP_cons, Access.isRead, BIT_FRAMING_REG, FIFO_DATA_REG]

/-- The simulated IC after the start-up phase of a REQA sent to a card whose
answer appears after `latency` quiet polls. -/
theorem sim_start_latency : ∀ latency : Nat, latency = 1999 ∨ latency = 1998 →
    (to_card_start simBoard ⟨Chip.init (fun _ => ⟨[4, 0], 0, 0x30, 0, latency⟩), []⟩
      RC522_TRANSCEIVE_CMD [0x26] 1).hw.pending = latency ∧
    (to_card_start simBoard ⟨Chip.init (fun _ => ⟨[4, 0], 0, 0x30, 0, latency⟩), []⟩
      RC522_TRANSCEIVE_CMD [0x26] 1).hw.irq = 0x30 := by
  intro latency h
  rcases h with rfl | rfl <;> decide

/-- Witness of C26: on the simulated IC a card whose answer shows up at the
2000th poll (1999 quiet polls first) makes the executor return Error although
that poll reads the done bits 0x30; with one quiet poll less the counter is
not zero at the exit of the loop. -/
theorem to_card_last_poll_witness :
    (poll_value simBoard
        (to_card_start simBoard ⟨Chip.init (fun _ => ⟨[4, 0], 0, 0x30, 0, 1999⟩), []⟩
          RC522_TRANSCEIVE_CMD [0x26] 1) 1999 = 0x30 ∧
      (rc522_to_card simBoard ⟨Chip.init (fun _ => ⟨[4, 0], 0, 0x30, 0, 1999⟩), []⟩
        RC522_TRANSCEIVE_CMD [0x26] 1 [0x26] 0).1 = MI_ERR) ∧
    (to_card_polled simBoard ⟨Chip.init (fun _ => ⟨[4, 0], 0, 0x30, 0, 1998⟩), []⟩
      RC522_TRANSCEIVE_CMD [0x26] 1).1 ≠ 0 :=
  ⟨⟨by rw [sim_poll_value, (sim_start_latency 1999 (Or.inl rfl)).1, (sim_start_latency 1999 (Or.inl rfl)).2]; decide,
    ((to_card_last_poll simBoard ⟨Chip.init (fun _ => ⟨[4, 0], 0, 0x30, 0, 1999⟩), []⟩
      RC522_TRANSCEIVE_CMD [0x26] 1 [0x26] 0).2
      (fun n hn => by
        rw [sim_poll_value, (sim_start_latency 1999 (Or.inl rfl)).1, if_pos hn]
        decide)).2.1⟩,
   (to_card_last_poll simBoard ⟨Chip.init (fun _ => ⟨[4, 0], 0, 0x30, 0, 1998⟩), []⟩
      RC522_TRANSCEIVE_CMD [0x26] 1 [0x26] 0).1.mpr
      ⟨1998, by decide, by
        rw [sim_poll_value, (sim_start_latency 1998 (Or.inr rfl)).1, (sim_start_latency 1998 (Or.inr rfl)).2]
        decide⟩⟩

/-! ## Commands other than Transceive -/

/-- C27: for every command other than Transceive (Authent included) and every
device, `rc522_to_card` does not return NoTag: the enabled mask of the
command has bit 0x01 clear, so whenever the polling ends with the counter not
at zero and the error register shows no masked bit the result is Ok, the
timer bit in the interrupt status notwithstanding. -/
theorem to_card_no_notag {σ : Type} (E : Board σ) (st : Run σ) (command : Nat)
    (data_to_send : List Nat) (data_length : Nat) (receive_data : List Nat)
    (bytes_received : Nat) (hcmd : command ≠ RC522_TRANSCEIVE_CMD) :
    (rc522_to_card E st command data_to_send data_length receive_data bytes_received).1
        ≠ MI_NOTAGERR ∧
    irqEn_of command &&& 0x01 = 0 ∧
    ((to_card_polled E st command data_to_send data_length).1 ≠ 0 →
      (to_card_error E st command data_to_send data_length).1 &&& 0x1B = 0 →
      (rc522_to_card E st command data_to_send data_length receive_data bytes_received).1
        = MI_OK) := by
  have hmask : irqEn_of command &&& 0x01 = 0 := by
    unfold irqEn_of
    rw [if_neg hcmd]
    split_ifs <;> rfl
  have hbit : ∀ v : Nat, v &&& irqEn_of command &&& 0x01 = 0 := by
    intro v
    rw [Nat.and_assoc, hmask, Nat.and_zero]
  refine ⟨?_, hmask, ?_⟩
  · simp only [rc522_to_card, hbit, ne_eq, not_true_eq_false, if_false]
    split_ifs <;> simp [MI_ERR, MI_OK, MI_NOTAGERR]
  · intro hcnt herr
    simp only [to_card_polled, to_card_error] at hcnt herr
    simp only [rc522_to_card, hbit, ne_eq, not_true_eq_false, if_false, hcnt,
      not_false_eq_true, if_true, herr, if_neg hcmd]

set_option maxRecDepth 100000 in
/-- Witness of C27: a device whose interrupt status reads 0x01 (timer bit) and
whose other registers read 0.  Authent ends its polling on the timer bit and
returns Ok; the same device makes Transceive return NoTag. -/
theorem to_card_no_notag_witness :
    RC522_AUTHENT_CMD ≠ RC522_TRANSCEIVE_CMD ∧
    (to_card_polled memBoard ⟨(none, fun r => if r = COM_IRQ_REG then 1 else 0), []⟩
      RC522_AUTHENT_CMD [0x60, 0x04] 2).2.1 &&& 0x01 ≠ 0 ∧
    (rc522_to_card memBoard ⟨(none, fun r => if r = COM_IRQ_REG then 1 else 0), []⟩
      RC522_AUTHENT_CMD [0x60, 0x04] 2 [] 0).1 = MI_OK ∧
    (rc522_to_card memBoard ⟨(none, fun r => if r = COM_IRQ_REG then 1 else 0), []⟩
      RC522_TRANSCEIVE_CMD [0x60, 0x04] 2 [0] 0).1 = MI_NOTAGERR :=
  ⟨by decide, by decide,
    (to_card_no_notag memBoard ⟨(none, fun r => if r = COM_IRQ_REG then 1 else 0), []⟩
      RC522_AUTHENT_CMD [0x60, 0x04] 2 [] 0 (by decide)).2.2 (by decide) (by decide),
    by decide⟩

/-! ## Failed selection and the names of the card types -/

/-- C28: whenever `rc522_select_tag` fails (executor status not Ok, or bit
count not 24) it returns 0, and `MFRC522_ParseType` of that value is
MifareUltralight, the classification of a card whose SAK is 0x00; the name
printed for it by `authenticate` is that of MifareUltralight. -/
theorem failed_select_classified {σ : Type} (E : Board σ) (st : Run σ)
    (serial_num : List Nat) (data_received : Nat)
    (hfail : ¬ ((select_exchange E st serial_num data_received).1 = MI_OK ∧
      (select_exchange E st serial_num data_received).2.2.1 = 24)) :
    (rc522_select_tag E st serial_num data_received).1 = 0 ∧
    MFRC522_ParseType 0 = PICC_TYPE_MIFARE_UL ∧
    MFRC522_ParseType (rc522_select_tag E st serial_num data_received).1 =
      PICC_TYPE_MIFARE_UL ∧
    MFRC522_ParseType (rc522_select_tag E st serial_num data_received).1 =
      MFRC522_ParseType 0x00 ∧
    rc522_type_to_string
        (MFRC522_ParseType (rc522_select_tag E st serial_num data_received).1) =
      some "PICC_TYPE_MIFARE_UL" := by
  have h0 : (rc522_select_tag E st serial_num data_received).1 = 0 := by
    simp only [select_exchange] at hfail
    simp only [rc522_select_tag, if_neg hfail]
  rw [h0]
  exact ⟨rfl, by decide, by decide, rfl, by decide⟩

set_option maxRecDepth 100000 in
/-- Witness of C28: on the simulated IC a select answered with only 16 bits
fails and is classified MifareUltralight, exactly as the successful select of
a card whose SAK is 0x00 (answer 00 FE 51, 24 bits). -/
theorem failed_select_classified_witness :
    ¬ ((select_exchange simBoard ⟨Chip.init (fixedCard [0x08, 0xB6] 0), []⟩
          [1, 2, 3, 4, 4] 0).1 = MI_OK ∧
        (select_exchange simBoard ⟨Chip.init (fixedCard [0x08, 0xB6] 0), []⟩
          [1, 2, 3, 4, 4] 0).2.2.1 = 24) ∧
    MFRC522_ParseType (rc522_select_tag simBoard ⟨Chip.init (fixedCard [0x08, 0xB6] 0), []⟩
      [1, 2, 3, 4, 4] 0).1 = PICC_TYPE_MIFARE_UL ∧
    ((select_exchange simBoard ⟨Chip.init (fixedCard [0x00, 0xFE, 0x51] 0), []⟩
          [1, 2, 3, 4, 4] 0).1 = MI_OK ∧
      (select_exchange simBoard ⟨Chip.init (fixedCard [0x00, 0xFE, 0x51] 0), []⟩
          [1, 2, 3, 4, 4] 0).2.2.1 = 24 ∧
      MFRC522_ParseType (rc522_select_tag simBoard
        ⟨Chip.init (fixedCard [0x00, 0xFE, 0x51] 0), []⟩ [1, 2, 3, 4, 4] 0).1 =
        PICC_TYPE_MIFARE_UL) :=
  ⟨by decide,
   (failed_select_classified simBoard ⟨Chip.init (fixedCard [0x08, 0xB6] 0), []⟩
      [1, 2, 3, 4, 4] 0 (by decide)).2.2.1,
   by decide⟩

/-- C29: for every SAK value `MFRC522_ParseType` returns one of the ten
values 0..9 of `PICC_TYPE_t`, so `rc522_type_to_string(MFRC522_ParseType(sak))`
indexes inside the 10-entry table `PICC_TYPE_STRING` and returns a string;
the string at each enumerator's index is the name of that enumerator. -/
theorem type_to_string_in_range (sak : Nat) :
    MFRC522_ParseType sak ≤ 9 ∧
    PICC_TYPE_STRING.length = 10 ∧
    MFRC522_ParseType sak < PICC_TYPE_STRING.length ∧
    (∃ name : String, rc522_type_to_string (MFRC522_ParseType sak) = some name) ∧
    (rc522_type_to_string PICC_TYPE_NOT_COMPLETE = some "PICC_TYPE_NOT_COMPLETE" ∧
      rc522_type_to_string PICC_TYPE_MIFARE_MINI = some "PICC_TYPE_MIFARE_MINI" ∧
      rc522_type_to_string PICC_TYPE_MIFARE_1K = some "PICC_TYPE_MIFARE_1K" ∧
      rc522_type_to_string PICC_TYPE_MIFARE_4K = some "PICC_TYPE_MIFARE_4K" ∧
      rc522_type_to_string PICC_TYPE_MIFARE_UL = some "PICC_TYPE_MIFARE_UL" ∧
      rc522_type_to_string PICC_TYPE_MIFARE_PLUS = some "PICC_TYPE_MIFARE_PLUS" ∧
      rc522_type_to_string PICC_TYPE_TNP3XXX = some "PICC_TYPE_TNP3XXX" ∧
      rc522_type_to_string PICC_TYPE_ISO_14443_4 = some "PICC_TYPE_ISO_14443_4" ∧
      rc522_type_to_string PICC_TYPE_ISO_18092 = some "PICC_TYPE_ISO_18092" ∧
      rc522_type_to_string PICC_TYPE_UNKNOWN = some "PICC_TYPE_UNKNOWN") ∧
    (∀ t, 10 ≤ t → rc522_type_to_string t = none) := by
  have hle : MFRC522_ParseType sak ≤ 9 := by
    unfold MFRC522_ParseType
    simp only [PICC_TYPE_UNKNOWN, PICC_TYPE_NOT_COMPLETE, PICC_TYPE_MIFARE_MINI,
      PICC_TYPE_MIFARE_1K, PICC_TYPE_MIFARE_4K, PICC_TYPE_MIFARE_UL, PICC_TYPE_MIFARE_PLUS,
      PICC_TYPE_TNP3XXX, PICC_TYPE_ISO_14443_4, PICC_TYPE_ISO_18092]
    split_ifs <;> (try split) <;> omega
  have hlen : PICC_TYPE_STRING.length = 10 := rfl
  refine ⟨hle, hlen, by omega, ?_, by decide, ?_⟩
  · have hlt : MFRC522_ParseType sak < PICC_TYPE_STRING.length := by omega
    exact ⟨PICC_TYPE_STRING[MFRC522_ParseType sak], by
      simp only [rc522_type_to_string]
      exact List.getElem?_eq_getElem hlt⟩
  · intro t ht
    simp only [rc522_type_to_string]
    exact List.getElem?_eq_none (by omega)

/-! ## Consequences of the bit-count wrap -/

/-- The bit count a completing Transceive reports. -/
theorem to_card_bits_eq {σ : Type} (E : Board σ) (st : Run σ)
    (data_to_send : List Nat) (data_length : Nat) (receive_data : List Nat)
    (bytes_received : Nat)
    (hcnt : (to_card_polled E st RC522_TRANSCEIVE_CMD data_to_send data_length).1 ≠ 0)
    (herr : (to_card_error E st RC522_TRANSCEIVE_CMD data_to_send data_length).1 &&& 0x1B = 0) :
    (rc522_to_card E st RC522_TRANSCEIVE_CMD data_to_send data_length receive_data
        bytes_received).2.2.1 =
      to_card_bits (to_card_level E st RC522_TRANSCEIVE_CMD data_to_send data_length).1
        ((to_card_control E st RC522_TRANSCEIVE_CMD data_to_send data_length).1 &&& 0x07) := by
  simp only [to_card_polled, to_card_error, to_card_level, to_card_control] at hcnt herr ⊢
  simp only [rc522_to_card, hcnt, herr, ne_eq, not_false_eq_true, if_true]

/-- The bit count in the wrap case: 65528 + lastBits, with lastBits in 1..7. -/
theorem to_card_bits_wrap {σ : Type} (E : Board σ) (st : Run σ)
    (data_to_send : List Nat) (data_length : Nat) (receive_data : List Nat)
    (bytes_received : Nat)
    (h : completes_empty_with_last_bits E st data_to_send data_length) :
    (rc522_to_card E st RC522_TRANSCEIVE_CMD data_to_send data_length receive_data
        bytes_received).2.2.1 =
      65528 + ((to_card_control E st RC522_TRANSCEIVE_CMD data_to_send data_length).1 &&& 0x07) ∧
    1 ≤ (to_card_control E st RC522_TRANSCEIVE_CMD data_to_send data_length).1 &&& 0x07 ∧
    (to_card_control E st RC522_TRANSCEIVE_CMD data_to_send data_length).1 &&& 0x07 ≤ 7 := by
  obtain ⟨hcnt, herr, hlevel, hlast⟩ := h
  have hlt : (to_card_control E st RC522_TRANSCEIVE_CMD data_to_send data_length).1 &&& 0x07 < 8 :=
    Nat.lt_of_le_of_lt Nat.and_le_right (by decide)
  rw [to_card_bits_eq E st data_to_send data_length receive_data bytes_received hcnt herr, hlevel]
  exact ⟨(to_card_bits_cases 0 _ (by decide) hlt).2.2 hlast rfl, Nat.pos_of_ne_zero hlast,
    Nat.le_of_lt_succ hlt⟩

/-- C30 (as amended): when a completing Transceive reads FIFO level 0 together
with a non-zero lastBits value k (1..7), the 16-bit bit count it reports is
65528 + k.  When this happens in the executor call of `rc522_select_tag`, the
function returns 0.  When it happens in the executor call of
`rc522_is_card_present`, the function does not return Ok: it returns Error
when the executor's status is Ok, and the executor's own status otherwise. -/
theorem bit_count_wrap_effects {σ : Type} (E : Board σ) (st : Run σ)
    (data_to_send : List Nat) (data_length : Nat) (receive_data : List Nat)
    (bytes_received : Nat) (req_mode : Nat) (tag_type : List Nat) (backBits : Nat)
    (serial_num : List Nat) (data_received : Nat) :
    (completes_empty_with_last_bits E st data_to_send data_length →
      (rc522_to_card E st RC522_TRANSCEIVE_CMD data_to_send data_length receive_data
          bytes_received).2.2.1 =
        65528 +
          ((to_card_control E st RC522_TRANSCEIVE_CMD data_to_send data_length).1 &&& 0x07) ∧
      1 ≤ (to_card_control E st RC522_TRANSCEIVE_CMD data_to_send data_length).1 &&& 0x07 ∧
      (to_card_control E st RC522_TRANSCEIVE_CMD data_to_send data_length).1 &&& 0x07 ≤ 7) ∧
    (completes_empty_with_last_bits E (rc522_write_reg E st BIT_FRAMING_REG 0x07)
        (tag_type.set 0 req_mode) 1 →
      (rc522_is_card_present E st req_mode tag_type backBits).1 ≠ MI_OK ∧
      ((present_exchange E st req_mode tag_type backBits).1 = MI_OK →
        (rc522_is_card_present E st req_mode tag_type backBits).1 = MI_ERR) ∧
      ((present_exchange E st req_mode tag_type backBits).1 ≠ MI_OK →
        (rc522_is_card_present E st req_mode tag_type backBits).1 =
          (present_exchange E st req_mode tag_type backBits).1)) ∧
    (completes_empty_with_last_bits E
        (rc522_calculate_CRC E st (select_frame serial_num) 7).2
        (((select_frame serial_num).set 7
          (rc522_calculate_CRC E st (select_frame serial_num) 7).1.1).set 8
          (rc522_calculate_CRC E st (select_frame serial_num) 7).1.2) 9 →
      (rc522_select_tag E st serial_num data_received).1 = 0) := by
  refine ⟨fun h => to_card_bits_wrap E st data_to_send data_length receive_data
    bytes_received h, ?_, ?_⟩
  · intro h
    obtain ⟨hb, h1, h7⟩ := to_card_bits_wrap E _ _ 1 (tag_type.set 0 req_mode) backBits h
    have hne : (present_exchange E st req_mode tag_type backBits).2.2.1 ≠ 16 := by
      rw [present_exchange, hb]
      omega
    rw [is_card_present_eq]
    refine ⟨?_, ?_, ?_⟩
    · split_ifs with ha
      · exact ha
      · decide
    · intro hok
      rw [if_neg (not_not.mpr hok), if_pos hne]
    · intro hnok
      rw [if_pos hnok]
  · intro h
    obtain ⟨hb, h1, h7⟩ := to_card_bits_wrap E _ _ 9
      (((select_frame serial_num).set 7
        (rc522_calculate_CRC E st (select_frame serial_num) 7).1.1).set 8
        (rc522_calculate_CRC E st (select_frame serial_num) 7).1.2) data_received h
    have hne : ¬ ((select_exchange E st serial_num data_received).1 = MI_OK ∧
        (select_exchange E st serial_num data_received).2.2.1 = 0x18) := by
      intro hc
      have h24 := hc.2
      rw [select_exchange] at h24
      rw [hb] at h24
      omega
    simp only [select_exchange] at hne
    simp only [rc522_select_tag, if_neg hne]

set_option maxRecDepth 100000 in
/-- Witness of C30 (as amended): the simulated IC answers with an empty FIFO
and lastBits 1 and the done bits 0x30.  The executor reports Ok with 65529
bits, `rc522_is_card_present` returns Error and `rc522_select_tag` returns 0. -/
theorem bit_count_wrap_effects_witness :
    (completes_empty_with_last_bits simBoard
        (rc522_write_reg simBoard ⟨Chip.init (fixedCard [] 1), []⟩ BIT_FRAMING_REG 0x07)
        ((List.replicate 16 0).set 0 0x26) 1 ∧
      (present_exchange simBoard ⟨Chip.init (fixedCard [] 1), []⟩ 0x26
        (List.replicate 16 0) 0).1 = MI_OK ∧
      (present_exchange simBoard ⟨Chip.init (fixedCard [] 1), []⟩ 0x26
        (List.replicate 16 0) 0).2.2.1 = 65529 ∧
      (rc522_is_card_present simBoard ⟨Chip.init (fixedCard [] 1), []⟩ 0x26
        (List.replicate 16 0) 0).1 = MI_ERR) ∧
    (rc522_select_tag simBoard ⟨Chip.init (fixedCard [] 1), []⟩ [1, 2, 3, 4, 4] 0).1 = 0 :=
  ⟨⟨by unfold completes_empty_with_last_bits; decide, by decide, by decide,
    ((bit_count_wrap_effects simBoard ⟨Chip.init (fixedCard [] 1), []⟩ [] 0 [] 0 0x26
      (List.replicate 16 0) 0 [1, 2, 3, 4, 4] 0).2.1
      (by unfold completes_empty_with_last_bits; decide)).2.1 (by decide)⟩,
   (bit_count_wrap_effects simBoard ⟨Chip.init (fixedCard [] 1), []⟩ [] 0 [] 0 0x26
      (List.replicate 16 0) 0 [1, 2, 3, 4, 4] 0).2.2
      (by unfold completes_empty_with_last_bits; decide)⟩

set_option maxRecDepth 100000 in
/-- Counterexample to C30 as stated: the simulated IC ends the REQA of
`rc522_is_card_present` on the timer bit (interrupt status 0x01) with no error
bit, FIFO level 0 and lastBits 1.  The Transceive completes and reports 65529
bits, and `rc522_is_card_present` returns NoTag, not Error. -/
theorem bit_count_wrap_notag :
    completes_empty_with_last_bits simBoard
      (rc522_write_reg simBoard ⟨Chip.init (fun _ => ⟨[], 1, 0x01, 0, 0⟩), []⟩
        BIT_FRAMING_REG 0x07)
      ((List.replicate 16 0).set 0 0x26) 1 ∧
    (present_exchange simBoard ⟨Chip.init (fun _ => ⟨[], 1, 0x01, 0, 0⟩), []⟩ 0x26
      (List.replicate 16 0) 0).2.2.1 = 65529 ∧
    (rc522_is_card_present simBoard ⟨Chip.init (fun _ => ⟨[], 1, 0x01, 0, 0⟩), []⟩ 0x26
      (List.replicate 16 0) 0).1 = MI_NOTAGERR ∧
    (rc522_is_card_present simBoard ⟨Chip.init (fun _ => ⟨[], 1, 0x01, 0, 0⟩), []⟩ 0x26
      (List.replicate 16 0) 0).1 ≠ MI_ERR := by
  unfold completes_empty_with_last_bits
  decide

end RC522
